import Mathlib

/-!
# FastoNoSQL: command dispatch and the RocksDB driver event handlers

A shallow embedding of

* `core::internal::CommandHandler::Execute`, whose only source here is its unit test
  `tests/unit_test_command_holder.cpp` (the handler itself is modelled from the specification);
* the event handlers, command builders and descriptor functions of
  `core/rocksdb/rocksdb_driver.cpp`;
* the option parser and the single-line form of `core/leveldb/leveldb_config.cpp`;
* the database descriptor of `core/unqlite/database.cpp`;
* the command listing and the scan-reply decoding of `proxy/db/leveldb/driver.cpp`;
* the version selector of `gui/shell/base_shell_widget.cpp`;
* the generic connection behind `core/db/forestdb/db_connection.h`, of which only the
  declarations are at hand (its operations are modelled from the specification).

C strings are lists of characters, `common::Error` is an optional `ErrorValue`, and the calls a
handler makes on its collaborators are recorded in order.
-/

namespace fastonosql

namespace common

/-- The error kinds of `common::ErrorValue`; the driver files construct `E_ERROR` and
`E_INTERRUPTED`. -/
inductive ErrorsType
  | E_NONE
  | E_EXCEPTION
  | E_ERROR
  | E_INTERRUPTED
deriving DecidableEq, Repr

/-- An error value: `common::ErrorValue(description, errorType)`. -/
structure ErrorValue where
  description : String
  errorType : ErrorsType
deriving DecidableEq, Repr

/-- The `common::Error` smart pointer: `none` is the null pointer, which is how success is
reported (`return common::Error();`). -/
abbrev Error := Option ErrorValue

end common

namespace core

/-! ## Command table and dispatch -/

/-- Modelled from the spec: `core::CommandHolder` (declared in `core/command_holder.h`, which is
not among the sources). The record of section 3: name, argument usage string, help text,
since-version tag, example text, min-args, max-args-offset and the handler reference `F`. The
field order is the one of the constructor calls in `unit_test_command_holder.cpp`. -/
structure CommandHolder (F : Type) where
  name : String
  usage : String
  help : String
  since : String
  example_text : String
  min_args : Nat
  max_args_offset : Nat
  func : F
deriving DecidableEq, Repr

/-- Modelled from the spec: `core::internal::CommandHandler` (declared in
`core/internal/command_handler.h`, not among the sources): the ordered, immutable sequence of
registered commands. -/
structure CommandHandler (F : Type) where
  commands : List (CommandHolder F)
deriving DecidableEq, Repr

/-- Modelled from the spec: the two failure kinds of the command-table lookup in the error
taxonomy of section 7; they "carry the offending command name and, for arity errors, the
expected usage string". -/
inductive LookupError
  | UnknownCommand (command : String)
  | InvalidArgumentCount (command : String) (usage : String)
deriving DecidableEq, Repr

/-- One call of a stored handler, `func(handler, argc, argv, out)`, as the test handler
`test` receives it, together with the table entry it was reached through. -/
structure Invocation (F O : Type) where
  entry : CommandHolder F
  handler : CommandHandler F
  argv : List String
  out : O
deriving DecidableEq, Repr

/-- What `Execute` hands back to its caller: a lookup failure, or whatever the invoked handler
returned. -/
inductive Returned
  | failed (err : LookupError)
  | handled (err : common.Error)
deriving DecidableEq, Repr

/-- The text spelled by a sequence of tokens: the tokens joined by single spaces. -/
def joinTokens : List String → List Char
  | [] => []
  | [t] => t.data
  | t :: t2 :: ts => t.data ++ ' ' :: joinTokens (t2 :: ts)

/-- Modelled from the spec: command names are case-insensitive. Two texts are the same name
when they agree after upper-casing every character. -/
def sameName (a b : List Char) : Bool :=
  decide (a.map Char.toUpper = b.map Char.toUpper)

/-- Modelled from the spec: the full command-name string formed by the first `n` tokens of the
input line matches the registered entry `c`. -/
def CommandHolder.IsCommand {F : Type} (c : CommandHolder F) (argv : List String) (n : Nat) :
    Bool :=
  sameName c.name.data (joinTokens (argv.take n))

/-- Modelled from the spec: the arity bound of section 4.1, a count of remaining tokens inside
`[min-args, min-args + max-args-offset]`, both ends included. -/
def CommandHolder.acceptsCount {F : Type} (c : CommandHolder F) (count : Nat) : Bool :=
  decide (c.min_args ≤ count ∧ count ≤ c.min_args + c.max_args_offset)

/-- Modelled from the spec: "attempt to match the longest possible token-prefix against any
registered name". Token prefixes are tried from `n` tokens downwards; for each, the table is
searched in registration order. The result is the entry and the number of tokens its name
took. -/
def CommandHandler.FindCommandUpTo {F : Type} (self : CommandHandler F) (argv : List String) :
    Nat → Option (CommandHolder F × Nat)
  | 0 => none
  | n + 1 =>
    match self.commands.find? (fun c => c.IsCommand argv (n + 1)) with
    | some c => some (c, n + 1)
    | none => self.FindCommandUpTo argv n

/-- Modelled from the spec: the lookup of section 4.1 over the whole argument vector. -/
def CommandHandler.FindCommand {F : Type} (self : CommandHandler F) (argv : List String) :
    Option (CommandHolder F × Nat) :=
  self.FindCommandUpTo argv argv.length

/-- Modelled from the spec: `CommandHandler::Execute(argc, argv, out)` (defined in
`core/internal/command_handler.cpp`, not among the sources), following section 4.1.
No match fails with `UnknownCommand`; on a match the number of remaining tokens is validated
against `[min-args, min-args + max-args-offset]`, failing with `InvalidArgumentCount` and the
usage string; otherwise the stored handler is invoked with the remaining tokens and the
caller's output sink and its error is propagated verbatim. `run` is the behaviour of the
function references stored in the table. The first component lists the handler calls made. -/
def CommandHandler.Execute {F O : Type}
    (run : F → CommandHandler F → List String → O → common.Error)
    (self : CommandHandler F) (argv : List String) (out : O) :
    List (Invocation F O) × Returned :=
  match self.FindCommand argv with
  | none => ([], .failed (.UnknownCommand (String.mk (joinTokens argv))))
  | some (cmd, n) =>
    let args := argv.drop n
    if cmd.acceptsCount args.length then
      ([⟨cmd, self, args, out⟩], .handled (run cmd.func self args out))
    else
      ([], .failed (.InvalidArgumentCount cmd.name cmd.usage))

/-- The table entry the lookup settles on, said without the search: `c` is the first registered
entry whose name is spelled by the first `k` tokens of `argv`, and no registered name is
spelled by a longer token prefix of `argv`. -/
def CommandHandler.Resolves {F : Type} (self : CommandHandler F) (argv : List String)
    (c : CommandHolder F) (k : Nat) : Prop :=
  1 ≤ k ∧ k ≤ argv.length ∧
  self.commands.find? (fun d => d.IsCommand argv k) = some c ∧
  ∀ j, k < j → j ≤ argv.length → ∀ d ∈ self.commands, d.IsCommand argv j = false

/-- Name `a` is a proper token-prefix of name `b`: `b` reads `a`, a space, and more (names
compared without regard to case). -/
def extendsName (a b : String) : Bool :=
  decide ((b.data.map Char.toUpper).take (a.data.length + 1) = (a.data ++ [' ']).map Char.toUpper)

/-- The command table of `unit_test_command_holder.cpp`: `SET`, `GET CONFIG` and `GET2`, all
three with the handler `test` (here the reference `0`). -/
def cmds : List (CommandHolder Nat) :=
  [ ⟨"SET", "<key> <value>", "Set the value of a key.", "undefined", "undefined", 2, 0, 0⟩,
    ⟨"GET CONFIG", "<key>", "Set the value of a key.", "undefined", "undefined", 1, 0, 0⟩,
    ⟨"GET2", "<key>", "Set the value of a key.", "undefined", "undefined", 1, 0, 0⟩ ]

/-- A table with three nested names, `GET`, `GET CONFIG` and `GET CONFIG alex`, whose handlers
are the references `1`, `2` and `3`. -/
def nestedCmds : List (CommandHolder Nat) :=
  [ ⟨"GET", "<key>", "Get the value of a key.", "undefined", "undefined", 1, 4, 1⟩,
    ⟨"GET CONFIG", "<key>", "Get a setting.", "undefined", "undefined", 1, 0, 2⟩,
    ⟨"GET CONFIG alex", "", "Get the setting alex.", "undefined", "undefined", 0, 0, 3⟩ ]

/-- The handler `test` of the unit test: it returns `common::Error()`. -/
def test (_f : Nat) (_handler : CommandHandler Nat) (_argv : List String) (_out : Unit) :
    common.Error :=
  none

/-! ## Values, keys and command replies -/

/-- The `common::Value` elements of a reply array, as far as the driver looks at them:
`ArrayValue::getString` succeeds on a string element and on no other. -/
inductive Value
  | TYPE_NULL
  | TYPE_BOOLEAN (v : Bool)
  | TYPE_INTEGER (v : Int)
  | TYPE_STRING (v : String)
deriving DecidableEq, Repr

/-- The call `ArrayValue::getString(i, &key)` on the element at index `i`. -/
def Value.getString : Value → Option String
  | .TYPE_STRING v => some v
  | _ => none

/-- The class `NKey`: the key of a stored item. -/
structure NKey where
  key : String
deriving DecidableEq, Repr

/-- The type `NValue`: a shared pointer to a value; `NValue()` is the null pointer. -/
abbrev NValue := Option Value

/-- The class `NDbKValue`: a key together with its value pointer. -/
structure NDbKValue where
  key : NKey
  value : NValue
deriving DecidableEq, Repr

/-- A child of an executed command object: either a `FastoObjectArray`, whose `array()` pointer
may be null, or some other `FastoObject` (the `dynamic_cast` to `FastoObjectArray` fails). -/
inductive FastoObject
  | object (value : Value)
  | array (ar : Option (List Value))
deriving DecidableEq, Repr

/-- How a command is logged: `common::Value::C_USER` for text typed by the user,
`common::Value::C_INNER` for commands the driver issues itself. -/
inductive CmdLoggingType
  | C_USER
  | C_INNER
deriving DecidableEq, Repr

namespace rocksdb

/-! ## The RocksDB driver -/

/-- The `int` argument of `notifyProgress`. `percent v` is an integer literal of the source;
`scaled length n` stands for the product `step * n` with `step = 100.0f/length`, which the
source computes in floating point and which is kept symbolic here. -/
inductive ProgressValue
  | percent (value : Nat)
  | scaled (length : Nat) (n : Nat)
deriving DecidableEq, Repr

/-- Modelled from the spec: the response value of the connect, disconnect and clear-database
events (`events::...ResponceEvent::value_type`, declared in `core/events/events_info.h`, not
among the sources): "a response carrying either a populated result or an error". It is built
from the request and starts without an error. -/
structure EventInfoBase where
  errorInfo : common.Error
deriving DecidableEq, Repr

/-- Modelled from the spec: the response value of the execute event, with the request text. -/
structure ExecuteResponce where
  text : String
  errorInfo : common.Error
deriving DecidableEq, Repr

/-- Modelled from the spec: the response value of the command request event; `cmd` is the
requested key command, of a type `K` the handler only passes on. -/
structure CommandResponce (K : Type) where
  cmd : K
  errorInfo : common.Error
deriving DecidableEq, Repr

/-- Modelled from the spec: the response value of the load-database-content event: the
requested `count_keys`, the keys loaded, the database size and the error. -/
structure LoadDatabaseContentResponce where
  count_keys : Int
  keys : List NDbKValue
  dbsize : Nat
  errorInfo : common.Error
deriving DecidableEq, Repr

/-- The response events handed to `reply`. -/
inductive ResponceEvent (K : Type)
  | ConnectResponceEvent (res : EventInfoBase)
  | DisconnectResponceEvent (res : EventInfoBase)
  | ExecuteResponceEvent (res : ExecuteResponce)
  | CommandResponceEvent (res : CommandResponce K)
  | LoadDatabaseContentResponceEvent (res : LoadDatabaseContentResponce)
  | ClearDatabaseResponceEvent (res : EventInfoBase)
deriving DecidableEq, Repr

/-- The error a response event carries. -/
def ResponceEvent.errorInfo {K : Type} : ResponceEvent K → common.Error
  | .ConnectResponceEvent res => res.errorInfo
  | .DisconnectResponceEvent res => res.errorInfo
  | .ExecuteResponceEvent res => res.errorInfo
  | .CommandResponceEvent res => res.errorInfo
  | .LoadDatabaseContentResponceEvent res => res.errorInfo
  | .ClearDatabaseResponceEvent res => res.errorInfo

/-- The calls an event handler makes on its collaborators, each with the value it got back. -/
inductive Call (K : Type)
  | notifyProgress (value : ProgressValue)
  | reply (ev : ResponceEvent K)
  | isInterrupted (result : Bool)
  | execute (type : CmdLoggingType) (command : String) (result : common.Error)
  | commandByType (cmd : K) (result : common.Error)
  | connect (result : common.Error)
  | disconnect (result : common.Error)
  | flushdb (result : common.Error)
  | dbsize (result : common.Error)
deriving DecidableEq, Repr

/-- The collaborators of `RocksdbDriver`, none of which is among the sources: the connection
`impl_` (a `RocksdbRaw`) and the base class `IDriver`, over a backend state `S`.

* `isError` is `ErrorValue::isError`;
* `isInterrupted n` is what `isInterrupted()` answers when polled at iteration `n` of the
  execute loop (the flag is set from outside, at any time);
* `settings` tells whether `settings_` holds `RocksdbConnectionSettings` (the `dynamic_cast`);
* `execute` is `IDriver::execute(cmd)` on a command created from a text: its error and the
  children it leaves on the command object;
* `commandByType` is `IDriver::commandByType(cmd, &cmdtext)`: its error and the text written;
* `dbsize` is `impl_->dbsize(&size)`: its error and the size it writes, if it writes one. -/
structure RocksdbDriver (S K : Type) where
  isError : common.ErrorValue → Bool
  isInterrupted : Nat → Bool
  settings : Bool
  connect : S → common.Error × S
  disconnect : S → common.Error × S
  flushdb : S → common.Error × S
  dbsize : S → common.Error × Option Nat × S
  execute : S → CmdLoggingType → String → common.Error × List FastoObject × S
  commandByType : K → common.Error × String

/-- The test `er && er->isError()`. -/
def RocksdbDriver.failed {S K : Type} (D : RocksdbDriver S K) (er : common.Error) : Bool :=
  match er with
  | none => false
  | some v => D.isError v

/-- The result of running an event handler: the backend state it leaves and the calls it made,
in order. -/
structure Run (S K : Type) where
  state : S
  calls : List (Call K)
deriving DecidableEq, Repr

/-- Modelled from the spec: `common::utils::c_strornull` (not among the sources). A request
text that is empty yields no input line (the null pointer); any other text yields its C
string, which ends at the first NUL character. -/
def c_strornull (text : String) : Option (List Char) :=
  if text.data = [] then none else some (text.data.takeWhile (fun c => c ≠ '\x00'))

/-- The size of the buffer `char command[128]`. -/
def kCommandSize : Nat := 128

/-- The largest `int`: `offset` is an `int`. -/
def INT_MAX : Nat := 2147483647

/-- The text read back from the zeroed buffer `command` after `strcpy(command, src)`. The copy
is defined only if `src` and its terminator fit the buffer. -/
def strcpy (src : List Char) : Option (List Char) :=
  if src.length < kCommandSize then some src else none

/-- The text read back from the zeroed buffer `command` after `strncpy(command, src, count)`:
the first `count` characters of `src`. Writing is defined only for `count` up to the buffer
size, and reading the buffer back needs a NUL inside it. -/
def strncpy (src : List Char) (count : Nat) : Option (List Char) :=
  if count ≤ kCommandSize ∧ min count src.length < kCommandSize then some (src.take count)
  else none

/-- How the `for` loop of `handleExecuteEvent` ends: the calls it made, the backend state, and
the error passed to `res.setErrorInfo`, if any. -/
structure LoopExit (S K : Type) where
  calls : List (Call K)
  state : S
  error : common.Error

/-- Puts the calls of one iteration before those of the iterations after it. -/
def LoopExit.after {S K : Type} (calls : List (Call K)) (r : LoopExit S K) : LoopExit S K :=
  { r with calls := calls ++ r.calls }

/-- The loop `for (size_t n = 0; n < length; ++n)` of `handleExecuteEvent`, from iteration `n`
on, with `todo = length - n` iterations to go, the current `offset` and backend state `s`.
`none` is undefined behaviour: a line that does not fit `command`, or an `offset` beyond
`int`. `n - offset` is exact because `offset ≤ n` throughout. -/
def executeLoop {S K : Type} (D : RocksdbDriver S K) (inputLine : List Char) (length : Nat) :
    Nat → Nat → Nat → S → Option (LoopExit S K)
  | 0, _, _, s => some ⟨[], s, none⟩
  | todo + 1, n, offset, s =>
    if D.isInterrupted n then
      some ⟨[.isInterrupted true], s, some ⟨"Interrupted exec.", .E_INTERRUPTED⟩⟩
    else if inputLine.getD n '\x00' = '\n' ∨ n = length - 1 then
      match (if n = length - 1 then strcpy (inputLine.drop offset)
             else strncpy (inputLine.drop offset) (n - offset)) with
      | none => none
      | some command =>
        if INT_MAX < n + 1 then none
        else
          let x := D.execute s .C_USER (String.mk command)
          let calls : List (Call K) :=
            [.isInterrupted false, .notifyProgress (.scaled length n),
             .execute .C_USER (String.mk command) x.1]
          if D.failed x.1 then some ⟨calls, x.2.2, x.1⟩
          else (executeLoop D inputLine length todo (n + 1) (n + 1) x.2.2).map
            (LoopExit.after calls)
    else
      (executeLoop D inputLine length todo (n + 1) offset s).map
        (LoopExit.after [.isInterrupted false])

/-- The text of the command cut at the character `c`, when `pend` holds the characters of the
current line seen before `c` and `rest` those after it: at the last character of the input
(`rest = []`) it is everything from `offset` to the end, `c` included (the `strcpy`); at a
newline before that it is the line without the newline (the `strncpy`). -/
def cutCommand (c : Char) (rest pend : List Char) : List Char :=
  if rest = [] then pend ++ [c] else pend

/-- The calls of an iteration of the loop that executes a command. -/
def iterationCalls {K : Type} (length n : Nat) (command : String) (result : common.Error) :
    List (Call K) :=
  [.isInterrupted false, .notifyProgress (.scaled length n), .execute .C_USER command result]

/-- The loop of `handleExecuteEvent` read off the characters still to come: `rest` holds the
characters of the input line from position `n` on, and `pend` those of the current line seen
so far (the characters from `offset` up to `n`). It is shown below to agree with
`executeLoop`. -/
def lineLoop {S K : Type} (D : RocksdbDriver S K) (length : Nat) :
    List Char → Nat → List Char → S → Option (LoopExit S K)
  | [], _, _, s => some ⟨[], s, none⟩
  | c :: rest, n, pend, s =>
    if D.isInterrupted n then
      some ⟨[.isInterrupted true], s, some ⟨"Interrupted exec.", .E_INTERRUPTED⟩⟩
    else if c = '\n' ∨ rest = [] then
      if (cutCommand c rest pend).length < kCommandSize ∧ n + 1 ≤ INT_MAX then
        let x := D.execute s .C_USER (String.mk (cutCommand c rest pend))
        if D.failed x.1 then
          some ⟨iterationCalls length n (String.mk (cutCommand c rest pend)) x.1, x.2.2, x.1⟩
        else (lineLoop D length rest (n + 1) [] x.2.2).map
          (LoopExit.after (iterationCalls length n (String.mk (cutCommand c rest pend)) x.1))
      else none
    else
      (lineLoop D length rest (n + 1) (pend ++ [c]) s).map
        (LoopExit.after [.isInterrupted false])

/-- The commands the loop cuts out of an input line when nothing stops it, each with the
position at which it is cut. Arguments as for `lineLoop`. -/
def cutsFrom : List Char → Nat → List Char → List (Nat × String)
  | [], _, _ => []
  | c :: rest, n, pend =>
    if c = '\n' ∨ rest = [] then
      (n, String.mk (cutCommand c rest pend)) :: cutsFrom rest (n + 1) []
    else cutsFrom rest (n + 1) (pend ++ [c])

/-- The cuts of a whole input line. -/
def commandCuts (inputLine : List Char) : List (Nat × String) :=
  cutsFrom inputLine 0 []

/-- Executing commands one after the other from the backend state `s`: each command with the
error it returned, and the state left at the end. -/
def runCommands {S K : Type} (D : RocksdbDriver S K) (s : S) :
    List String → List (String × common.Error) × S
  | [] => ([], s)
  | c :: cs =>
    let x := D.execute s .C_USER c
    let r := runCommands D x.2.2 cs
    ((c, x.1) :: r.1, r.2)

/-- The iteration at which the cut of index `k` (counting from 0) is made. -/
def cutPosition (cs : List (Nat × String)) (k : Nat) : Nat :=
  (cs.map Prod.fst).getD k 0

/-- The iteration at which `isInterrupted()` is first polled after the `k`-th cut command has
completed (iteration `n`, the first of all, for `k = 0`). -/
def pollAfter (cs : List (Nat × String)) (n : Nat) : Nat → Nat
  | 0 => n
  | k + 1 => cutPosition cs k + 1

/-- The handler `RocksdbDriver::handleConnectEvent`. The result `none` is the abort of
`CHECK(set)`. -/
def RocksdbDriver.handleConnectEvent {S K : Type} (D : RocksdbDriver S K) (s : S) :
    Option (Run S K) :=
  if D.settings then
    let x := D.connect s
    let res : EventInfoBase := if D.failed x.1 then ⟨x.1⟩ else ⟨none⟩
    some ⟨x.2, [.notifyProgress (.percent 0), .notifyProgress (.percent 25), .connect x.1,
      .notifyProgress (.percent 75), .reply (.ConnectResponceEvent res),
      .notifyProgress (.percent 100)]⟩
  else none

/-- The handler `RocksdbDriver::handleDisconnectEvent`. -/
def RocksdbDriver.handleDisconnectEvent {S K : Type} (D : RocksdbDriver S K) (s : S) :
    Run S K :=
  let x := D.disconnect s
  let res : EventInfoBase := if D.failed x.1 then ⟨x.1⟩ else ⟨none⟩
  ⟨x.2, [.notifyProgress (.percent 0), .notifyProgress (.percent 50), .disconnect x.1,
    .reply (.DisconnectResponceEvent res), .notifyProgress (.percent 100)]⟩

/-- The handler `RocksdbDriver::handleExecuteEvent` on a request with the given text. The
result `none` is undefined behaviour inside the loop. The root object and its locker
(`make_locker`, `lock.root()`) and `createCommand` call neither `reply` nor `notifyProgress`
and are left out. -/
def RocksdbDriver.handleExecuteEvent {S K : Type} (D : RocksdbDriver S K) (s : S)
    (text : String) : Option (Run S K) :=
  match c_strornull text with
  | some inputLine =>
    match executeLoop D inputLine inputLine.length inputLine.length 0 0 s with
    | none => none
    | some r =>
      some ⟨r.state, [.notifyProgress (.percent 0)] ++ r.calls ++
        [.reply (.ExecuteResponceEvent ⟨text, r.error⟩), .notifyProgress (.percent 100)]⟩
  | none =>
    some ⟨s, [.notifyProgress (.percent 0),
      .reply (.ExecuteResponceEvent ⟨text, some ⟨"Empty command line.", .E_ERROR⟩⟩),
      .notifyProgress (.percent 100)]⟩

/-- The handler `RocksdbDriver::handleCommandRequestEvent` on a request for the key command `cmd`. -/
def RocksdbDriver.handleCommandRequestEvent {S K : Type} (D : RocksdbDriver S K) (s : S)
    (cmd : K) : Run S K :=
  let c := D.commandByType cmd
  if D.failed c.1 then
    ⟨s, [.notifyProgress (.percent 0), .commandByType cmd c.1,
      .reply (.CommandResponceEvent ⟨cmd, c.1⟩), .notifyProgress (.percent 100)]⟩
  else
    let x := D.execute s .C_INNER c.2
    let res : CommandResponce K := if D.failed x.1 then ⟨cmd, x.1⟩ else ⟨cmd, none⟩
    ⟨x.2.2, [.notifyProgress (.percent 0), .commandByType cmd c.1,
      .notifyProgress (.percent 50), .execute .C_INNER c.2 x.1,
      .reply (.CommandResponceEvent res), .notifyProgress (.percent 100)]⟩

/-- The keys of a reply array: one entry per string element, in order, each with the empty
value `NValue()`. -/
def loadedKeys (ar : List Value) : List NDbKValue :=
  ar.filterMap (fun v => (v.getString).map (fun key => ⟨⟨key⟩, none⟩))

/-- The handler `RocksdbDriver::handleLoadDatabaseContentEvent` on a request for `count_keys`
keys. The response starts with no keys and size 0. The result `none` is the abort of
`CHECK_EQ(rchildrens.size(), 1)`. -/
def RocksdbDriver.handleLoadDatabaseContentEvent {S K : Type} (D : RocksdbDriver S K) (s : S)
    (count_keys : Int) : Option (Run S K) :=
  let patternResult := "KEYS a z " ++ toString count_keys
  let x := D.execute s .C_INNER patternResult
  let head : List (Call K) := [.notifyProgress (.percent 0), .notifyProgress (.percent 50),
    .execute .C_INNER patternResult x.1]
  let done (s2 : S) (mid : List (Call K)) (res : LoadDatabaseContentResponce) : Run S K :=
    ⟨s2, head ++ mid ++ [.notifyProgress (.percent 75),
      .reply (.LoadDatabaseContentResponceEvent res), .notifyProgress (.percent 100)]⟩
  if D.failed x.1 then some (done x.2.2 [] ⟨count_keys, [], 0, x.1⟩)
  else
    match x.2.1 with
    | [] => some (done x.2.2 [] ⟨count_keys, [], 0, none⟩)
    | [.array (some ar)] =>
      let d := D.dbsize x.2.2
      some (done d.2.2 [.dbsize d.1] ⟨count_keys, loadedKeys ar, d.2.1.getD 0, none⟩)
    | [_] => some (done x.2.2 [] ⟨count_keys, [], 0, none⟩)
    | _ :: _ :: _ => none

/-- The handler `RocksdbDriver::handleClearDatabaseEvent`. -/
def RocksdbDriver.handleClearDatabaseEvent {S K : Type} (D : RocksdbDriver S K) (s : S) :
    Run S K :=
  let x := D.flushdb s
  let res : EventInfoBase := if D.failed x.1 then ⟨x.1⟩ else ⟨none⟩
  ⟨x.2, [.notifyProgress (.percent 0), .notifyProgress (.percent 50), .flushdb x.1,
    .notifyProgress (.percent 75), .reply (.ClearDatabaseResponceEvent res),
    .notifyProgress (.percent 100)]⟩

/-- The responses handed to `reply` during a run, in order. -/
def replies {K : Type} (calls : List (Call K)) : List (ResponceEvent K) :=
  calls.filterMap (fun c => match c with
    | .reply ev => some ev
    | _ => none)

/-- The commands handed to `execute` during a run, in order, each with the error returned. -/
def executed {K : Type} (calls : List (Call K)) : List (String × common.Error) :=
  calls.filterMap (fun c => match c with
    | .execute _ command result => some (command, result)
    | _ => none)

/-- The answers `isInterrupted()` gave during a run, in order. -/
def polls {K : Type} (calls : List (Call K)) : List Bool :=
  calls.filterMap (fun c => match c with
    | .isInterrupted result => some result
    | _ => none)

/-- A driver for examples: it is never interrupted, every operation succeeds, and the backend
state is the list of the commands executed so far. -/
def recordingDriver : RocksdbDriver (List String) Unit where
  isError := fun _ => true
  isInterrupted := fun _ => false
  settings := true
  connect := fun s => (none, s)
  disconnect := fun s => (none, s)
  flushdb := fun _ => (none, [])
  dbsize := fun s => (none, some s.length, s)
  execute := fun s _ command => (none, [], s ++ [command])
  commandByType := fun _ => (none, "GET key")

/-- A driver for examples whose backend state is the list of the commands executed so far:
`isInterrupted()` answers true from poll `interruptFrom` on, and the command `bad` fails. -/
def scriptedDriver (interruptFrom : Nat) (bad : String) : RocksdbDriver (List String) Unit where
  isError := fun _ => true
  isInterrupted := fun n => decide (interruptFrom ≤ n)
  settings := true
  connect := fun s => (none, s)
  disconnect := fun s => (none, s)
  flushdb := fun _ => (none, [])
  dbsize := fun s => (none, some s.length, s)
  execute := fun s _ command =>
    (if command = bad then some ⟨"failed: " ++ command, .E_ERROR⟩ else none, [], s ++ [command])
  commandByType := fun _ => (none, "GET key")

/-- The run of `scriptedDriver 100 "b"` on the three lines `a`, `b`, `c`: the command `b`
fails and `c` is never executed. -/
def stoppedRun : Run (List String) Unit :=
  ⟨["a", "b"],
    [.notifyProgress (.percent 0), .isInterrupted false, .isInterrupted false,
      .notifyProgress (.scaled 5 1), .execute .C_USER "a" none, .isInterrupted false,
      .isInterrupted false, .notifyProgress (.scaled 5 3),
      .execute .C_USER "b" (some ⟨"failed: b", .E_ERROR⟩),
      .reply (.ExecuteResponceEvent ⟨"a\nb\nc", some ⟨"failed: b", .E_ERROR⟩⟩),
      .notifyProgress (.percent 100)]⟩

end rocksdb

end core

end fastonosql

namespace fastonosql

namespace core

namespace leveldb

/-! ## The LevelDB configuration -/

/-- The fields of `LeveldbConfig` that `parseOptions` writes: the delimiter and the namespace
separator of the base configuration, the database path `dbname`, and
`options.create_if_missing`. -/
structure LeveldbConfig where
  delimiter : String
  ns_separator : String
  dbname : String
  create_if_missing : Bool
deriving DecidableEq, Repr

/-- The constructor `LeveldbConfig::LeveldbConfig()`: the base class is built on the prepared
path of `~/test.leveldb` and `options.create_if_missing` is set to false. The defaults of the
base class (declared in headers that are not among the sources) and the prepared path are
parameters. -/
def LeveldbConfig.init (delimiter ns_separator path : String) : LeveldbConfig :=
  ⟨delimiter, ns_separator, path, false⟩

/-- The warning `parseOptions` logs for a token it does not understand. -/
def unrecognizedOption (token : String) : String :=
  "Unrecognized option or bad number of args for: " ++
    String.mk ([Char.ofNat 39] ++ token.data ++ [Char.ofNat 39])

/-- What `parseOptions` does at a token that is no flag it can read: the loop is left, with a
warning logged when the token starts with `-`. -/
def stopAt (token : String) (cfg : LeveldbConfig) : LeveldbConfig × List String :=
  if token.data.head? = some '-' then (cfg, [unrecognizedOption token]) else (cfg, [])

/-- The function `parseOptions(argc, argv, cfg)`: the configuration after the loop and the
warnings logged. `argv[i]` is the head of the list and `lastarg` says that nothing follows
it; a flag with a value steps over the value (`argv[++i]`). -/
def parseOptions : List String → LeveldbConfig → LeveldbConfig × List String
  | [], cfg => (cfg, [])
  | [a], cfg =>
    if a = "-c" then ({ cfg with create_if_missing := true }, [])
    else stopAt a cfg
  | a :: v :: rest, cfg =>
    if a = "-d" then parseOptions rest { cfg with delimiter := v }
    else if a = "-ns" then parseOptions rest { cfg with ns_separator := v }
    else if a = "-f" then parseOptions rest { cfg with dbname := v }
    else if a = "-c" then parseOptions (v :: rest) { cfg with create_if_missing := true }
    else stopAt a cfg

/-- A flag as `parseOptions` reads it, with the value it takes. -/
inductive Flag
  | d (value : String)
  | ns (value : String)
  | f (value : String)
  | c
deriving DecidableEq, Repr

/-- The flags `parseOptions` reads from a token list, in order, up to the token at which it
stops. -/
def readFlags : List String → List Flag
  | [] => []
  | [a] => if a = "-c" then [.c] else []
  | a :: v :: rest =>
    if a = "-d" then .d v :: readFlags rest
    else if a = "-ns" then .ns v :: readFlags rest
    else if a = "-f" then .f v :: readFlags rest
    else if a = "-c" then .c :: readFlags (v :: rest)
    else []

/-- The value of the last `-d` among the flags read, if there is one. -/
def lastDelimiter (flags : List Flag) : Option String :=
  (flags.filterMap (fun x => match x with
    | .d v => some v
    | _ => none)).getLast?

/-- The value of the last `-ns` among the flags read, if there is one. -/
def lastSeparator (flags : List Flag) : Option String :=
  (flags.filterMap (fun x => match x with
    | .ns v => some v
    | _ => none)).getLast?

/-- The value of the last `-f` among the flags read, if there is one. -/
def lastPath (flags : List Flag) : Option String :=
  (flags.filterMap (fun x => match x with
    | .f v => some v
    | _ => none)).getLast?

/-- The token list is read to its end as a sequence of whole flags: every token is a flag
`parseOptions` accepts or the value of one, so that the position after the list is the next
flag position. -/
def readsWhole : List String → Bool
  | [] => true
  | [a] => decide (a = "-c")
  | a :: v :: rest =>
    if a = "-d" ∨ a = "-ns" ∨ a = "-f" then readsWhole rest
    else if a = "-c" then readsWhole (v :: rest)
    else false

/-- Modelled from the spec: `LocalConfig::args()` (declared in headers that are not among the
sources) "supplies the flag/value tokens for delimiter, namespace separator and path", in the
order of the example `-d <delim> -ns <ns_sep> -f <path>`. -/
def LeveldbConfig.args (conf : LeveldbConfig) : List String :=
  ["-d", conf.delimiter, "-ns", conf.ns_separator, "-f", conf.dbname]

/-- The function `common::convertToString(const LeveldbConfig&)`: the tokens of `args()`,
then `-c` when `create_if_missing` is set, joined by single spaces. -/
def convertToString (conf : LeveldbConfig) : String :=
  String.mk (joinTokens (conf.args ++ (if conf.create_if_missing then ["-c"] else [])))

/-- The C string of a `std::string`: `c_str()` read up to the first NUL character. -/
def c_str (s : String) : List Char :=
  s.data.takeWhile (fun c => c ≠ '\x00')

/-- The tokens the calls `strtok(p, " ")`, `strtok(0, " ")`, ... return: the maximal runs of
characters other than a space. `cur` holds the characters of the token being read. -/
def strtok : List Char → List Char → List String
  | [], cur => if cur = [] then [] else [String.mk cur]
  | c :: cs, cur =>
    if c = ' ' then (if cur = [] then strtok cs [] else String.mk cur :: strtok cs [])
    else strtok cs (cur ++ [c])

/-- The capacity of the token array: `enum { kMaxArgs = 64 }`. -/
def kMaxArgs : Nat := 64

/-- The function `common::convertFromString<LeveldbConfig>(line)`, starting from the default
configuration `cfg`. The result `none` is undefined behaviour: a token stored past the end of
`argv[kMaxArgs]`. -/
def convertFromString (cfg : LeveldbConfig) (line : String) :
    Option (LeveldbConfig × List String) :=
  let argv := strtok (c_str line) []
  if argv.length ≤ kMaxArgs then some (parseOptions argv cfg) else none

/-- A token that survives the single-line form: it is not empty and holds neither a space nor
a NUL character. -/
def cleanToken (s : String) : Bool :=
  decide (s.data ≠ [] ∧ ' ' ∉ s.data ∧ '\x00' ∉ s.data)

end leveldb

end core

end fastonosql

namespace fastonosql

namespace core

/-! ## Server and database descriptors -/

/-- The backend tags (`connectionTypes`) named by the sources and the specification. -/
inductive connectionTypes
  | REDIS
  | LEVELDB
  | ROCKSDB
  | UNQLITE
  | FORESTDB
deriving DecidableEq, Repr

/-- Modelled from the spec: the state of an `IDataBaseInfo` (declared in `core/iserver.h` and
its headers, not among the sources): a snapshot tagged with the originating backend type that
"carries {name, is-default flag, item count, optional key listing}", in the order of the
base-class constructor call `IDataBaseInfo(name, isDefault, type, size, keys)`. -/
structure IDataBaseInfo where
  name : String
  isDefault : Bool
  type : connectionTypes
  size : Nat
  keys : List NDbKValue
deriving DecidableEq, Repr

/-- The accessor `NDbKValue::keyString()`: the text of the key. -/
def NDbKValue.keyString (kv : NDbKValue) : String :=
  kv.key.key

namespace rocksdb

/-! ## The RocksDB driver: commands and descriptors -/

/-- The command object `CommandDeleteKey`, as far as the driver reads it: `key()`. -/
structure CommandDeleteKey where
  key : NDbKValue
deriving DecidableEq, Repr

/-- The command object `CommandLoadKey`, as far as the driver reads it: `key()`. -/
structure CommandLoadKey where
  key : NDbKValue
deriving DecidableEq, Repr

/-- The command object `CommandCreateKey`, as far as the driver reads it: `key()` and
`value()`. -/
structure CommandCreateKey where
  key : NDbKValue
  value : NValue
deriving DecidableEq, Repr

/-- The command object `CommandChangeTTL`; the driver reads nothing of it. -/
structure CommandChangeTTL where
  key : NDbKValue
  ttl : Nat
deriving DecidableEq, Repr

/-- The error `common::make_error_value("Invalid input argument(s)", E_ERROR)`. -/
def invalidInput : common.ErrorValue :=
  ⟨"Invalid input argument(s)", .E_ERROR⟩

/-- What the conversion `%s` of a `printf` pattern shows of a string argument: its C string,
the characters before the first NUL character. The formatter `common::MemSPrintf` is not among
the sources; it formats with the patterns `"DEL %s"`, `"GET %s"` and `"SET %s %s"` of lines
31-36. -/
def percent_s (arg : String) : String :=
  String.mk (arg.data.takeWhile (fun c => c ≠ '\x00'))

/-- The method `RocksdbDriver::commandDeleteImpl(command, cmdstring)`. A pointer argument is
`none` when it is null; `cmdstring` holds the string it points to. The result is the error
returned and the string `cmdstring` points to afterwards: the pattern `"DEL %s"` with the key
string in the place of `%s`. -/
def commandDeleteImpl (command : Option CommandDeleteKey) (cmdstring : Option String) :
    common.Error × Option String :=
  match command, cmdstring with
  | some c, some _ => (none, some ("DEL " ++ percent_s c.key.keyString))
  | _, _ => (some invalidInput, cmdstring)

/-- The method `RocksdbDriver::commandLoadImpl(command, cmdstring)`; arguments and result as
for `commandDeleteImpl`, with the pattern `"GET %s"`. -/
def commandLoadImpl (command : Option CommandLoadKey) (cmdstring : Option String) :
    common.Error × Option String :=
  match command, cmdstring with
  | some c, some _ => (none, some ("GET " ++ percent_s c.key.keyString))
  | _, _ => (some invalidInput, cmdstring)

/-- The method `RocksdbDriver::commandCreateImpl(command, cmdstring)`; arguments and result as
for `commandDeleteImpl`, with the pattern `"SET %s %s"` over the key string and the value
string. `convertToString` is `common::convertToString(value, delimiter)`, which is not among
the sources. -/
def commandCreateImpl (convertToString : NValue → String → String)
    (command : Option CommandCreateKey) (cmdstring : Option String) :
    common.Error × Option String :=
  match command, cmdstring with
  | some c, some _ =>
    (none, some ("SET " ++ percent_s c.key.keyString ++ " " ++
      percent_s (convertToString c.value " ")))
  | _, _ => (some invalidInput, cmdstring)

/-- The method `RocksdbDriver::commandChangeTTLImpl(command, cmdstring)`; arguments and result
as for `commandDeleteImpl`. The macro `PROJECT_NAME_TITLE` and the text of
`common::convertToString(type())` are not among the sources and are parameters. -/
def commandChangeTTLImpl (projectNameTitle typeName : String)
    (command : Option CommandChangeTTL) (cmdstring : Option String) :
    common.Error × Option String :=
  match command, cmdstring with
  | some _, some _ =>
    (some ⟨"Sorry, but now " ++ projectNameTitle ++ " not supported change ttl command for " ++
      typeName ++ ".", .E_ERROR⟩, cmdstring)
  | _, _ => (some invalidInput, cmdstring)

/-- More of the connection `impl_` (not among the sources), over a backend state `S` and a
type `T` of statistics: `info` is `impl_->info(nullptr, &cm)`, its error and the statistics
left in `cm`; `currentDbName` is `impl_->currentDbName()`. -/
structure RocksdbRaw (S T : Type) where
  info : S → common.Error × T × S
  currentDbName : S → String

/-- The object `RocksdbServerInfo(cm)`. -/
structure RocksdbServerInfo (T : Type) where
  stats : T
deriving DecidableEq, Repr

/-- The method `RocksdbDriver::serverInfo(info)`; `info` tells whether the pointer is not
null. The result is the error returned, the object written to `*info` if one is written, and
the backend state; `none` is undefined behaviour, the write through a null `info`. The
command logging (`LOG_COMMAND`) is left out. -/
def serverInfo {S T : Type} (R : RocksdbRaw S T) (s : S) (info : Bool) :
    Option (common.Error × Option (RocksdbServerInfo T) × S) :=
  let x := R.info s
  match x.1 with
  | none => if info then some (none, some ⟨x.2.1⟩, x.2.2) else none
  | some e => some (some e, none, x.2.2)

/-- The method `RocksdbDriver::currentDataBaseInfo(info)`; `info` tells whether the pointer is
not null. The result is the error returned, the object written to `*info` if one is written,
and the backend state. The object `RocksdbDataBaseInfo(name, true, dbsize)` is a database
descriptor tagged `ROCKSDB` without a key listing. -/
def RocksdbDriver.currentDataBaseInfo {S K T : Type} (D : RocksdbDriver S K)
    (R : RocksdbRaw S T) (s : S) (info : Bool) : common.Error × Option IDataBaseInfo × S :=
  if info then
    let name := R.currentDbName s
    let d := D.dbsize s
    (none, some ⟨name, true, .ROCKSDB, d.2.1.getD 0, []⟩, d.2.2)
  else (some invalidInput, none, s)

/-- The steps `serverDiscoveryInfo` calls. -/
inductive DiscoveryCall
  | serverInfo
  | currentDataBaseInfo
deriving DecidableEq, Repr

/-- How `serverDiscoveryInfo` returns: the error, what was written to `*sinfo` and to
`*dbinfo` (`none` when nothing was written, else the pointer stored), the backend state and
the steps called. -/
structure DiscoveryExit (S SI DI : Type) where
  error : common.Error
  sinfo : Option (Option SI)
  dbinfo : Option (Option DI)
  state : S
  calls : List DiscoveryCall
deriving DecidableEq, Repr

/-- The body of `RocksdbDriver::serverDiscoveryInfo(dinfo, sinfo, dbinfo)` over the two
member functions it calls with the addresses of its locals `lsinfo` and `ldbinfo`; each step
gives its error, the pointer it leaves in the local, and the backend state. `failed` is the
test `er && er->isError()`; `sinfo` and `dbinfo` tell whether the output pointers are not
null, and `none` is undefined behaviour, the write through a null output. `dinfo` is unused,
and `delete lsinfo` frees the local object. -/
def serverDiscoveryInfoWith {S SI DI : Type} (failed : common.Error → Bool)
    (serverInfoStep : S → Option (common.Error × Option SI × S))
    (currentDataBaseInfoStep : S → common.Error × Option DI × S)
    (s : S) (sinfo dbinfo : Bool) : Option (DiscoveryExit S SI DI) :=
  match serverInfoStep s with
  | none => none
  | some x =>
    if failed x.1 then some ⟨x.1, none, none, x.2.2, [.serverInfo]⟩
    else
      let y := currentDataBaseInfoStep x.2.2
      if failed y.1 then some ⟨y.1, none, none, y.2.2, [.serverInfo, .currentDataBaseInfo]⟩
      else if sinfo ∧ dbinfo then
        some ⟨y.1, some x.2.1, some y.2.1, y.2.2, [.serverInfo, .currentDataBaseInfo]⟩
      else none

/-- The method `RocksdbDriver::serverDiscoveryInfo(dinfo, sinfo, dbinfo)`; the three flags tell
whether the pointers are not null, and `dinfo` is not looked at (`UNUSED(dinfo)`). -/
def RocksdbDriver.serverDiscoveryInfo {S K T : Type} (D : RocksdbDriver S K)
    (R : RocksdbRaw S T) (s : S) (_dinfo sinfo dbinfo : Bool) :
    Option (DiscoveryExit S (RocksdbServerInfo T) IDataBaseInfo) :=
  serverDiscoveryInfoWith D.failed (fun s1 => serverInfo R s1 true)
    (fun s1 => D.currentDataBaseInfo R s1 true) s sinfo dbinfo

/-- The errors `flushdb` returned during a run, one per call, in order. -/
def flushes {K : Type} (calls : List (Call K)) : List common.Error :=
  calls.filterMap (fun c => match c with
    | .flushdb result => some result
    | _ => none)

/-- A connection for examples: `info` succeeds with the statistics `stats` and the current
database is `default`. -/
def exampleRaw : RocksdbRaw (List String) String where
  info := fun s => (none, "stats", s)
  currentDbName := fun _ => "default"

/-- A driver for examples: the `KEYS` command succeeds with one array reply holding the keys
`a` and `b` around an integer, `flushdb` returns `flushed`, and `dbsize` returns the error
`size.1` and writes the size `size.2`, if any. -/
def keysDriver (flushed : common.Error) (size : common.Error × Option Nat) :
    RocksdbDriver (List String) Unit where
  isError := fun _ => true
  isInterrupted := fun _ => false
  settings := true
  connect := fun s => (none, s)
  disconnect := fun s => (none, s)
  flushdb := fun _ => (flushed, [])
  dbsize := fun s => (size.1, size.2, s)
  execute := fun s _ command =>
    (none, [.array (some [.TYPE_STRING "a", .TYPE_INTEGER 1, .TYPE_STRING "b"])],
      s ++ [command])
  commandByType := fun _ => (none, "GET key")

end rocksdb

namespace unqlite

/-! ## The UnQLite database descriptor -/

/-- The constructor `DataBaseInfo::DataBaseInfo(name, isDefault, size, keys)`, which passes
its arguments and the tag `UNQLITE` to the base class. -/
def DataBaseInfo.new (name : String) (isDefault : Bool) (size : Nat)
    (keys : List NDbKValue) : IDataBaseInfo :=
  ⟨name, isDefault, .UNQLITE, size, keys⟩

/-- The objects allocated so far; a pointer to an object is its index. -/
abbrev Heap := List IDataBaseInfo

/-- The allocation `new DataBaseInfo(obj)`: the heap with the new object, and the pointer to
it. -/
def Heap.alloc (h : Heap) (obj : IDataBaseInfo) : Heap × Nat :=
  (h ++ [obj], h.length)

/-- The method `DataBaseInfo::clone()`, `return new DataBaseInfo(*this);`, on the object at
`this`: the copy constructor copies every member. The result `none` is a call on a pointer to
no object. -/
def DataBaseInfo.clone (h : Heap) (this : Nat) : Option (Heap × Nat) :=
  (h[this]?).map (fun d => h.alloc d)

end unqlite

end core

namespace proxy

namespace leveldb

/-! ## The LevelDB proxy driver -/

/-- The method `Driver::GetCurrentDataBaseInfo(info)` of the LevelDB proxy driver; `info`
tells whether the pointer is not null. `make_error_inval` is the error of
`common::make_error_inval()` and `select` is `impl_->Select(impl_->GetCurrentDBName(), info)`
with what it writes to `*info`; neither is among the sources. -/
def GetCurrentDataBaseInfo {S : Type} (make_error_inval : common.ErrorValue)
    (select : S → common.Error × Option core.IDataBaseInfo × S) (s : S) (info : Bool) :
    common.Error × Option core.IDataBaseInfo × S :=
  if info then select s else (some make_error_inval, none, s)

end leveldb

end proxy

end fastonosql

namespace fastonosql

namespace core

namespace rocksdb

/-! ## The RocksDB driver: progress notifications -/

/-- The values handed to `notifyProgress` during a run, in order. -/
def progress {K : Type} (calls : List (Call K)) : List ProgressValue :=
  calls.filterMap (fun c => match c with
    | .notifyProgress value => some value
    | _ => none)

end rocksdb

namespace internal

/-! ## The generic connection -/

/-- Modelled from the spec: the state of a generic connection
`CDBConnection<NativeConnection, Config, type>` (the class template and the bodies of the
`forestdb::DBConnection` methods are not among the sources; only the declarations of
`core/db/forestdb/db_connection.h` are): whether it holds an "active native handle", and the
items of the native store, each "a (Key, Value) pair representing one stored item", at most
one per key. The form in which the declared primitives `SetInner` and `GetInner` carry a value
to and from the native store is settled in the absent bodies and is not modelled. -/
structure CDBConnection where
  handle : Bool
  store : List NDbKValue
deriving DecidableEq, Repr

/-- Modelled from the spec: `Disconnect()` (the bodies of `RocksdbRaw::disconnect` and of the
LevelDB `DBConnection::Disconnect` are not among the sources): it "releases the handle" and is
"idempotent (calling twice is a no-op, not an error)". The store is left as it is. -/
def CDBConnection.Disconnect (c : CDBConnection) : common.Error × CDBConnection :=
  (none, { c with handle := false })

/-- A RocksDB driver for examples over the generic connection: its `disconnect` is
`CDBConnection.Disconnect`, connecting takes a handle, and no operation fails. -/
def connectionDriver : rocksdb.RocksdbDriver CDBConnection Unit where
  isError := fun _ => true
  isInterrupted := fun _ => false
  settings := true
  connect := fun c => (none, { c with handle := true })
  disconnect := CDBConnection.Disconnect
  flushdb := fun c => (none, { c with store := [] })
  dbsize := fun c => (none, some c.store.length, c)
  execute := fun c _ _ => (none, [], c)
  commandByType := fun _ => (none, "GET key")

end internal

end core

namespace proxy

namespace leveldb

/-! ## The LevelDB proxy driver: disconnect, command listing and scan replies -/

/-- The method `Driver::SyncDisconnect()`, `return impl_->Disconnect();`, over the connection
operation `Disconnect`. -/
def SyncDisconnect {S : Type} (Disconnect : S → common.Error × S) (s : S) : common.Error × S :=
  Disconnect s

/-- The loop `for (size_t i = 0; i < origin.size(); ++i) lcommands.push_back(&origin[i]);` of
`GetServerCommands`, from index `i` on with `todo = origin.size() - i` iterations to go. A
pointer `&origin[i]` into the table is the index `i`. -/
def pushCommands : Nat → Nat → List Nat → List Nat
  | 0, _, lcommands => lcommands
  | todo + 1, i, lcommands => pushCommands todo (i + 1) (lcommands ++ [i])

/-- The method `Driver::GetServerCommands(commands)`. The table `origin` is
`core::leveldb::DBConnection::GetCommands()`, which is not among the sources, over any type
`C` of entries; `commands` tells whether the pointer is not null. The result is the error
returned, the vector written to `*commands` (pointers into the table, as indices) and the
table after the call; `none` is undefined behaviour, the write through a null `commands`. -/
def GetServerCommands {C : Type} (origin : List C) (commands : Bool) :
    Option (common.Error × List Nat × List C) :=
  if commands then some (none, pushCommands origin.length 0 [], origin) else none

/-- The entry a pointer into the table points to. -/
def deref {C : Type} (origin : List C) (p : Nat) : Option C :=
  origin[p]?

/-- The `common::Value` of a command reply, as far as the scan decoding looks at it: a list
(`common::ArrayValue`) of values, or a value that is no list. -/
inductive ReplyValue
  | value (v : core.Value)
  | array (items : List ReplyValue)

/-- The call `Value::GetAsList(&arm)`, also behind `ArrayValue::GetList(i, &ar)`: it succeeds
on a list and on no other value. -/
def ReplyValue.GetAsList : ReplyValue → Option (List ReplyValue)
  | .array items => some items
  | .value _ => none

/-- The call `Value::GetAsString(&out)` behind `ArrayValue::GetString(i, &out)`: it succeeds
on a string and on no other value. -/
def ReplyValue.GetAsString : ReplyValue → Option String
  | .value (.TYPE_STRING v) => some v
  | _ => none

/-- The response value of the load-database-content event
(`events::LoadDatabaseContentResponceEvent::value_type`, declared in headers that are not
among the sources), with the members the handler names. It is built from the request. -/
structure LoadDatabaseContentResponce where
  cursor_in : Nat
  pattern : String
  count_keys : Nat
  cursor_out : Nat
  keys : List core.NDbKValue
  db_keys_count : Nat
  errorInfo : common.Error
deriving DecidableEq, Repr

/-- The calls `HandleLoadDatabaseContentEvent` makes on its collaborators, each with the value
it got back. -/
inductive Call
  | NotifyProgress (value : Nat)
  | Execute (type : core.CmdLoggingType) (command : String) (result : common.Error)
  | DBkcount (result : common.Error)
  | Reply (res : LoadDatabaseContentResponce)
deriving DecidableEq, Repr

/-- The collaborators of the LevelDB proxy `Driver`, none of which is among the sources, over a
backend state `S`:

* `GetKeysPattern` is `core::internal::GetKeysPattern(cursor_in, pattern, count_keys)`, the
  text of the scan command;
* `Execute` is `Execute(cmd)` on a command created from a text with `CreateCommandFast`: its
  error and the values of the children it leaves on the command object;
* `ConvertFromString` is `common::ConvertFromString(cursor, &lcursor)` for `uint64_t`: the
  number read, if the text parses;
* `DBkcount` is `impl_->DBkcount(&res.db_keys_count)`: its error and the count it writes, if
  it writes one;
* `DCHECK_IS_ON` tells whether `DCHECK` is compiled in (a debug build). -/
structure Driver (S : Type) where
  GetKeysPattern : Nat → String → Nat → String
  Execute : S → core.CmdLoggingType → String → common.Error × List ReplyValue × S
  ConvertFromString : String → Option Nat
  DBkcount : S → common.Error × Option Nat × S
  DCHECK_IS_ON : Bool

/-- The keys the loop over `ar` pushes: one per element on which `GetString` succeeds, in
order, each with the value `CreateEmptyValueFromType(TYPE_STRING)`, the empty string value
(the function is declared in `core/value.h`; its body is not among the sources). -/
def scannedKeys (ar : List ReplyValue) : List core.NDbKValue :=
  ar.filterMap (fun v => (v.GetAsString).map (fun key_str =>
    ⟨⟨key_str⟩, some (.TYPE_STRING "")⟩))

/-- The result of running the handler: the backend state it leaves and the calls it made, in
order. -/
structure Run (S : Type) where
  state : S
  calls : List Call
deriving DecidableEq, Repr

/-- The handler `Driver::HandleLoadDatabaseContentEvent` on a request with the value `req`.
The result `none` is an abort: of `CHECK_EQ(rchildrens.size(), 1)`, of
`CHECK_EQ(arm->GetSize(), 2)`, or of `DCHECK(!err)` after `DBkcount` in a debug build. The
test `if (err)` holds iff an error was returned. -/
def Driver.HandleLoadDatabaseContentEvent {S : Type} (D : Driver S) (s : S)
    (req : LoadDatabaseContentResponce) : Option (Run S) :=
  let pattern_result := D.GetKeysPattern req.cursor_in req.pattern req.count_keys
  let x := D.Execute s .C_INNER pattern_result
  let head : List Call := [.NotifyProgress 0, .NotifyProgress 50,
    .Execute .C_INNER pattern_result x.1]
  let done (s2 : S) (mid : List Call) (res : LoadDatabaseContentResponce) : Run S :=
    ⟨s2, head ++ mid ++ [.NotifyProgress 75, .Reply res, .NotifyProgress 100]⟩
  match x.1 with
  | some err => some (done x.2.2 [] { req with errorInfo := some err })
  | none =>
    match x.2.1 with
    | [] => some (done x.2.2 [] req)
    | [array] =>
      match array.GetAsList with
      | none => some (done x.2.2 [] req)
      | some [first, second] =>
        match first.GetAsString with
        | none => some (done x.2.2 [] req)
        | some cursor =>
          let res : LoadDatabaseContentResponce :=
            match D.ConvertFromString cursor with
            | some lcursor => { req with cursor_out := lcursor }
            | none => req
          match second.GetAsList with
          | none => some (done x.2.2 [] res)
          | some ar =>
            let d := D.DBkcount x.2.2
            if D.DCHECK_IS_ON ∧ d.1.isSome then none
            else some (done d.2.2 [.DBkcount d.1]
              { res with keys := res.keys ++ scannedKeys ar,
                         db_keys_count := d.2.1.getD res.db_keys_count })
      | some _ => none
    | _ :: _ :: _ => none

/-- The responses handed to `Reply` during a run, in order. -/
def replied (calls : List Call) : List LoadDatabaseContentResponce :=
  calls.filterMap (fun c => match c with
    | .Reply res => some res
    | _ => none)

/-- A driver for examples: every scan command is answered with the cursor `"7"` and the list
`a`, `1`, `b`; only the text `7` parses as a number, and the store holds 3 keys. -/
def scanDriver : Driver Unit where
  GetKeysPattern := fun cursor_in pattern count_keys =>
    "SCAN " ++ toString cursor_in ++ " MATCH " ++ pattern ++ " COUNT " ++ toString count_keys
  Execute := fun s _ _ =>
    (none, [.array [.value (.TYPE_STRING "7"),
      .array [.value (.TYPE_STRING "a"), .value (.TYPE_INTEGER 1), .value (.TYPE_STRING "b")]]],
     s)
  ConvertFromString := fun text => if text = "7" then some 7 else none
  DBkcount := fun s => (none, some 3, s)
  DCHECK_IS_ON := true

end leveldb

end proxy

namespace gui

/-! ## The version selector of the shell widget -/

/-- The icons of `GuiFactory` the version selector shows. -/
inductive Icon
  | Unknown
  | Success
  | Fail
deriving DecidableEq, Repr

/-- An item of the combo box `commandsVersionApi_`: its icon and its user data, the version
number given to `addItem`. -/
structure Item where
  icon : Icon
  data : Nat
deriving DecidableEq, Repr

/-- The state of the `QComboBox` `commandsVersionApi_`: its items and its current index
(`-1` when there is none). -/
structure QComboBox where
  items : List Item
  currentIndex : Int
deriving DecidableEq, Repr

/-- The call `QComboBox::count()`. -/
def QComboBox.count (box : QComboBox) : Nat :=
  box.items.length

/-- The call `qvariant_cast<uint32_t>(itemData(i))`; an index without an item gives `0`. -/
def QComboBox.itemData (box : QComboBox) (i : Nat) : Nat :=
  ((box.items[i]?).map Item.data).getD 0

/-- The items after the icon of the item at index `i` is replaced; no item changes when there
is none at `i`. -/
def setIcon (icon : Icon) : List Item → Nat → List Item
  | [], _ => []
  | it :: rest, 0 => { it with icon := icon } :: rest
  | it :: rest, i + 1 => it :: setIcon icon rest i

/-- The call `QComboBox::setItemIcon(i, icon)`. -/
def QComboBox.setItemIcon (box : QComboBox) (i : Nat) (icon : Icon) : QComboBox :=
  { box with items := setIcon icon box.items i }

/-- The call `QComboBox::setCurrentIndex(i)` for an index `i` of an item. The slot
`changeVersionApi`, which the change of index triggers, passes the version of the item to
`input_` and touches neither an icon nor the index; it is left out. -/
def QComboBox.setCurrentIndex (box : QComboBox) (i : Nat) : QComboBox :=
  if i < box.count then { box with currentIndex := (i : Int) } else box

/-- The loop `for (int i = 0; i < commandsVersionApi_->count(); ++i)` of the branch of
`updateServerInfo` without server information: every item gets the Unknown icon. Arguments as
for `versionLoop`. -/
def unknownLoop : Nat → Nat → QComboBox → QComboBox
  | 0, _, box => box
  | todo + 1, i, box => unknownLoop todo (i + 1) (box.setItemIcon i .Unknown)

/-- The loop `for (int i = 0; i < commandsVersionApi_->count(); ++i)` of `updateServerInfo`
for the server version `serv_vers`, from index `i` on with `todo = count() - i` iterations to
go and the flag `updatedComboIndex`. The macro `UNDEFINED_SINCE` is not among the sources and
is a parameter. -/
def versionLoop (UNDEFINED_SINCE serv_vers : Nat) : Nat → Nat → Bool → QComboBox → QComboBox
  | 0, _, _, box => box
  | todo + 1, i, updatedComboIndex, box =>
    let version := box.itemData i
    if version = UNDEFINED_SINCE then
      versionLoop UNDEFINED_SINCE serv_vers todo (i + 1) updatedComboIndex
        (box.setItemIcon i .Unknown)
    else if version ≥ serv_vers then
      if !updatedComboIndex then
        versionLoop UNDEFINED_SINCE serv_vers todo (i + 1) true
          ((box.setCurrentIndex i).setItemIcon i .Success)
      else
        versionLoop UNDEFINED_SINCE serv_vers todo (i + 1) updatedComboIndex
          (box.setItemIcon i .Fail)
    else
      versionLoop UNDEFINED_SINCE serv_vers todo (i + 1) updatedComboIndex
        (box.setItemIcon i .Success)

/-- The method `BaseShellWidget::updateServerInfo(inf)`, as far as it acts on the combo box
`commandsVersionApi_`: `inf` is `none` for a null pointer and holds `inf->GetVersion()`
otherwise. The server label it also sets (`updateServerLabel`) is left out. -/
def updateServerInfo (UNDEFINED_SINCE : Nat) (inf : Option Nat) (box : QComboBox) :
    QComboBox :=
  match inf with
  | none => unknownLoop box.count 0 box
  | some serv_vers =>
    if serv_vers = UNDEFINED_SINCE then box
    else versionLoop UNDEFINED_SINCE serv_vers box.count 0 false box

/-- An item fits the server version: its version is defined and not below it. -/
def fits (UNDEFINED_SINCE serv_vers : Nat) (version : Nat) : Bool :=
  decide (version ≠ UNDEFINED_SINCE ∧ version ≥ serv_vers)

/-- The items the loop of `updateServerInfo` leaves, read off the items still to come, with
the flag `updatedComboIndex`. It is shown below to agree with `versionLoop`. -/
def markItems (UNDEFINED_SINCE serv_vers : Nat) : Bool → List Item → List Item
  | _, [] => []
  | updated, it :: rest =>
    if it.data = UNDEFINED_SINCE then
      { it with icon := .Unknown } :: markItems UNDEFINED_SINCE serv_vers updated rest
    else if it.data ≥ serv_vers then
      (if updated then { it with icon := Icon.Fail } else { it with icon := Icon.Success }) ::
        markItems UNDEFINED_SINCE serv_vers true rest
    else { it with icon := .Success } :: markItems UNDEFINED_SINCE serv_vers updated rest

/-- The index of the first item that fits the server version, if there is one. -/
def firstFit (UNDEFINED_SINCE serv_vers : Nat) : List Item → Option Nat
  | [] => none
  | it :: rest =>
    if fits UNDEFINED_SINCE serv_vers it.data then some 0
    else (firstFit UNDEFINED_SINCE serv_vers rest).map (fun k => k + 1)

/-- A combo box for examples: five versions, the first undefined (`0`), all icons Unknown and
the last item current, as the constructor of the widget leaves it. -/
def exampleBox : QComboBox :=
  ⟨[⟨.Unknown, 0⟩, ⟨.Unknown, 3⟩, ⟨.Unknown, 5⟩, ⟨.Unknown, 2⟩, ⟨.Unknown, 7⟩], 4⟩

end gui

end fastonosql

/-! # Theorems -/

namespace fastonosql

namespace core

/-! ## Command dispatch -/

theorem sameName_length {a b : List Char} (h : sameName a b = true) : a.length = b.length := by
  have h2 : a.map Char.toUpper = b.map Char.toUpper := by simpa [sameName] using h
  simpa using congrArg List.length h2

/-- The text of the first `n ≥ 1` tokens is an initial part of the whole text and is followed
there by nothing or by a space. -/
theorem joinTokens_take (argv : List String) :
    ∀ n, 1 ≤ n → ∃ rest, joinTokens argv = joinTokens (argv.take n) ++ rest ∧
      (rest = [] ∨ ∃ t, rest = ' ' :: t) := by
  induction argv with
  | nil => intro n _; exact ⟨[], by simp [joinTokens], Or.inl rfl⟩
  | cons t ts ih =>
    intro n hn
    obtain ⟨m, rfl⟩ : ∃ m, n = m + 1 := ⟨n - 1, by omega⟩
    cases ts with
    | nil => exact ⟨[], by simp [joinTokens], Or.inl rfl⟩
    | cons t2 ts2 =>
      cases m with
      | zero =>
        exact ⟨' ' :: joinTokens (t2 :: ts2), by simp [joinTokens], Or.inr ⟨_, rfl⟩⟩
      | succ m =>
        obtain ⟨rest, h1, h2⟩ := ih (m + 1) (by omega)
        refine ⟨rest, ?_, h2⟩
        have : List.take (m + 1 + 1) (t :: t2 :: ts2) = t :: t2 :: List.take m ts2 := by
          simp [List.take]
        rw [this]
        have h3 : List.take (m + 1) (t2 :: ts2) = t2 :: List.take m ts2 := by simp [List.take]
        rw [h3] at h1
        simp only [joinTokens, List.append_assoc, List.cons_append]
        rw [h1]

theorem FindCommandUpTo_some {F : Type} (self : CommandHandler F) (argv : List String) :
    ∀ n c k, self.FindCommandUpTo argv n = some (c, k) →
      1 ≤ k ∧ k ≤ n ∧ self.commands.find? (fun c => c.IsCommand argv k) = some c ∧
      ∀ j, k < j → j ≤ n → ∀ d ∈ self.commands, d.IsCommand argv j = false := by
  intro n
  induction n with
  | zero => intro c k h; simp [CommandHandler.FindCommandUpTo] at h
  | succ n ih =>
    intro c k h
    unfold CommandHandler.FindCommandUpTo at h
    cases hf : self.commands.find? (fun c => c.IsCommand argv (n + 1)) with
    | some c2 =>
      rw [hf] at h
      simp only [Option.some.injEq, Prod.mk.injEq] at h
      obtain ⟨rfl, rfl⟩ := h
      exact ⟨by omega, le_refl _, hf, fun j h1 h2 => by omega⟩
    | none =>
      rw [hf] at h
      obtain ⟨h1, h2, h3, h4⟩ := ih c k h
      refine ⟨h1, by omega, h3, ?_⟩
      intro j hj1 hj2 d hd
      rcases Nat.lt_or_ge j (n + 1) with hlt | hge
      · exact h4 j hj1 (by omega) d hd
      · have : j = n + 1 := by omega
        subst this
        have := List.find?_eq_none.mp hf d hd
        simpa using this

theorem FindCommandUpTo_of {F : Type} (self : CommandHandler F) (argv : List String)
    (c : CommandHolder F) (k : Nat) (hk : 1 ≤ k)
    (hfind : self.commands.find? (fun c => c.IsCommand argv k) = some c) :
    ∀ n, k ≤ n →
      (∀ j, k < j → j ≤ n → ∀ d ∈ self.commands, d.IsCommand argv j = false) →
      self.FindCommandUpTo argv n = some (c, k) := by
  intro n
  induction n with
  | zero => intro h; omega
  | succ n ih =>
    intro hkn hno
    unfold CommandHandler.FindCommandUpTo
    rcases Nat.lt_or_ge k (n + 1) with hlt | hge
    · have hnone : self.commands.find? (fun c => c.IsCommand argv (n + 1)) = none := by
        apply List.find?_eq_none.mpr
        intro d hd
        simp [hno (n + 1) hlt (le_refl _) d hd]
      rw [hnone]
      exact ih (by omega) (fun j h1 h2 => hno j h1 (by omega))
    · have : k = n + 1 := by omega
      subst this
      rw [hfind]

theorem FindCommandUpTo_none {F : Type} (self : CommandHandler F) (argv : List String) :
    ∀ n, (∀ j, 1 ≤ j → j ≤ n → ∀ d ∈ self.commands, d.IsCommand argv j = false) →
      self.FindCommandUpTo argv n = none := by
  intro n
  induction n with
  | zero => intro _; rfl
  | succ n ih =>
    intro hno
    unfold CommandHandler.FindCommandUpTo
    have hnone : self.commands.find? (fun c => c.IsCommand argv (n + 1)) = none := by
      apply List.find?_eq_none.mpr
      intro d hd
      simp [hno (n + 1) (by omega) (le_refl _) d hd]
    rw [hnone]
    exact ih (fun j h1 h2 => hno j h1 (by omega))

theorem FindCommand_of_Resolves {F : Type} (self : CommandHandler F) (argv : List String)
    (c : CommandHolder F) (k : Nat) (h : self.Resolves argv c k) :
    self.FindCommand argv = some (c, k) :=
  FindCommandUpTo_of self argv c k h.1 h.2.2.1 argv.length h.2.1 h.2.2.2

theorem Resolves_of_FindCommand {F : Type} (self : CommandHandler F) (argv : List String)
    (c : CommandHolder F) (k : Nat) (h : self.FindCommand argv = some (c, k)) :
    self.Resolves argv c k :=
  FindCommandUpTo_some self argv argv.length c k h

theorem extendsName_ne {F : Type} (a b : CommandHolder F) (h : extendsName a.name b.name = true) :
    a ≠ b := by
  intro hab
  subst hab
  have h2 : (a.name.data.map Char.toUpper).take (a.name.data.length + 1) =
      (a.name.data ++ [' ']).map Char.toUpper := by simpa [extendsName] using h
  have h3 := congrArg List.length h2
  simp at h3

/-- C1. Longest-match lookup: for every command table and registered entries `a`, `b` where
the name of `a` is a token-prefix of the name of `b` (`b` reads `a`, a space, and more), an
argv whose leading tokens spell `b`, that is an argv the lookup resolves to `b`, with an
in-range argument count for `b`, is dispatched to `b` and never to `a`: the one handler call
made is the call of `b`, with the tokens after the name. In the test table,
`["GET","CONFIG","alex"]` is routed to the `GET CONFIG` entry, not to `GET2`. -/
theorem Execute_longest_match :
    (∀ (F O : Type) (run : F → CommandHandler F → List String → O → common.Error)
      (self : CommandHandler F) (a b : CommandHolder F) (argv : List String) (k : Nat) (out : O),
      a ∈ self.commands → extendsName a.name b.name = true →
      self.Resolves argv b k →
      b.acceptsCount (argv.length - k) = true →
      self.Execute run argv out =
          ([⟨b, self, argv.drop k, out⟩], .handled (run b.func self (argv.drop k) out)) ∧
        (∀ i ∈ (self.Execute run argv out).1, i.entry = b ∧ i.entry ≠ a)) ∧
    (CommandHandler.Execute test ⟨cmds⟩ ["GET", "CONFIG", "alex"] ()).1 =
      [⟨⟨"GET CONFIG", "<key>", "Set the value of a key.", "undefined", "undefined", 1, 0, 0⟩,
        ⟨cmds⟩, ["alex"], ()⟩] ∧
    (∀ i ∈ (CommandHandler.Execute test ⟨cmds⟩ ["GET", "CONFIG", "alex"] ()).1,
      i.entry.name = "GET CONFIG" ∧ i.entry.name ≠ "GET2") := by
  refine ⟨?_, by decide, by decide⟩
  intro F O run self a b argv k out _ hab hres hcount
  have hfind : self.FindCommand argv = some (b, k) := FindCommand_of_Resolves self argv b k hres
  have hlen : (argv.drop k).length = argv.length - k := by simp
  have hexec : self.Execute run argv out =
      ([⟨b, self, argv.drop k, out⟩], .handled (run b.func self (argv.drop k) out)) := by
    simp only [CommandHandler.Execute, hfind, hlen, hcount, if_true]
  refine ⟨hexec, ?_⟩
  intro i hi
  rw [hexec] at hi
  simp only [List.mem_singleton] at hi
  subst hi
  exact ⟨rfl, fun h => extendsName_ne a b hab h.symm⟩

/-- Witness for C1: the table `GET`, `GET CONFIG`, `GET CONFIG alex` and the argv
`["GET","CONFIG","beta"]`, with `a` the entry `GET` and `b` the entry `GET CONFIG`: the argv
also spells `GET` with two arguments, which `GET` would accept, and the call goes to
`GET CONFIG`. -/
theorem Execute_longest_match_witness :
    CommandHandler.Execute test ⟨nestedCmds⟩ ["GET", "CONFIG", "beta"] () =
        ([⟨⟨"GET CONFIG", "<key>", "Get a setting.", "undefined", "undefined", 1, 0, 2⟩,
          ⟨nestedCmds⟩, ["beta"], ()⟩], .handled none) :=
  (Execute_longest_match.1 Nat Unit test ⟨nestedCmds⟩
    ⟨"GET", "<key>", "Get the value of a key.", "undefined", "undefined", 1, 4, 1⟩
    ⟨"GET CONFIG", "<key>", "Get a setting.", "undefined", "undefined", 1, 0, 2⟩
    ["GET", "CONFIG", "beta"] 2 () (by decide) (by decide)
    ⟨by decide, by decide, by decide, fun j h1 h2 => by
      have hj : j = 3 := by simp at h2; omega
      subst hj; decide⟩ (by decide)).1

theorem Execute_unknown_command_aux {F O : Type}
    (run : F → CommandHandler F → List String → O → common.Error)
    (self : CommandHandler F) (argv : List String) (out : O)
    (hno : ∀ j, 1 ≤ j → j ≤ argv.length → ∀ d ∈ self.commands, d.IsCommand argv j = false) :
    self.Execute run argv out = ([], .failed (.UnknownCommand (String.mk (joinTokens argv)))) := by
  have hfind : self.FindCommand argv = none := FindCommandUpTo_none self argv argv.length hno
  simp [CommandHandler.Execute, hfind]

/-- C2. Arity rejection: whenever the lookup resolves an argv to a registered command and the
number of tokens after the matched name lies outside `[min-args, min-args + max-args-offset]`,
`Execute` returns `InvalidArgumentCount` (with the command's name and usage string) and no
handler is invoked. So it is for `["SET","alex"]` and `["GET","CONFIG","last","alex"]` in the
test table. -/
theorem Execute_invalid_argument_count :
    (∀ (F O : Type) (run : F → CommandHandler F → List String → O → common.Error)
      (self : CommandHandler F) (argv : List String) (cmd : CommandHolder F) (k : Nat) (out : O),
      self.Resolves argv cmd k →
      ¬ (cmd.min_args ≤ argv.length - k ∧ argv.length - k ≤ cmd.min_args + cmd.max_args_offset) →
      self.Execute run argv out =
        ([], .failed (.InvalidArgumentCount cmd.name cmd.usage))) ∧
    CommandHandler.Execute test ⟨cmds⟩ ["SET", "alex"] () =
      ([], .failed (.InvalidArgumentCount "SET" "<key> <value>")) ∧
    CommandHandler.Execute test ⟨cmds⟩ ["GET", "CONFIG", "last", "alex"] () =
      ([], .failed (.InvalidArgumentCount "GET CONFIG" "<key>")) := by
  refine ⟨?_, by decide, by decide⟩
  intro F O run self argv cmd k out hres hout
  have hfind := FindCommand_of_Resolves self argv cmd k hres
  have hlen : (argv.drop k).length = argv.length - k := by simp
  have hacc : cmd.acceptsCount (argv.length - k) = false := by
    simpa [CommandHolder.acceptsCount] using hout
  simp [CommandHandler.Execute, hfind, hlen, hacc]

/-- Witness for C2: `["SET","alex"]` resolves to `SET` with one token left, and `SET` takes
exactly two. -/
theorem Execute_invalid_argument_count_witness :
    CommandHandler.Execute test ⟨cmds⟩ ["SET", "alex"] () =
      ([], .failed (.InvalidArgumentCount "SET" "<key> <value>")) :=
  Execute_invalid_argument_count.1 Nat Unit test ⟨cmds⟩ ["SET", "alex"]
    ⟨"SET", "<key> <value>", "Set the value of a key.", "undefined", "undefined", 2, 0, 0⟩ 1 ()
    ⟨by decide, by decide, by decide, fun j h1 h2 => by
      have hj : j = 2 := by simp at h2; omega
      subst hj; decide⟩ (by decide)

/-- C3. Successful dispatch: whenever the lookup resolves an argv to a registered command and
the number of tokens after the matched name lies inside
`[min-args, min-args + max-args-offset]`, `Execute` makes exactly one handler call, that
command's, passing the `CommandHandler` itself, exactly the tokens after the matched name and
the caller's output sink, and returns exactly what the handler returns. So it is for
`["SET","alex","palec"]` and `["GET2","alex"]` in the test table. -/
theorem Execute_invokes_handler :
    (∀ (F O : Type) (run : F → CommandHandler F → List String → O → common.Error)
      (self : CommandHandler F) (argv : List String) (cmd : CommandHolder F) (k : Nat) (out : O),
      self.Resolves argv cmd k →
      cmd.min_args ≤ argv.length - k → argv.length - k ≤ cmd.min_args + cmd.max_args_offset →
      self.Execute run argv out =
        ([⟨cmd, self, argv.drop k, out⟩], .handled (run cmd.func self (argv.drop k) out))) ∧
    CommandHandler.Execute test ⟨cmds⟩ ["SET", "alex", "palec"] () =
      ([⟨⟨"SET", "<key> <value>", "Set the value of a key.", "undefined", "undefined", 2, 0, 0⟩,
          ⟨cmds⟩, ["alex", "palec"], ()⟩], .handled none) ∧
    CommandHandler.Execute test ⟨cmds⟩ ["GET2", "alex"] () =
      ([⟨⟨"GET2", "<key>", "Set the value of a key.", "undefined", "undefined", 1, 0, 0⟩,
          ⟨cmds⟩, ["alex"], ()⟩], .handled none) := by
  refine ⟨?_, by decide, by decide⟩
  intro F O run self argv cmd k out hres hmin hmax
  have hfind := FindCommand_of_Resolves self argv cmd k hres
  have hlen : (argv.drop k).length = argv.length - k := by simp
  have hacc : cmd.acceptsCount (argv.length - k) = true := by
    simp [CommandHolder.acceptsCount, hmin, hmax]
  simp [CommandHandler.Execute, hfind, hlen, hacc]

/-- Witness for C3: a handler that reports its arguments back in an error value, called
through `["set","alex","palec"]`. -/
theorem Execute_invokes_handler_witness :
    CommandHandler.Execute
        (fun (f : Nat) _ (args : List String) (out : Nat) =>
          some ⟨String.mk (joinTokens args) ++ toString (f + out), .E_ERROR⟩)
        ⟨cmds⟩ ["set", "alex", "palec"] 7 =
      ([⟨⟨"SET", "<key> <value>", "Set the value of a key.", "undefined", "undefined", 2, 0, 0⟩,
          ⟨cmds⟩, ["alex", "palec"], 7⟩], .handled (some ⟨"alex palec7", .E_ERROR⟩)) :=
  Execute_invokes_handler.1 Nat Nat
    (fun (f : Nat) _ (args : List String) (out : Nat) =>
      some ⟨String.mk (joinTokens args) ++ toString (f + out), .E_ERROR⟩)
    ⟨cmds⟩ ["set", "alex", "palec"]
    ⟨"SET", "<key> <value>", "Set the value of a key.", "undefined", "undefined", 2, 0, 0⟩ 1 7
    ⟨by decide, by decide, by decide, fun j h1 h2 => by
      have hj : j = 2 ∨ j = 3 := by simp at h2; omega
      rcases hj with hj | hj <;> subst hj <;> decide⟩ (by decide) (by decide)

/-- C4. Unknown command: for every command table and every argv none of whose token prefixes
spells a registered name, `Execute` fails with `UnknownCommand` and invokes no handler. So it
is for `["GET","alex"]` in the test table, where only `SET`, `GET CONFIG` and `GET2` are
registered. -/
theorem Execute_unknown_command :
    (∀ (F O : Type) (run : F → CommandHandler F → List String → O → common.Error)
      (self : CommandHandler F) (argv : List String) (out : O),
      (∀ j, 1 ≤ j → j ≤ argv.length → ∀ d ∈ self.commands, d.IsCommand argv j = false) →
      self.Execute run argv out =
        ([], .failed (.UnknownCommand (String.mk (joinTokens argv))))) ∧
    CommandHandler.Execute test ⟨cmds⟩ ["GET", "alex"] () =
      ([], .failed (.UnknownCommand "GET alex")) := by
  refine ⟨?_, by decide⟩
  intro F O run self argv out hno
  exact Execute_unknown_command_aux run self argv out hno

/-- Witness for C4: `["GET","alex"]` against the test table. -/
theorem Execute_unknown_command_witness :
    CommandHandler.Execute test ⟨cmds⟩ ["GET", "alex"] () =
      ([], .failed (.UnknownCommand (String.mk (joinTokens ["GET", "alex"])))) :=
  Execute_unknown_command.1 Nat Unit test ⟨cmds⟩ ["GET", "alex"] () (by decide)

theorem IsCommand_extended_false {F : Type} (c : CommandHolder F) (argv : List String)
    (p tail : List Char) (x : Char) (hp : sameName c.name.data p = true) (hx : x ≠ ' ')
    (htext : joinTokens argv = p ++ x :: tail) (j : Nat) (hj : 1 ≤ j) :
    c.IsCommand argv j = false := by
  cases hc : c.IsCommand argv j with
  | false => rfl
  | true =>
    exfalso
    obtain ⟨rest, h1, h2⟩ := joinTokens_take argv j hj
    have hl1 := sameName_length hp
    have hl2 := sameName_length (show sameName c.name.data (joinTokens (argv.take j)) = true from hc)
    rw [htext] at h1
    have hinj := List.append_inj h1 (by omega)
    rcases h2 with h2 | ⟨t, h2⟩
    · rw [h2] at hinj; simp at hinj
    · rw [h2] at hinj
      have := hinj.2
      simp only [List.cons.injEq] at this
      exact hx this.1

theorem sameName_trans {a b c : List Char} (h1 : sameName a b = true) (h2 : sameName b c = true) :
    sameName a c = true := by
  simp only [sameName, decide_eq_true_eq] at *
  rw [h1, h2]

theorem sameName_symm {a b : List Char} (h1 : sameName a b = true) : sameName b a = true := by
  simp only [sameName, decide_eq_true_eq] at *
  rw [h1]

/-- C5. No match on an extended name: when the command text of the input (its tokens joined by
spaces) reads a registered name `N`, in any letter case, followed at once by a character other
than a space, no token prefix of the input matches `N`, the entry `Execute` resolves is never
one named `N`, and if no entry with another name matches either, `Execute` returns the
`UnknownCommand` error without calling a handler. So it is for `"GET CONFIGE"` and
`"GET CONFIGX"` against the test table. -/
theorem Execute_extended_name_no_match :
    (∀ (F O : Type) (run : F → CommandHandler F → List String → O → common.Error)
      (self : CommandHandler F) (N : String) (argv : List String) (p tail : List Char) (x : Char)
      (out : O),
      sameName N.data p = true → x ≠ ' ' → joinTokens argv = p ++ x :: tail →
      (∀ c ∈ self.commands, sameName c.name.data N.data = true →
        ∀ j, 1 ≤ j → c.IsCommand argv j = false) ∧
      (∀ c k, self.FindCommand argv = some (c, k) → sameName c.name.data N.data = false) ∧
      (∀ call ∈ (self.Execute run argv out).1, sameName call.entry.name.data N.data = false) ∧
      ((∀ c ∈ self.commands, sameName c.name.data N.data = false →
          ∀ j, 1 ≤ j → j ≤ argv.length → c.IsCommand argv j = false) →
        self.Execute run argv out =
          ([], .failed (.UnknownCommand (String.mk (joinTokens argv)))))) ∧
    CommandHandler.Execute test ⟨cmds⟩ ["GET CONFIGE", "alex"] () =
      ([], .failed (.UnknownCommand "GET CONFIGE alex")) ∧
    CommandHandler.Execute test ⟨cmds⟩ ["GET", "CONFIGX", "alex"] () =
      ([], .failed (.UnknownCommand "GET CONFIGX alex")) := by
  refine ⟨?_, by decide, by decide⟩
  intro F O run self N argv p tail x out hp hx htext
  have hkey : ∀ c : CommandHolder F, sameName c.name.data N.data = true →
      ∀ j, 1 ≤ j → c.IsCommand argv j = false := fun c hc j hj =>
    IsCommand_extended_false c argv p tail x (sameName_trans hc hp) hx htext j hj
  have hfind : ∀ c k, self.FindCommand argv = some (c, k) →
      sameName c.name.data N.data = false := by
    intro c k h
    have hres := Resolves_of_FindCommand self argv c k h
    have hmatch : c.IsCommand argv k = true := by
      have := List.find?_some hres.2.2.1
      simpa using this
    cases hs : sameName c.name.data N.data with
    | false => rfl
    | true => rw [hkey c hs k hres.1] at hmatch; cases hmatch
  refine ⟨fun c _ hc j hj => hkey c hc j hj, hfind, ?_, ?_⟩
  · intro call hcall
    unfold CommandHandler.Execute at hcall
    cases hf : self.FindCommand argv with
    | none => rw [hf] at hcall; simp at hcall
    | some r =>
      obtain ⟨c, k⟩ := r
      rw [hf] at hcall
      by_cases hacc : c.acceptsCount (argv.drop k).length = true
      · simp only [hacc, if_true, List.mem_singleton] at hcall
        rw [hcall]
        exact hfind c k hf
      · simp only [hacc] at hcall
        simp at hcall
  · intro hothers
    apply Execute_unknown_command_aux
    intro j h1 h2 d hd
    cases hs : sameName d.name.data N.data with
    | false => exact hothers d hd hs j h1 h2
    | true => exact hkey d hs j h1

/-- Witness for C5: `["get","configX","alex"]` against the test table and the registered name
`GET CONFIG`. -/
theorem Execute_extended_name_no_match_witness :
    CommandHandler.Execute test ⟨cmds⟩ ["get", "configX", "alex"] () =
      ([], .failed (.UnknownCommand (String.mk (joinTokens ["get", "configX", "alex"])))) :=
  (Execute_extended_name_no_match.1 Nat Unit test ⟨cmds⟩ "GET CONFIG" ["get", "configX", "alex"]
    "get config".data " alex".data 'X' () (by decide) (by decide) (by decide)).2.2.2
    (by decide)

namespace rocksdb

/-! ## The execute loop -/

theorem executeLoop_eq_lineLoop {S K : Type} (D : RocksdbDriver S K) (line : List Char) :
    ∀ (rest pre pend : List Char) (s : S), line = pre ++ pend ++ rest →
      executeLoop D line line.length rest.length (pre.length + pend.length) pre.length s =
        lineLoop D line.length rest (pre.length + pend.length) pend s := by
  intro rest
  induction rest with
  | nil => intro pre pend s _; rfl
  | cons c rest ih =>
    intro pre pend s hline
    have hlen : line.length = pre.length + pend.length + (rest.length + 1) := by
      rw [hline]; simp; omega
    have hget : line.getD (pre.length + pend.length) '\x00' = c := by
      rw [hline]
      have : pre.length + pend.length = (pre ++ pend).length := by simp
      rw [this, List.getD_eq_getElem?_getD, List.getElem?_append_right (le_refl _)]
      simp
    have hlast : (pre.length + pend.length = line.length - 1) ↔ rest = [] := by
      rw [hlen]
      constructor
      · intro h
        have : rest.length = 0 := by omega
        exact List.length_eq_zero.mp this
      · intro h; subst h; simp
    have hdrop : line.drop pre.length = pend ++ c :: rest := by
      rw [hline, List.append_assoc, List.drop_left]
    have hsub : pre.length + pend.length - pre.length = pend.length := by omega
    have hcopy : (if pre.length + pend.length = line.length - 1 then strcpy (line.drop pre.length)
        else strncpy (line.drop pre.length) (pre.length + pend.length - pre.length)) =
        (if (cutCommand c rest pend).length < kCommandSize then
          some (cutCommand c rest pend) else none) := by
      rw [hdrop, hsub]
      unfold cutCommand
      by_cases hr : rest = []
      · have h1 : pre.length + pend.length = line.length - 1 := hlast.mpr hr
        subst hr
        simp [h1, strcpy]
      · have h1 : ¬ (pre.length + pend.length = line.length - 1) := fun h => hr (hlast.mp h)
        simp only [h1, hr, if_false, strncpy]
        have hmin : min pend.length (pend ++ c :: rest).length = pend.length := by simp
        rw [hmin, List.take_left]
        by_cases hp : pend.length < kCommandSize
        · have : pend.length ≤ kCommandSize := by omega
          simp [hp, this]
        · simp [hp]
    have ih1 := fun s2 => ih (pre ++ pend ++ [c]) [] s2 (by rw [hline]; simp)
    have ih2 := fun s2 => ih pre (pend ++ [c]) s2 (by rw [hline]; simp)
    simp only [List.length_append, List.length_singleton, List.length_nil, Nat.add_zero,
      Nat.add_assoc] at ih1 ih2
    simp only [List.length_cons]
    unfold executeLoop lineLoop
    rw [hget, hcopy]
    by_cases hint : D.isInterrupted (pre.length + pend.length) = true
    · simp [hint]
    · simp only [hint, if_false]
      have hb : (c = '\n' ∨ pre.length + pend.length = line.length - 1) ↔
          (c = '\n' ∨ rest = []) := by rw [hlast]
      by_cases hbound : c = '\n' ∨ rest = []
      · have hbound2 := hb.mpr hbound
        simp only [hbound, hbound2, if_true]
        by_cases hfit : (cutCommand c rest pend).length < kCommandSize
        · simp only [hfit, if_true]
          by_cases hmax : INT_MAX < pre.length + pend.length + 1
          · have : ¬ (pre.length + pend.length + 1 ≤ INT_MAX) := by omega
            simp [hmax, this]
          · have : pre.length + pend.length + 1 ≤ INT_MAX := by omega
            simp only [hmax, this, if_false, and_self, if_true, iterationCalls]
            rw [Nat.add_assoc, ih1]
        · simp [hfit]
      · have hbound2 : ¬ (c = '\n' ∨ pre.length + pend.length = line.length - 1) :=
          fun h => hbound (hb.mp h)
        simp only [hbound, hbound2, if_false]
        rw [Nat.add_assoc, ih2]

theorem lineLoop_cons_inv {S K : Type} (D : RocksdbDriver S K) (L : Nat) (c : Char)
    (rest : List Char) (n : Nat) (pend : List Char) (s : S) (r : LoopExit S K)
    (h : lineLoop D L (c :: rest) n pend s = some r) :
    (D.isInterrupted n = true ∧
      r = ⟨[.isInterrupted true], s, some ⟨"Interrupted exec.", .E_INTERRUPTED⟩⟩) ∨
    (D.isInterrupted n = false ∧ (c = '\n' ∨ rest = []) ∧
      (cutCommand c rest pend).length < kCommandSize ∧ n + 1 ≤ INT_MAX ∧
      D.failed (D.execute s .C_USER (String.mk (cutCommand c rest pend))).1 = true ∧
      r = ⟨iterationCalls L n (String.mk (cutCommand c rest pend))
            (D.execute s .C_USER (String.mk (cutCommand c rest pend))).1,
          (D.execute s .C_USER (String.mk (cutCommand c rest pend))).2.2,
          (D.execute s .C_USER (String.mk (cutCommand c rest pend))).1⟩) ∨
    (D.isInterrupted n = false ∧ (c = '\n' ∨ rest = []) ∧
      (cutCommand c rest pend).length < kCommandSize ∧ n + 1 ≤ INT_MAX ∧
      D.failed (D.execute s .C_USER (String.mk (cutCommand c rest pend))).1 = false ∧
      ∃ r2, lineLoop D L rest (n + 1) []
          (D.execute s .C_USER (String.mk (cutCommand c rest pend))).2.2 = some r2 ∧
        r = r2.after (iterationCalls L n (String.mk (cutCommand c rest pend))
            (D.execute s .C_USER (String.mk (cutCommand c rest pend))).1)) ∨
    (D.isInterrupted n = false ∧ ¬ (c = '\n' ∨ rest = []) ∧
      ∃ r2, lineLoop D L rest (n + 1) (pend ++ [c]) s = some r2 ∧
        r = r2.after [.isInterrupted false]) := by
  rw [lineLoop] at h
  dsimp only at h
  split_ifs at h with hint hb hfit hf
  · left
    simp only [Option.some.injEq] at h
    exact ⟨hint, h.symm⟩
  · right; left
    simp only [Option.some.injEq] at h
    exact ⟨by simpa using hint, hb, hfit.1, hfit.2, hf, h.symm⟩
  · right; right; left
    simp only [Option.map_eq_some'] at h
    obtain ⟨r2, h1, h2⟩ := h
    exact ⟨by simpa using hint, hb, hfit.1, hfit.2, by simpa using hf, r2, h1, h2.symm⟩
  · right; right; right
    simp only [Option.map_eq_some'] at h
    obtain ⟨r2, h1, h2⟩ := h
    exact ⟨by simpa using hint, hb, r2, h1, h2.symm⟩

theorem lineLoop_cut_ok {S K : Type} (D : RocksdbDriver S K) (L : Nat) (c : Char)
    (rest : List Char) (n : Nat) (pend : List Char) (s : S)
    (hint : D.isInterrupted n = false) (hb : c = '\n' ∨ rest = [])
    (hfit : (cutCommand c rest pend).length < kCommandSize) (hmax : n + 1 ≤ INT_MAX)
    (hf : D.failed (D.execute s .C_USER (String.mk (cutCommand c rest pend))).1 = false) :
    lineLoop D L (c :: rest) n pend s =
      (lineLoop D L rest (n + 1) []
          (D.execute s .C_USER (String.mk (cutCommand c rest pend))).2.2).map
        (LoopExit.after (iterationCalls L n (String.mk (cutCommand c rest pend))
          (D.execute s .C_USER (String.mk (cutCommand c rest pend))).1)) := by
  rw [lineLoop]
  simp [hint, hb, hfit, hmax, hf]

theorem lineLoop_cut_failed {S K : Type} (D : RocksdbDriver S K) (L : Nat) (c : Char)
    (rest : List Char) (n : Nat) (pend : List Char) (s : S)
    (hint : D.isInterrupted n = false) (hb : c = '\n' ∨ rest = [])
    (hfit : (cutCommand c rest pend).length < kCommandSize) (hmax : n + 1 ≤ INT_MAX)
    (hf : D.failed (D.execute s .C_USER (String.mk (cutCommand c rest pend))).1 = true) :
    lineLoop D L (c :: rest) n pend s =
      some ⟨iterationCalls L n (String.mk (cutCommand c rest pend))
            (D.execute s .C_USER (String.mk (cutCommand c rest pend))).1,
          (D.execute s .C_USER (String.mk (cutCommand c rest pend))).2.2,
          (D.execute s .C_USER (String.mk (cutCommand c rest pend))).1⟩ := by
  rw [lineLoop]
  simp [hint, hb, hfit, hmax, hf]

theorem lineLoop_skip {S K : Type} (D : RocksdbDriver S K) (L : Nat) (c : Char)
    (rest : List Char) (n : Nat) (pend : List Char) (s : S)
    (hint : D.isInterrupted n = false) (hb : ¬ (c = '\n' ∨ rest = [])) :
    lineLoop D L (c :: rest) n pend s =
      (lineLoop D L rest (n + 1) (pend ++ [c]) s).map
        (LoopExit.after [.isInterrupted false]) := by
  rw [lineLoop]
  simp only [hint, hb, if_false, Bool.false_eq_true]

theorem lineLoop_interrupted {S K : Type} (D : RocksdbDriver S K) (L : Nat) (c : Char)
    (rest : List Char) (n : Nat) (pend : List Char) (s : S)
    (hint : D.isInterrupted n = true) :
    lineLoop D L (c :: rest) n pend s =
      some ⟨[.isInterrupted true], s, some ⟨"Interrupted exec.", .E_INTERRUPTED⟩⟩ := by
  rw [lineLoop]
  simp [hint]

@[simp] theorem replies_append {K : Type} (a b : List (Call K)) :
    replies (a ++ b) = replies a ++ replies b := by
  simp [replies]

@[simp] theorem executed_append {K : Type} (a b : List (Call K)) :
    executed (a ++ b) = executed a ++ executed b := by
  simp [executed]

@[simp] theorem polls_append {K : Type} (a b : List (Call K)) :
    polls (a ++ b) = polls a ++ polls b := by
  simp [polls]

@[simp] theorem replies_poll {K : Type} (b : Bool) (l : List (Call K)) :
    replies (Call.isInterrupted b :: l) = replies l := rfl

@[simp] theorem executed_poll {K : Type} (b : Bool) (l : List (Call K)) :
    executed (Call.isInterrupted b :: l) = executed l := rfl

@[simp] theorem polls_poll {K : Type} (b : Bool) (l : List (Call K)) :
    polls (Call.isInterrupted b :: l) = b :: polls l := rfl

theorem executed_after_iteration {S K : Type} (L n : Nat) (cmd : String) (e : common.Error)
    (r : LoopExit S K) :
    executed (r.after (iterationCalls L n cmd e)).calls = (cmd, e) :: executed r.calls := rfl

theorem executed_after_poll {S K : Type} (b : Bool) (r : LoopExit S K) :
    executed (r.after [Call.isInterrupted b]).calls = executed r.calls := rfl

theorem polls_after_iteration {S K : Type} (L n : Nat) (cmd : String) (e : common.Error)
    (r : LoopExit S K) :
    polls (r.after (iterationCalls L n cmd e)).calls = false :: polls r.calls := rfl

theorem polls_after_poll {S K : Type} (b : Bool) (r : LoopExit S K) :
    polls (r.after [Call.isInterrupted b]).calls = b :: polls r.calls := rfl

@[simp] theorem replies_iterationCalls {K : Type} (L n : Nat) (cmd : String)
    (e : common.Error) : replies (iterationCalls L n cmd e : List (Call K)) = [] := rfl

@[simp] theorem executed_iterationCalls {K : Type} (L n : Nat) (cmd : String)
    (e : common.Error) : executed (iterationCalls L n cmd e : List (Call K)) = [(cmd, e)] := rfl

@[simp] theorem polls_iterationCalls {K : Type} (L n : Nat) (cmd : String)
    (e : common.Error) : polls (iterationCalls L n cmd e : List (Call K)) = [false] := rfl

@[simp] theorem after_calls {S K : Type} (calls : List (Call K)) (r : LoopExit S K) :
    (r.after calls).calls = calls ++ r.calls := rfl

@[simp] theorem after_state {S K : Type} (calls : List (Call K)) (r : LoopExit S K) :
    (r.after calls).state = r.state := rfl

@[simp] theorem after_error {S K : Type} (calls : List (Call K)) (r : LoopExit S K) :
    (r.after calls).error = r.error := rfl

theorem failed_ne_none {S K : Type} (D : RocksdbDriver S K) (e : common.Error)
    (h : D.failed e = true) : e ≠ none := by
  intro he; subst he; simp [RocksdbDriver.failed] at h

/-- The loop itself never replies. -/
theorem lineLoop_replies {S K : Type} (D : RocksdbDriver S K) (L : Nat) :
    ∀ (rest : List Char) (n : Nat) (pend : List Char) (s : S) (r : LoopExit S K),
      lineLoop D L rest n pend s = some r → replies r.calls = [] := by
  intro rest
  induction rest with
  | nil =>
    intro n pend s r h
    simp only [lineLoop, Option.some.injEq] at h
    subst h; rfl
  | cons c rest ih =>
    intro n pend s r h
    rcases lineLoop_cons_inv D L c rest n pend s r h with
      ⟨_, rfl⟩ | ⟨_, _, _, _, _, rfl⟩ | ⟨_, _, _, _, _, r2, h2, rfl⟩ | ⟨_, _, r2, h2, rfl⟩
    · rfl
    · rfl
    · simp [ih _ _ _ r2 h2]
    · rw [after_calls, replies_append, ih _ _ _ r2 h2]; rfl

/-- The loop ends with an error exactly when a poll of `isInterrupted()` answered true or an
executed command failed. -/
theorem lineLoop_error_iff {S K : Type} (D : RocksdbDriver S K) (L : Nat) :
    ∀ (rest : List Char) (n : Nat) (pend : List Char) (s : S) (r : LoopExit S K),
      lineLoop D L rest n pend s = some r →
      (r.error ≠ none ↔
        (true ∈ polls r.calls ∨ ∃ x ∈ executed r.calls, D.failed x.2 = true)) := by
  intro rest
  induction rest with
  | nil =>
    intro n pend s r h
    simp only [lineLoop, Option.some.injEq] at h
    subst h; simp [polls, executed]
  | cons c rest ih =>
    intro n pend s r h
    rcases lineLoop_cons_inv D L c rest n pend s r h with
      ⟨_, rfl⟩ | ⟨_, _, _, _, hf, rfl⟩ | ⟨_, _, _, _, hf, r2, h2, rfl⟩ | ⟨_, _, r2, h2, rfl⟩
    · simp [polls]
    · simp [hf, failed_ne_none D _ hf]
    · rw [after_error, ih _ _ _ r2 h2, polls_after_iteration, executed_after_iteration]
      simp [hf]
    · rw [after_error, ih _ _ _ r2 h2, polls_after_poll, executed_after_poll]
      simp

/-- A command that fails is the last one executed, and its error is the one the loop ends
with. -/
theorem lineLoop_failed_last {S K : Type} (D : RocksdbDriver S K) (L : Nat) :
    ∀ (rest : List Char) (n : Nat) (pend : List Char) (s : S) (r : LoopExit S K),
      lineLoop D L rest n pend s = some r →
      ∀ (k : Nat) (cmd : String) (e : common.Error),
        (executed r.calls)[k]? = some (cmd, e) → D.failed e = true →
        (executed r.calls).length = k + 1 ∧ r.error = e := by
  intro rest
  induction rest with
  | nil =>
    intro n pend s r h k cmd e hk _
    simp only [lineLoop, Option.some.injEq] at h
    subst h; simp [executed] at hk
  | cons c rest ih =>
    intro n pend s r h k cmd e hk hfail
    rcases lineLoop_cons_inv D L c rest n pend s r h with
      ⟨_, rfl⟩ | ⟨_, _, _, _, hf, rfl⟩ | ⟨_, _, _, _, hf, r2, h2, rfl⟩ | ⟨_, _, r2, h2, rfl⟩
    · simp [executed] at hk
    · simp only [executed_iterationCalls] at hk ⊢
      cases k with
      | zero =>
        simp only [List.getElem?_cons_zero, Option.some.injEq, Prod.mk.injEq] at hk
        exact ⟨rfl, hk.2⟩
      | succ k => simp at hk
    · rw [executed_after_iteration] at hk ⊢
      rw [after_error]
      cases k with
      | zero =>
        simp only [List.getElem?_cons_zero, Option.some.injEq, Prod.mk.injEq] at hk
        rw [hk.2, hfail] at hf
        cases hf
      | succ k =>
        simp only [List.getElem?_cons_succ] at hk
        obtain ⟨h3, h4⟩ := ih _ _ _ r2 h2 k cmd e hk hfail
        exact ⟨by simp [h3], h4⟩
    · rw [executed_after_poll] at hk ⊢
      rw [after_error]
      exact ih _ _ _ r2 h2 k cmd e hk hfail

/-- The commands the loop executed were executed one after the other on the backend, from the
state the loop started in, and the loop leaves the state the last of them left: nothing is
rolled back. -/
theorem lineLoop_runCommands {S K : Type} (D : RocksdbDriver S K) (L : Nat) :
    ∀ (rest : List Char) (n : Nat) (pend : List Char) (s : S) (r : LoopExit S K),
      lineLoop D L rest n pend s = some r →
      runCommands D s ((executed r.calls).map Prod.fst) = (executed r.calls, r.state) := by
  intro rest
  induction rest with
  | nil =>
    intro n pend s r h
    simp only [lineLoop, Option.some.injEq] at h
    subst h; rfl
  | cons c rest ih =>
    intro n pend s r h
    rcases lineLoop_cons_inv D L c rest n pend s r h with
      ⟨_, rfl⟩ | ⟨_, _, _, _, hf, rfl⟩ | ⟨_, _, _, _, hf, r2, h2, rfl⟩ | ⟨_, _, r2, h2, rfl⟩
    · rfl
    · rfl
    · rw [executed_after_iteration, after_state, List.map_cons, runCommands]
      simp only [ih _ _ _ r2 h2]
    · rw [executed_after_poll, after_state]
      exact ih _ _ _ r2 h2

/-- The loop is defined when every command it can cut fits the buffer and the positions fit
an `int`. -/
theorem lineLoop_defined {S K : Type} (D : RocksdbDriver S K) (L : Nat) :
    ∀ (rest : List Char) (n : Nat) (pend : List Char) (s : S),
      (∀ cut ∈ cutsFrom rest n pend, cut.2.length < kCommandSize) →
      n + rest.length ≤ INT_MAX →
      ∃ r, lineLoop D L rest n pend s = some r := by
  intro rest
  induction rest with
  | nil => intro n pend s _ _; exact ⟨_, rfl⟩
  | cons c rest ih =>
    intro n pend s hfit hmax
    simp only [List.length_cons] at hmax
    by_cases hint : D.isInterrupted n = true
    · exact ⟨_, lineLoop_interrupted D L c rest n pend s hint⟩
    · have hint2 : D.isInterrupted n = false := by simpa using hint
      by_cases hb : c = '\n' ∨ rest = []
      · have hcuts : cutsFrom (c :: rest) n pend =
            (n, String.mk (cutCommand c rest pend)) :: cutsFrom rest (n + 1) [] := by
          rw [cutsFrom]; simp only [hb, if_true]
        rw [hcuts] at hfit
        have hfit1 : (cutCommand c rest pend).length < kCommandSize := by
          have := hfit _ (List.mem_cons_self _ _)
          simpa using this
        by_cases hf : D.failed (D.execute s .C_USER (String.mk (cutCommand c rest pend))).1 = true
        · exact ⟨_, lineLoop_cut_failed D L c rest n pend s hint2 hb hfit1 (by omega) hf⟩
        · have hf2 : D.failed (D.execute s .C_USER
              (String.mk (cutCommand c rest pend))).1 = false := by simpa using hf
          obtain ⟨r2, h2⟩ := ih (n + 1) []
            (D.execute s .C_USER (String.mk (cutCommand c rest pend))).2.2
            (fun cut hc => hfit cut (List.mem_cons_of_mem _ hc)) (by omega)
          rw [lineLoop_cut_ok D L c rest n pend s hint2 hb hfit1 (by omega) hf2, h2]
          exact ⟨_, rfl⟩
      · have hcuts : cutsFrom (c :: rest) n pend = cutsFrom rest (n + 1) (pend ++ [c]) := by
          rw [cutsFrom]; simp only [hb, if_false]
        rw [hcuts] at hfit
        obtain ⟨r2, h2⟩ := ih (n + 1) (pend ++ [c]) s hfit (by omega)
        rw [lineLoop_skip D L c rest n pend s hint2 hb, h2]
        exact ⟨_, rfl⟩

theorem cutsFrom_cut {c : Char} {rest : List Char} (n : Nat) (pend : List Char)
    (hb : c = '\n' ∨ rest = []) :
    cutsFrom (c :: rest) n pend =
      (n, String.mk (cutCommand c rest pend)) :: cutsFrom rest (n + 1) [] := by
  rw [cutsFrom]; simp only [hb, if_true]

theorem cutsFrom_skip {c : Char} {rest : List Char} (n : Nat) (pend : List Char)
    (hb : ¬ (c = '\n' ∨ rest = [])) :
    cutsFrom (c :: rest) n pend = cutsFrom rest (n + 1) (pend ++ [c]) := by
  rw [cutsFrom]; simp only [hb, if_false]

/-- Every cut lies at or after the position the loop is at. -/
theorem cutsFrom_position_ge :
    ∀ (rest : List Char) (n : Nat) (pend : List Char), ∀ cut ∈ cutsFrom rest n pend, n ≤ cut.1 := by
  intro rest
  induction rest with
  | nil => intro n pend cut h; simp [cutsFrom] at h
  | cons c rest ih =>
    intro n pend cut h
    by_cases hb : c = '\n' ∨ rest = []
    · rw [cutsFrom_cut n pend hb] at h
      rcases List.mem_cons.mp h with h | h
      · rw [h]
      · have := ih (n + 1) [] cut h; omega
    · rw [cutsFrom_skip n pend hb] at h
      have := ih (n + 1) (pend ++ [c]) cut h; omega

theorem cutPosition_ge (rest : List Char) (n : Nat) (pend : List Char) (k : Nat)
    (hk : k < (cutsFrom rest n pend).length) :
    n ≤ cutPosition (cutsFrom rest n pend) k := by
  have hmem : (cutsFrom rest n pend)[k] ∈ cutsFrom rest n pend := List.getElem_mem _
  have hge := cutsFrom_position_ge rest n pend _ hmem
  have hget : cutPosition (cutsFrom rest n pend) k = ((cutsFrom rest n pend)[k]).1 := by
    unfold cutPosition
    rw [List.getD_eq_getElem?_getD, List.getElem?_map, List.getElem?_eq_getElem hk]
    rfl
  omega

theorem cutPosition_cons (cut : Nat × String) (cs : List (Nat × String)) (k : Nat) :
    cutPosition (cut :: cs) (k + 1) = cutPosition cs k := by
  simp [cutPosition]

theorem pollAfter_cons (cut : Nat × String) (cs : List (Nat × String)) (k : Nat) :
    pollAfter (cut :: cs) cut.1 (k + 1) = pollAfter cs (cut.1 + 1) k := by
  cases k with
  | zero => simp [pollAfter, cutPosition]
  | succ k => simp [pollAfter, cutPosition]

/-- When `isInterrupted()` first answers true at a poll `q` made after the `k`-th cut command
has completed and not later than the iteration that cuts the next command, and the `k`
commands before it succeed, the loop executes exactly those `k` commands, leaves the backend
as they left it, and ends with the `Interrupted` error. -/
theorem lineLoop_interrupt_after {S K : Type} (D : RocksdbDriver S K) (L : Nat) :
    ∀ (rest : List Char) (n : Nat) (pend : List Char) (s : S) (k q : Nat),
      k < (cutsFrom rest n pend).length →
      (∀ cut ∈ (cutsFrom rest n pend).take k, cut.2.length < kCommandSize) →
      n + rest.length ≤ INT_MAX →
      pollAfter (cutsFrom rest n pend) n k ≤ q →
      q ≤ cutPosition (cutsFrom rest n pend) k →
      (∀ m, n ≤ m → m < q → D.isInterrupted m = false) →
      D.isInterrupted q = true →
      (∀ x ∈ (runCommands D s (((cutsFrom rest n pend).take k).map Prod.snd)).1,
        D.failed x.2 = false) →
      ∃ r, lineLoop D L rest n pend s = some r ∧
        executed r.calls = (runCommands D s (((cutsFrom rest n pend).take k).map Prod.snd)).1 ∧
        r.state = (runCommands D s (((cutsFrom rest n pend).take k).map Prod.snd)).2 ∧
        r.error = some ⟨"Interrupted exec.", .E_INTERRUPTED⟩ := by
  intro rest
  induction rest with
  | nil => intro n pend s k q hk; simp [cutsFrom] at hk
  | cons c rest ih =>
    intro n pend s k q hk hfit hmax hq1 hq2 hquiet hset hok
    simp only [List.length_cons] at hmax
    have hnq : n ≤ q := by
      cases k with
      | zero => simpa [pollAfter] using hq1
      | succ k =>
        have := cutPosition_ge (c :: rest) n pend k (by omega)
        simp only [pollAfter] at hq1
        omega
    by_cases hqn : q = n
    · subst hqn
      cases k with
      | zero =>
        refine ⟨_, lineLoop_interrupted D L c rest q pend s hset, ?_, ?_, rfl⟩
        · simp [executed, runCommands]
        · simp [runCommands]
      | succ k =>
        have := cutPosition_ge (c :: rest) q pend k (by omega)
        simp only [pollAfter] at hq1
        omega
    · have hint : D.isInterrupted n = false := hquiet n (le_refl _) (by omega)
      by_cases hb : c = '\n' ∨ rest = []
      · rw [cutsFrom_cut n pend hb] at hk hfit hq1 hq2 hok ⊢
        simp only [List.length_cons] at hk
        cases k with
        | zero =>
          simp [cutPosition] at hq2
          omega
        | succ k =>
          rw [pollAfter_cons (n, String.mk (cutCommand c rest pend))] at hq1
          rw [cutPosition_cons] at hq2
          simp only [List.take_succ_cons, List.map_cons, runCommands, List.mem_cons,
            forall_eq_or_imp] at hfit hok
          have hfit1 : (cutCommand c rest pend).length < kCommandSize := by simpa using hfit.1
          obtain ⟨r2, h2, h3, h4, h5⟩ := ih (n + 1) []
            (D.execute s .C_USER (String.mk (cutCommand c rest pend))).2.2 k q (by omega)
            hfit.2 (by omega) hq1 hq2 (fun m hm1 hm2 => hquiet m (by omega) hm2) hset hok.2
          refine ⟨_, by
            rw [lineLoop_cut_ok D L c rest n pend s hint hb hfit1 (by omega) hok.1, h2]; rfl,
            ?_, ?_, ?_⟩
          · rw [executed_after_iteration, h3]
            simp only [List.take_succ_cons, List.map_cons, runCommands]
          · rw [after_state, h4]
            simp only [List.take_succ_cons, List.map_cons, runCommands]
          · rw [after_error, h5]
      · rw [cutsFrom_skip n pend hb] at hk hfit hq1 hq2 hok ⊢
        have hq3 : pollAfter (cutsFrom rest (n + 1) (pend ++ [c])) (n + 1) k ≤ q := by
          cases k with
          | zero => simp only [pollAfter]; omega
          | succ k => simpa [pollAfter] using hq1
        obtain ⟨r2, h2, h3, h4, h5⟩ := ih (n + 1) (pend ++ [c]) s k q hk hfit (by omega)
          hq3 hq2 (fun m hm1 hm2 => hquiet m (by omega) hm2) hset hok
        refine ⟨_, by rw [lineLoop_skip D L c rest n pend s hint hb, h2]; rfl, ?_, ?_, ?_⟩
        · rw [executed_after_poll, h3]
        · rw [after_state, h4]
        · rw [after_error, h5]

theorem handleExecuteEvent_eq_lineLoop {S K : Type} (D : RocksdbDriver S K) (s : S)
    (text : String) (line : List Char) (hline : c_strornull text = some line) :
    D.handleExecuteEvent s text =
      (lineLoop D line.length line 0 [] s).map (fun r =>
        ⟨r.state, [.notifyProgress (.percent 0)] ++ r.calls ++
          [.reply (.ExecuteResponceEvent ⟨text, r.error⟩), .notifyProgress (.percent 100)]⟩) := by
  have h := executeLoop_eq_lineLoop D line line [] [] s (by simp)
  simp only [List.length_nil, Nat.add_zero] at h
  unfold RocksdbDriver.handleExecuteEvent
  rw [hline]
  simp only [h]
  cases lineLoop D line.length line 0 [] s <;> rfl

theorem handleExecuteEvent_defined {S K : Type} (D : RocksdbDriver S K) (s : S)
    (text : String)
    (hfit : ∀ line, c_strornull text = some line →
      (∀ cut ∈ commandCuts line, cut.2.length < kCommandSize) ∧ line.length ≤ INT_MAX) :
    ∃ r, D.handleExecuteEvent s text = some r := by
  cases hline : c_strornull text with
  | none =>
    unfold RocksdbDriver.handleExecuteEvent
    rw [hline]
    exact ⟨_, rfl⟩
  | some line =>
    obtain ⟨h1, h2⟩ := hfit line hline
    obtain ⟨r, hr⟩ := lineLoop_defined D line.length line 0 [] s h1 (by omega)
    rw [handleExecuteEvent_eq_lineLoop D s text line hline, hr]
    exact ⟨_, rfl⟩

theorem handleExecuteEvent_inv {S K : Type} (D : RocksdbDriver S K) (s : S)
    (text : String) (r : Run S K) (h : D.handleExecuteEvent s text = some r) :
    (c_strornull text = none ∧ r = ⟨s, [.notifyProgress (.percent 0),
        .reply (.ExecuteResponceEvent ⟨text, some ⟨"Empty command line.", .E_ERROR⟩⟩),
        .notifyProgress (.percent 100)]⟩) ∨
    (∃ line x, c_strornull text = some line ∧ lineLoop D line.length line 0 [] s = some x ∧
      r = ⟨x.state, [.notifyProgress (.percent 0)] ++ x.calls ++
          [.reply (.ExecuteResponceEvent ⟨text, x.error⟩), .notifyProgress (.percent 100)]⟩) := by
  cases hline : c_strornull text with
  | none =>
    left
    unfold RocksdbDriver.handleExecuteEvent at h
    rw [hline] at h
    simp only [Option.some.injEq] at h
    exact ⟨rfl, h.symm⟩
  | some line =>
    right
    rw [handleExecuteEvent_eq_lineLoop D s text line hline, Option.map_eq_some'] at h
    obtain ⟨x, h1, h2⟩ := h
    exact ⟨line, x, rfl, h1, h2.symm⟩

theorem replies_wrap {S K : Type} (x : LoopExit S K) (ev : ResponceEvent K)
    (h : replies x.calls = []) :
    replies ([Call.notifyProgress (.percent 0)] ++ x.calls ++
      [Call.reply ev, Call.notifyProgress (.percent 100)]) = [ev] := by
  rw [replies_append, replies_append, h]
  rfl

theorem executed_wrap {S K : Type} (x : LoopExit S K) (ev : ResponceEvent K) :
    executed ([Call.notifyProgress (.percent 0)] ++ x.calls ++
      [Call.reply ev, Call.notifyProgress (.percent 100)]) = executed x.calls := by
  rw [executed_append, executed_append]
  simp [executed]

theorem polls_wrap {S K : Type} (x : LoopExit S K) (ev : ResponceEvent K) :
    polls ([Call.notifyProgress (.percent 0)] ++ x.calls ++
      [Call.reply ev, Call.notifyProgress (.percent 100)]) = polls x.calls := by
  rw [polls_append, polls_append]
  simp [polls]

theorem runCommands_length {S K : Type} (D : RocksdbDriver S K) :
    ∀ (cmds : List String) (s : S), (runCommands D s cmds).1.length = cmds.length := by
  intro cmds
  induction cmds with
  | nil => intro s; rfl
  | cons c cs ih => intro s; simp [runCommands, ih]

/-- C7. Stop on first error in `RocksdbDriver::handleExecuteEvent`: the handler produces its
run whenever every command of the input fits the command buffer (and the input an `int`), and
in every run, for every input and every outcome of the executions and of the interruption
polls, a command whose execution returns an error is the last command executed: if it is the
command of index `k` (counting from 0), exactly `k + 1` commands are executed, and the one
response sent carries exactly that error. -/
theorem handleExecuteEvent_stops_at_error {S K : Type} (D : RocksdbDriver S K) (s : S)
    (text : String) :
    ((∀ line, c_strornull text = some line →
        (∀ cut ∈ commandCuts line, cut.2.length < kCommandSize) ∧ line.length ≤ INT_MAX) →
      ∃ r, D.handleExecuteEvent s text = some r) ∧
    (∀ r, D.handleExecuteEvent s text = some r →
      ∀ (k : Nat) (cmd : String) (e : common.Error),
        (executed r.calls)[k]? = some (cmd, e) → D.failed e = true →
        (executed r.calls).length = k + 1 ∧
          replies r.calls = [.ExecuteResponceEvent ⟨text, e⟩]) := by
  refine ⟨handleExecuteEvent_defined D s text, ?_⟩
  intro r h k cmd e hk hfail
  rcases handleExecuteEvent_inv D s text r h with ⟨_, rfl⟩ | ⟨line, x, _, hx, rfl⟩
  · simp [executed] at hk
  · simp only [executed_wrap] at hk ⊢
    obtain ⟨h1, h2⟩ := lineLoop_failed_last D line.length line 0 [] s x hx k cmd e hk hfail
    refine ⟨h1, ?_⟩
    rw [replies_wrap x _ (lineLoop_replies D line.length line 0 [] s x hx), h2]

/-- C8. Cooperative interruption in `RocksdbDriver::handleExecuteEvent`: for an input line
that the loop cuts into `n` commands and every `k < n`, if the Interrupted flag becomes set
after the `k`-th command completes, that is, `isInterrupted()` first answers true at a poll
`q` made after the `k`-th command has completed and not later than the iteration that would
cut the next command, and the first `k` commands fit the buffer and succeed, then the handler
executes exactly those `k` commands and none after them, the backend is left in the state in
which the `k`-th command left it (nothing is undone), and the one response sent carries the
error `Interrupted exec.` of kind `E_INTERRUPTED`. -/
theorem handleExecuteEvent_interrupted {S K : Type} (D : RocksdbDriver S K) (s : S)
    (text : String) (line : List Char) (k q : Nat)
    (hline : c_strornull text = some line)
    (hk : k < (commandCuts line).length)
    (hfit : ∀ cut ∈ (commandCuts line).take k, cut.2.length < kCommandSize)
    (hmax : line.length ≤ INT_MAX)
    (hafter : pollAfter (commandCuts line) 0 k ≤ q)
    (hbefore : q ≤ cutPosition (commandCuts line) k)
    (hquiet : ∀ m, m < q → D.isInterrupted m = false)
    (hset : D.isInterrupted q = true)
    (hok : ∀ x ∈ (runCommands D s (((commandCuts line).take k).map Prod.snd)).1,
      D.failed x.2 = false) :
    ∃ r, D.handleExecuteEvent s text = some r ∧
      executed r.calls = (runCommands D s (((commandCuts line).take k).map Prod.snd)).1 ∧
      (executed r.calls).length = k ∧
      r.state = (runCommands D s (((commandCuts line).take k).map Prod.snd)).2 ∧
      replies r.calls =
        [.ExecuteResponceEvent ⟨text, some ⟨"Interrupted exec.", .E_INTERRUPTED⟩⟩] := by
  obtain ⟨x, h1, h2, h3, h4⟩ := lineLoop_interrupt_after D line.length line 0 [] s k q hk hfit
    (by omega) hafter hbefore (fun m _ hm => hquiet m hm) hset hok
  refine ⟨_, by rw [handleExecuteEvent_eq_lineLoop D s text line hline, h1]; rfl, ?_, ?_, h3, ?_⟩
  · rw [executed_wrap, h2]; rfl
  · rw [executed_wrap, h2, runCommands_length, List.length_map, List.length_take]
    exact Nat.min_eq_left (Nat.le_of_lt hk)
  · rw [replies_wrap x _ (lineLoop_replies D line.length line 0 [] s x h1), h4]

/-- Witness for C7: the input `a`, `b`, `c` on three lines, where the command `b` fails. -/
theorem handleExecuteEvent_stops_at_error_witness :
    (∃ r, (scriptedDriver 100 "b").handleExecuteEvent [] "a\nb\nc" = some r) ∧
    (executed stoppedRun.calls).length = 1 + 1 ∧
      replies stoppedRun.calls =
        [.ExecuteResponceEvent ⟨"a\nb\nc", some ⟨"failed: b", .E_ERROR⟩⟩] :=
  ⟨(handleExecuteEvent_stops_at_error (scriptedDriver 100 "b") [] "a\nb\nc").1
      (fun line h => by
        have hl : line = "a\nb\nc".data := by
          have h2 : c_strornull "a\nb\nc" = some "a\nb\nc".data := by decide
          rw [h2] at h
          exact (Option.some.inj h).symm
        subst hl
        decide),
    (handleExecuteEvent_stops_at_error (scriptedDriver 100 "b") [] "a\nb\nc").2
      stoppedRun (by decide) 1 "b" (some ⟨"failed: b", .E_ERROR⟩) (by decide) (by decide)⟩

/-- Witness for C8, the interrupt scenario of the specification: ten lines, and the flag is
set after the third command completes (the poll of iteration 6 is the first to see it). -/
theorem handleExecuteEvent_interrupted_witness :
    ∃ r, (scriptedDriver 6 "").handleExecuteEvent [] "1\n2\n3\n4\n5\n6\n7\n8\n9\n10" = some r ∧
      executed r.calls = (runCommands (scriptedDriver 6 "") []
        (((commandCuts "1\n2\n3\n4\n5\n6\n7\n8\n9\n10".data).take 3).map Prod.snd)).1 ∧
      (executed r.calls).length = 3 ∧
      r.state = (runCommands (scriptedDriver 6 "") []
        (((commandCuts "1\n2\n3\n4\n5\n6\n7\n8\n9\n10".data).take 3).map Prod.snd)).2 ∧
      replies r.calls = [.ExecuteResponceEvent
        ⟨"1\n2\n3\n4\n5\n6\n7\n8\n9\n10", some ⟨"Interrupted exec.", .E_INTERRUPTED⟩⟩] :=
  handleExecuteEvent_interrupted (scriptedDriver 6 "") [] "1\n2\n3\n4\n5\n6\n7\n8\n9\n10"
    "1\n2\n3\n4\n5\n6\n7\n8\n9\n10".data 3 6 (by decide) (by decide) (by decide) (by decide)
    (by decide) (by decide) (by decide) (by decide) (by decide)

/-- C6, at the input `"a\n"`: the handler executes one command, and that command is the text
`"a\n"`, newline included, where splitting the input on newlines gives the line `a`. -/
theorem handleExecuteEvent_trailing_newline :
    (recordingDriver.handleExecuteEvent [] "a\n").map (fun r => (executed r.calls, r.state)) =
      some ([("a\n", none)], ["a\n"]) := by
  decide

theorem errorInfo_ite_iff {S K : Type} (D : RocksdbDriver S K) (e : common.Error) :
    ((if D.failed e = true then e else none) ≠ none) ↔ D.failed e = true := by
  by_cases h : D.failed e = true
  · simp [h, failed_ne_none D e h]
  · simp [h]

/-- The paths through `handleLoadDatabaseContentEvent`: the `KEYS` command failed; it
succeeded and left no array to decode; it left one array; it left more than one child. -/
theorem load_cases {S K : Type} (D : RocksdbDriver S K) (s : S) (count_keys : Int) :
    (D.failed (D.execute s .C_INNER ("KEYS a z " ++ toString count_keys)).1 = true ∧
      D.handleLoadDatabaseContentEvent s count_keys =
        some ⟨(D.execute s .C_INNER ("KEYS a z " ++ toString count_keys)).2.2,
          [.notifyProgress (.percent 0), .notifyProgress (.percent 50),
            .execute .C_INNER ("KEYS a z " ++ toString count_keys)
              (D.execute s .C_INNER ("KEYS a z " ++ toString count_keys)).1,
            .notifyProgress (.percent 75),
            .reply (.LoadDatabaseContentResponceEvent ⟨count_keys, [], 0,
              (D.execute s .C_INNER ("KEYS a z " ++ toString count_keys)).1⟩),
            .notifyProgress (.percent 100)]⟩) ∨
    (D.failed (D.execute s .C_INNER ("KEYS a z " ++ toString count_keys)).1 = false ∧
      (D.execute s .C_INNER ("KEYS a z " ++ toString count_keys)).2.1.length ≤ 1 ∧
      D.handleLoadDatabaseContentEvent s count_keys =
        some ⟨(D.execute s .C_INNER ("KEYS a z " ++ toString count_keys)).2.2,
          [.notifyProgress (.percent 0), .notifyProgress (.percent 50),
            .execute .C_INNER ("KEYS a z " ++ toString count_keys)
              (D.execute s .C_INNER ("KEYS a z " ++ toString count_keys)).1,
            .notifyProgress (.percent 75),
            .reply (.LoadDatabaseContentResponceEvent ⟨count_keys, [], 0, none⟩),
            .notifyProgress (.percent 100)]⟩) ∨
    (D.failed (D.execute s .C_INNER ("KEYS a z " ++ toString count_keys)).1 = false ∧
      ∃ ar, D.handleLoadDatabaseContentEvent s count_keys =
        some ⟨(D.dbsize (D.execute s .C_INNER ("KEYS a z " ++ toString count_keys)).2.2).2.2,
          [.notifyProgress (.percent 0), .notifyProgress (.percent 50),
            .execute .C_INNER ("KEYS a z " ++ toString count_keys)
              (D.execute s .C_INNER ("KEYS a z " ++ toString count_keys)).1,
            .dbsize (D.dbsize (D.execute s .C_INNER
              ("KEYS a z " ++ toString count_keys)).2.2).1,
            .notifyProgress (.percent 75),
            .reply (.LoadDatabaseContentResponceEvent ⟨count_keys, loadedKeys ar,
              (D.dbsize (D.execute s .C_INNER
                ("KEYS a z " ++ toString count_keys)).2.2).2.1.getD 0, none⟩),
            .notifyProgress (.percent 100)]⟩) ∨
    (D.failed (D.execute s .C_INNER ("KEYS a z " ++ toString count_keys)).1 = false ∧
      1 < (D.execute s .C_INNER ("KEYS a z " ++ toString count_keys)).2.1.length ∧
      D.handleLoadDatabaseContentEvent s count_keys = none) := by
  by_cases hf : D.failed (D.execute s .C_INNER ("KEYS a z " ++ toString count_keys)).1 = true
  · left
    exact ⟨hf, by simp only [RocksdbDriver.handleLoadDatabaseContentEvent, hf, if_true]; rfl⟩
  · right
    have hf2 : D.failed (D.execute s .C_INNER ("KEYS a z " ++ toString count_keys)).1 = false := by
      simpa using hf
    rcases hch : (D.execute s .C_INNER ("KEYS a z " ++ toString count_keys)).2.1 with
      _ | ⟨a, _ | ⟨b, t⟩⟩
    · left
      refine ⟨hf2, by simp, ?_⟩
      unfold RocksdbDriver.handleLoadDatabaseContentEvent
      rw [if_neg hf]; simp only [hch]; rfl
    · cases a with
      | object v =>
        left
        refine ⟨hf2, by simp, ?_⟩
        unfold RocksdbDriver.handleLoadDatabaseContentEvent
        rw [if_neg hf]; simp only [hch]; rfl
      | array ar =>
        cases ar with
        | none =>
          left
          refine ⟨hf2, by simp, ?_⟩
          unfold RocksdbDriver.handleLoadDatabaseContentEvent
          rw [if_neg hf]; simp only [hch]; rfl
        | some ar =>
          right; left
          refine ⟨hf2, ar, ?_⟩
          unfold RocksdbDriver.handleLoadDatabaseContentEvent
          rw [if_neg hf]; simp only [hch]; rfl
    · right; right
      refine ⟨hf2, by simp, ?_⟩
      unfold RocksdbDriver.handleLoadDatabaseContentEvent
      rw [if_neg hf]; simp only [hch]

/-- One reply per handler: each event handler of `RocksdbDriver` (connect, disconnect,
execute, command request, load-database-content, clear-database) calls `reply` exactly once
on every path on which it runs to its end. The response carries an error exactly when
`connect`, `disconnect` and `flushdb` failed, for the three handlers named after them; for
execute, when the text gave no input line, a poll of `isInterrupted()` answered true, or an
executed command failed; for a command request, when `commandByType` failed or else the
command built failed; for load-database-content, when the `KEYS` command failed, and only
then: a failure of `dbsize` is not carried. The handlers run to their end when the assertions
of the source hold (`CHECK(set)`, at most one child of the `KEYS` command) and, for execute,
when every command fits the buffer. -/
theorem handlers_reply_once {S K : Type} (D : RocksdbDriver S K) (s : S) :
    (D.settings = true →
      ∃ r ev, D.handleConnectEvent s = some r ∧ replies r.calls = [ev] ∧
        (ev.errorInfo ≠ none ↔ D.failed (D.connect s).1 = true)) ∧
    (∃ ev, replies (D.handleDisconnectEvent s).calls = [ev] ∧
        (ev.errorInfo ≠ none ↔ D.failed (D.disconnect s).1 = true)) ∧
    (∀ text : String,
      ((∀ line, c_strornull text = some line →
          (∀ cut ∈ commandCuts line, cut.2.length < kCommandSize) ∧ line.length ≤ INT_MAX) →
        ∃ r, D.handleExecuteEvent s text = some r) ∧
      (∀ r, D.handleExecuteEvent s text = some r →
        ∃ ev, replies r.calls = [ev] ∧
          (ev.errorInfo ≠ none ↔
            (c_strornull text = none ∨ true ∈ polls r.calls ∨
              ∃ x ∈ executed r.calls, D.failed x.2 = true)))) ∧
    (∀ cmd : K,
      ∃ ev, replies (D.handleCommandRequestEvent s cmd).calls = [ev] ∧
        (ev.errorInfo ≠ none ↔
          (D.failed (D.commandByType cmd).1 = true ∨
            (D.failed (D.commandByType cmd).1 = false ∧
              D.failed (D.execute s .C_INNER (D.commandByType cmd).2).1 = true)))) ∧
    (∀ count_keys : Int,
      ((D.failed (D.execute s .C_INNER ("KEYS a z " ++ toString count_keys)).1 = true ∨
          (D.execute s .C_INNER ("KEYS a z " ++ toString count_keys)).2.1.length ≤ 1) →
        ∃ r, D.handleLoadDatabaseContentEvent s count_keys = some r) ∧
      (∀ r, D.handleLoadDatabaseContentEvent s count_keys = some r →
        ∃ ev, replies r.calls = [ev] ∧
          (ev.errorInfo ≠ none ↔
            D.failed (D.execute s .C_INNER ("KEYS a z " ++ toString count_keys)).1 = true))) ∧
    (∃ ev, replies (D.handleClearDatabaseEvent s).calls = [ev] ∧
        (ev.errorInfo ≠ none ↔ D.failed (D.flushdb s).1 = true)) := by
  refine ⟨?_, ?_, ?_, ?_, ?_, ?_⟩
  · intro hset
    refine ⟨⟨(D.connect s).2, [.notifyProgress (.percent 0), .notifyProgress (.percent 25),
        .connect (D.connect s).1, .notifyProgress (.percent 75),
        .reply (.ConnectResponceEvent
          (if D.failed (D.connect s).1 = true then ⟨(D.connect s).1⟩ else ⟨none⟩)),
        .notifyProgress (.percent 100)]⟩,
      .ConnectResponceEvent
          (if D.failed (D.connect s).1 = true then ⟨(D.connect s).1⟩ else ⟨none⟩),
      by simp only [RocksdbDriver.handleConnectEvent, hset, if_true], rfl, ?_⟩
    by_cases h : D.failed (D.connect s).1 = true
    · simp [ResponceEvent.errorInfo, h, failed_ne_none D _ h]
    · simp [ResponceEvent.errorInfo, h]
  · refine ⟨_, rfl, ?_⟩
    by_cases h : D.failed (D.disconnect s).1 = true
    · simp [ResponceEvent.errorInfo, h, failed_ne_none D _ h]
    · simp [ResponceEvent.errorInfo, h]
  · intro text
    refine ⟨handleExecuteEvent_defined D s text, ?_⟩
    intro r h
    rcases handleExecuteEvent_inv D s text r h with ⟨hnone, rfl⟩ | ⟨line, x, hline, hx, rfl⟩
    · exact ⟨.ExecuteResponceEvent ⟨text, some ⟨"Empty command line.", .E_ERROR⟩⟩, rfl,
        by simp [ResponceEvent.errorInfo, hnone]⟩
    · refine ⟨_, replies_wrap x _ (lineLoop_replies D line.length line 0 [] s x hx), ?_⟩
      rw [polls_wrap, executed_wrap]
      have := lineLoop_error_iff D line.length line 0 [] s x hx
      simp only [ResponceEvent.errorInfo, hline]
      rw [this]
      simp
  · intro cmd
    by_cases hc : D.failed (D.commandByType cmd).1 = true
    · refine ⟨.CommandResponceEvent ⟨cmd, (D.commandByType cmd).1⟩, ?_, ?_⟩
      · simp only [RocksdbDriver.handleCommandRequestEvent, hc, if_true]; rfl
      · simp [ResponceEvent.errorInfo, hc, failed_ne_none D _ hc]
    · refine ⟨.CommandResponceEvent
        (if D.failed (D.execute s .C_INNER (D.commandByType cmd).2).1 = true
          then ⟨cmd, (D.execute s .C_INNER (D.commandByType cmd).2).1⟩ else ⟨cmd, none⟩), ?_, ?_⟩
      · simp only [RocksdbDriver.handleCommandRequestEvent, hc, if_false]; rfl
      · by_cases h : D.failed (D.execute s .C_INNER (D.commandByType cmd).2).1 = true
        · simp [ResponceEvent.errorInfo, h, hc, failed_ne_none D _ h]
        · simp [ResponceEvent.errorInfo, h, hc]
  · intro count_keys
    refine ⟨fun hlen => ?_, fun r h => ?_⟩
    · rcases load_cases D s count_keys with h | h | h | h
      · exact ⟨_, h.2⟩
      · exact ⟨_, h.2.2⟩
      · obtain ⟨h1, ar, h2⟩ := h
        exact ⟨_, h2⟩
      · rcases hlen with hlen | hlen
        · rw [h.1] at hlen; cases hlen
        · omega
    · rcases load_cases D s count_keys with h1 | h1 | h1 | h1
      · rw [h1.2, Option.some.injEq] at h
        subst h
        exact ⟨_, rfl, by simp [ResponceEvent.errorInfo, h1.1, failed_ne_none D _ h1.1]⟩
      · rw [h1.2.2, Option.some.injEq] at h
        subst h
        exact ⟨_, rfl, by simp [ResponceEvent.errorInfo, h1.1]⟩
      · obtain ⟨h2, ar, h3⟩ := h1
        rw [h3, Option.some.injEq] at h
        subst h
        exact ⟨_, rfl, by simp [ResponceEvent.errorInfo, h2]⟩
      · rw [h1.2.2] at h
        cases h
  · refine ⟨_, rfl, ?_⟩
    by_cases h : D.failed (D.flushdb s).1 = true
    · simp [ResponceEvent.errorInfo, h, failed_ne_none D _ h]
    · simp [ResponceEvent.errorInfo, h]

/-- An instance of the replies of the handlers: the connect handler, the execute handler on
the three lines `a`, `b`, `c` with a failing `b`, and the load-database-content handler, on
the example driver. -/
theorem handlers_reply_once_witness :
    (∃ r ev, (scriptedDriver 100 "b").handleConnectEvent [] = some r ∧ replies r.calls = [ev] ∧
      (ev.errorInfo ≠ none ↔
        (scriptedDriver 100 "b").failed ((scriptedDriver 100 "b").connect []).1 = true)) ∧
    (∃ r, (scriptedDriver 100 "b").handleExecuteEvent [] "a\nb\nc" = some r) ∧
    (∃ ev, replies stoppedRun.calls = [ev] ∧
      (ev.errorInfo ≠ none ↔
        (c_strornull "a\nb\nc" = none ∨ true ∈ polls stoppedRun.calls ∨
          ∃ x ∈ executed stoppedRun.calls, (scriptedDriver 100 "b").failed x.2 = true))) ∧
    (∃ r, (scriptedDriver 100 "b").handleLoadDatabaseContentEvent [] 5 = some r) :=
  ⟨(handlers_reply_once (scriptedDriver 100 "b") []).1 rfl,
    ((handlers_reply_once (scriptedDriver 100 "b") []).2.2.1 "a\nb\nc").1
      (fun line h => by
        have hl : line = "a\nb\nc".data := by
          have h2 : c_strornull "a\nb\nc" = some "a\nb\nc".data := by decide
          rw [h2] at h
          exact (Option.some.inj h).symm
        subst hl
        decide),
    ((handlers_reply_once (scriptedDriver 100 "b") []).2.2.1 "a\nb\nc").2 stoppedRun (by decide),
    ((handlers_reply_once (scriptedDriver 100 "b") []).2.2.2.2.1 5).1 (Or.inr (by decide))⟩

/-- C10. Exactly one response fails on the load-database-content handler: at a backend whose
`KEYS` command succeeds with one array reply and whose `dbsize` fails, the handler calls
`reply` exactly once, as every handler does, but the response carries no error although the
sub-operation `dbsize` was called and returned one. -/
theorem handlers_reply_once_dbsize :
    (keysDriver none (some ⟨"dbsize failed", .E_ERROR⟩, none)).failed
      ((keysDriver none (some ⟨"dbsize failed", .E_ERROR⟩, none)).dbsize
        ["KEYS a z 5"]).1 = true ∧
    ∃ r ev,
      (keysDriver none (some ⟨"dbsize failed", .E_ERROR⟩, none)).handleLoadDatabaseContentEvent
        [] 5 = some r ∧
      replies r.calls = [ev] ∧
      Call.dbsize (some ⟨"dbsize failed", .E_ERROR⟩) ∈ r.calls ∧
      ev.errorInfo = none :=
  ⟨by decide,
    ⟨["KEYS a z 5"], [.notifyProgress (.percent 0), .notifyProgress (.percent 50),
      .execute .C_INNER "KEYS a z 5" none, .dbsize (some ⟨"dbsize failed", .E_ERROR⟩),
      .notifyProgress (.percent 75),
      .reply (.LoadDatabaseContentResponceEvent ⟨5, [⟨⟨"a"⟩, none⟩, ⟨⟨"b"⟩, none⟩], 0, none⟩),
      .notifyProgress (.percent 100)]⟩,
    .LoadDatabaseContentResponceEvent ⟨5, [⟨⟨"a"⟩, none⟩, ⟨⟨"b"⟩, none⟩], 0, none⟩,
    by decide, by decide, by decide, rfl⟩

/-- When the loop ends without an error, the commands it executed are exactly the cuts of the
input, in order. -/
theorem lineLoop_all_commands {S K : Type} (D : RocksdbDriver S K) (L : Nat) :
    ∀ (rest : List Char) (n : Nat) (pend : List Char) (s : S) (r : LoopExit S K),
      lineLoop D L rest n pend s = some r → r.error = none →
      (executed r.calls).map Prod.fst = (cutsFrom rest n pend).map Prod.snd := by
  intro rest
  induction rest with
  | nil =>
    intro n pend s r h _
    simp only [lineLoop, Option.some.injEq] at h
    subst h; rfl
  | cons c rest ih =>
    intro n pend s r h herr
    rcases lineLoop_cons_inv D L c rest n pend s r h with
      ⟨_, rfl⟩ | ⟨_, _, _, _, hf, rfl⟩ | ⟨_, hb, _, _, hf, r2, h2, rfl⟩ | ⟨_, hb, r2, h2, rfl⟩
    · cases herr
    · exact absurd herr (failed_ne_none D _ hf)
    · rw [executed_after_iteration, cutsFrom_cut n pend hb, List.map_cons, List.map_cons,
        ih _ _ _ r2 h2 herr]
    · rw [executed_after_poll, cutsFrom_skip n pend hb]
      exact ih _ _ _ r2 h2 herr

/-- The commands `handleExecuteEvent` executes when it answers without an error: the cuts of
the input line, in order. A final newline stays inside the last command. -/
theorem handleExecuteEvent_commands {S K : Type} (D : RocksdbDriver S K) (s : S)
    (text : String) (line : List Char) (r : Run S K)
    (hline : c_strornull text = some line)
    (h : D.handleExecuteEvent s text = some r)
    (hreply : replies r.calls = [.ExecuteResponceEvent ⟨text, none⟩]) :
    (executed r.calls).map Prod.fst = (commandCuts line).map Prod.snd := by
  rcases handleExecuteEvent_inv D s text r h with ⟨hnone, _⟩ | ⟨line2, x, hline2, hx, rfl⟩
  · rw [hline] at hnone; cases hnone
  · rw [hline] at hline2
    obtain rfl := Option.some.inj hline2
    rw [replies_wrap x _ (lineLoop_replies D line.length line 0 [] s x hx)] at hreply
    simp only [List.cons.injEq, ResponceEvent.ExecuteResponceEvent.injEq,
      ExecuteResponce.mk.injEq, true_and, and_true] at hreply
    rw [executed_wrap]
    exact lineLoop_all_commands D line.length line 0 [] s x hx hreply

end rocksdb

end core

end fastonosql

namespace fastonosql

namespace core

namespace leveldb

/-! ## The LevelDB configuration -/

theorem parseOptions_stop_here (t : String) (rest : List String) (cfg : LeveldbConfig)
    (hc : t ≠ "-c") (hv : ¬ ((t = "-d" ∨ t = "-ns" ∨ t = "-f") ∧ rest ≠ [])) :
    (parseOptions (t :: rest) cfg).1 = cfg ∧ readFlags (t :: rest) = [] := by
  have hstop : (stopAt t cfg).1 = cfg := by
    unfold stopAt; split <;> rfl
  cases rest with
  | nil => simp [parseOptions, readFlags, hc, hstop]
  | cons v rest =>
    have h1 : t ≠ "-d" := fun h => hv ⟨Or.inl h, by simp⟩
    have h2 : t ≠ "-ns" := fun h => hv ⟨Or.inr (Or.inl h), by simp⟩
    have h3 : t ≠ "-f" := fun h => hv ⟨Or.inr (Or.inr h), by simp⟩
    simp [parseOptions, readFlags, hc, h1, h2, h3, hstop]

theorem parseOptions_append_stop (t : String) (rest : List String)
    (hc : t ≠ "-c") (hv : ¬ ((t = "-d" ∨ t = "-ns" ∨ t = "-f") ∧ rest ≠ [])) :
    ∀ (n : Nat) (pre : List String) (cfg : LeveldbConfig), pre.length ≤ n →
      readsWhole pre = true →
      (parseOptions (pre ++ t :: rest) cfg).1 = (parseOptions pre cfg).1 ∧
        readFlags (pre ++ t :: rest) = readFlags pre := by
  intro n
  induction n with
  | zero =>
    intro pre cfg hlen _
    have : pre = [] := List.length_eq_zero.mp (by omega)
    subst this
    simpa [parseOptions, readFlags] using parseOptions_stop_here t rest cfg hc hv
  | succ n ih =>
    intro pre cfg hlen hw
    match pre, hlen, hw with
    | [], _, _ => simpa [parseOptions, readFlags] using parseOptions_stop_here t rest cfg hc hv
    | [a], _, hw =>
      have ha : a = "-c" := by simpa [readsWhole] using hw
      subst ha
      have h := parseOptions_stop_here t rest { cfg with create_if_missing := true } hc hv
      simp [parseOptions, readFlags, h.1, h.2]
    | a :: v :: p, hlen, hw =>
      simp only [List.length_cons] at hlen
      by_cases hd : a = "-d"
      · subst hd
        have hw2 : readsWhole p = true := by simpa [readsWhole] using hw
        have h := ih p { cfg with delimiter := v } (by omega) hw2
        simp [parseOptions, readFlags, h.1, h.2]
      · by_cases hn : a = "-ns"
        · subst hn
          have hw2 : readsWhole p = true := by simpa [readsWhole] using hw
          have h := ih p { cfg with ns_separator := v } (by omega) hw2
          simp [parseOptions, readFlags, h.1, h.2]
        · by_cases hf : a = "-f"
          · subst hf
            have hw2 : readsWhole p = true := by simpa [readsWhole] using hw
            have h := ih p { cfg with dbname := v } (by omega) hw2
            simp [parseOptions, readFlags, h.1, h.2]
          · by_cases hcc : a = "-c"
            · subst hcc
              have hw2 : readsWhole (v :: p) = true := by simpa [readsWhole] using hw
              have h := ih (v :: p) { cfg with create_if_missing := true }
                (by simp only [List.length_cons]; omega) hw2
              simp only [List.cons_append] at h
              simp [parseOptions, readFlags, h.1, h.2]
            · simp [readsWhole, hd, hn, hf, hcc] at hw

/-- C13. LevelDB config parsing stops at the first unrecognized or non-flag token: for every
token list `pre ++ t :: rest` in which the tokens of `pre` are read to the end as whole flags
(so that `t` is the token reached at the next flag position, `i = pre.length`), if `t` is not
`-c` and is not one of `-d`, `-ns`, `-f` followed by a value token, then `parseOptions`
yields the same configuration as on `pre` alone, reads no flag beyond `pre`, and so yields
the same configuration whatever the tokens at and after position `i` are. -/
theorem parseOptions_stops_at_unrecognized (pre : List String) (t : String)
    (rest : List String) (cfg : LeveldbConfig)
    (hpre : readsWhole pre = true) (hc : t ≠ "-c")
    (hv : ¬ ((t = "-d" ∨ t = "-ns" ∨ t = "-f") ∧ rest ≠ [])) :
    (parseOptions (pre ++ t :: rest) cfg).1 = (parseOptions pre cfg).1 ∧
      readFlags (pre ++ t :: rest) = readFlags pre ∧
      ∀ (t2 : String) (rest2 : List String), t2 ≠ "-c" →
        ¬ ((t2 = "-d" ∨ t2 = "-ns" ∨ t2 = "-f") ∧ rest2 ≠ []) →
        (parseOptions (pre ++ t2 :: rest2) cfg).1 = (parseOptions (pre ++ t :: rest) cfg).1 := by
  have h := parseOptions_append_stop t rest hc hv pre.length pre cfg (le_refl _) hpre
  refine ⟨h.1, h.2, ?_⟩
  intro t2 rest2 hc2 hv2
  rw [h.1, (parseOptions_append_stop t2 rest2 hc2 hv2 pre.length pre cfg (le_refl _) hpre).1]

/-- Witness for C13: after `-d , -c` the token `db.txt` is no flag, and the `-f x` after it is
not read. -/
theorem parseOptions_stops_at_unrecognized_witness :
    (parseOptions (["-d", ",", "-c"] ++ "db.txt" :: ["-f", "x"])
        (LeveldbConfig.init "\n" ":" "~/test.leveldb")).1 =
      (parseOptions ["-d", ",", "-c"] (LeveldbConfig.init "\n" ":" "~/test.leveldb")).1 ∧
    readFlags (["-d", ",", "-c"] ++ "db.txt" :: ["-f", "x"]) = readFlags ["-d", ",", "-c"] ∧
    ∀ (t2 : String) (rest2 : List String), t2 ≠ "-c" →
      ¬ ((t2 = "-d" ∨ t2 = "-ns" ∨ t2 = "-f") ∧ rest2 ≠ []) →
      (parseOptions (["-d", ",", "-c"] ++ t2 :: rest2)
          (LeveldbConfig.init "\n" ":" "~/test.leveldb")).1 =
        (parseOptions (["-d", ",", "-c"] ++ "db.txt" :: ["-f", "x"])
          (LeveldbConfig.init "\n" ":" "~/test.leveldb")).1 :=
  parseOptions_stops_at_unrecognized ["-d", ",", "-c"] "db.txt" ["-f", "x"]
    (LeveldbConfig.init "\n" ":" "~/test.leveldb") (by decide) (by decide) (by decide)

theorem lastDelimiter_cons (x : Flag) (fs : List Flag) (dflt : String) :
    (lastDelimiter (x :: fs)).getD dflt =
      (lastDelimiter fs).getD (match x with
        | .d v => v
        | _ => dflt) := by
  cases x <;> simp [lastDelimiter, List.getLast?_cons]

theorem lastSeparator_cons (x : Flag) (fs : List Flag) (dflt : String) :
    (lastSeparator (x :: fs)).getD dflt =
      (lastSeparator fs).getD (match x with
        | .ns v => v
        | _ => dflt) := by
  cases x <;> simp [lastSeparator, List.getLast?_cons]

theorem lastPath_cons (x : Flag) (fs : List Flag) (dflt : String) :
    (lastPath (x :: fs)).getD dflt =
      (lastPath fs).getD (match x with
        | .f v => v
        | _ => dflt) := by
  cases x <;> simp [lastPath, List.getLast?_cons]

/-- The configuration `parseOptions` yields, field by field, from the flags it reads. -/
theorem parseOptions_fields :
    ∀ (n : Nat) (argv : List String) (cfg : LeveldbConfig), argv.length ≤ n →
      (parseOptions argv cfg).1.delimiter = (lastDelimiter (readFlags argv)).getD cfg.delimiter ∧
      (parseOptions argv cfg).1.ns_separator =
        (lastSeparator (readFlags argv)).getD cfg.ns_separator ∧
      (parseOptions argv cfg).1.dbname = (lastPath (readFlags argv)).getD cfg.dbname ∧
      (parseOptions argv cfg).1.create_if_missing =
        (cfg.create_if_missing || decide (Flag.c ∈ readFlags argv)) := by
  intro n
  induction n with
  | zero =>
    intro argv cfg hlen
    have : argv = [] := List.length_eq_zero.mp (by omega)
    subst this
    simp [parseOptions, readFlags, lastDelimiter, lastSeparator, lastPath]
  | succ n ih =>
    intro argv cfg hlen
    have hstop : ∀ a : String, (stopAt a cfg).1 = cfg := by
      intro a; unfold stopAt; split <;> rfl
    match argv, hlen with
    | [], _ => simp [parseOptions, readFlags, lastDelimiter, lastSeparator, lastPath]
    | [a], _ =>
      by_cases hc : a = "-c"
      · subst hc
        simp [parseOptions, readFlags, lastDelimiter, lastSeparator, lastPath]
      · simp [parseOptions, readFlags, hc, hstop, lastDelimiter, lastSeparator, lastPath]
    | a :: v :: p, hlen =>
      simp only [List.length_cons] at hlen
      by_cases hd : a = "-d"
      · subst hd
        have h := ih p { cfg with delimiter := v } (by omega)
        simp only [parseOptions, readFlags, if_true, lastDelimiter_cons, lastSeparator_cons,
          lastPath_cons, h.1, h.2.1, h.2.2.1, h.2.2.2]
        simp
      · by_cases hn : a = "-ns"
        · subst hn
          have h := ih p { cfg with ns_separator := v } (by omega)
          simp only [parseOptions, readFlags, hd, if_false, if_true, lastDelimiter_cons,
            lastSeparator_cons, lastPath_cons, h.1, h.2.1, h.2.2.1, h.2.2.2]
          simp
        · by_cases hf : a = "-f"
          · subst hf
            have h := ih p { cfg with dbname := v } (by omega)
            simp only [parseOptions, readFlags, hd, hn, if_false, if_true, lastDelimiter_cons,
              lastSeparator_cons, lastPath_cons, h.1, h.2.1, h.2.2.1, h.2.2.2]
            simp
          · by_cases hcc : a = "-c"
            · subst hcc
              have h := ih (v :: p) { cfg with create_if_missing := true }
                (by simp only [List.length_cons]; omega)
              simp only [parseOptions, readFlags, hd, hn, hf, if_false, if_true,
                lastDelimiter_cons, lastSeparator_cons, lastPath_cons, h.1, h.2.1, h.2.2.1,
                h.2.2.2]
              simp
            · simp [parseOptions, readFlags, hd, hn, hf, hcc, hstop, lastDelimiter,
                lastSeparator, lastPath]

/-- A flag that is read stands in the token list. -/
theorem readFlags_mem :
    ∀ (n : Nat) (argv : List String), argv.length ≤ n →
      ((∃ v, Flag.d v ∈ readFlags argv) → "-d" ∈ argv) ∧
      ((∃ v, Flag.ns v ∈ readFlags argv) → "-ns" ∈ argv) ∧
      ((∃ v, Flag.f v ∈ readFlags argv) → "-f" ∈ argv) ∧
      (Flag.c ∈ readFlags argv → "-c" ∈ argv) := by
  intro n
  induction n with
  | zero =>
    intro argv hlen
    have : argv = [] := List.length_eq_zero.mp (by omega)
    subst this
    simp [readFlags]
  | succ n ih =>
    intro argv hlen
    match argv, hlen with
    | [], _ => simp [readFlags]
    | [a], _ =>
      by_cases hc : a = "-c"
      · subst hc; simp [readFlags]
      · simp [readFlags, hc]
    | a :: v :: p, hlen =>
      simp only [List.length_cons] at hlen
      by_cases hd : a = "-d"
      · subst hd
        have h := ih p (by omega)
        simp only [readFlags, if_true, List.mem_cons]
        refine ⟨fun _ => by simp, ?_, ?_, ?_⟩
        · rintro ⟨w, hw | hw⟩
          · cases hw
          · exact Or.inr (Or.inr (h.2.1 ⟨w, hw⟩))
        · rintro ⟨w, hw | hw⟩
          · cases hw
          · exact Or.inr (Or.inr (h.2.2.1 ⟨w, hw⟩))
        · rintro (hw | hw)
          · cases hw
          · exact Or.inr (Or.inr (h.2.2.2 hw))
      · by_cases hn : a = "-ns"
        · subst hn
          have h := ih p (by omega)
          simp only [readFlags, hd, if_false, if_true, List.mem_cons]
          refine ⟨?_, fun _ => by simp, ?_, ?_⟩
          · rintro ⟨w, hw | hw⟩
            · cases hw
            · exact Or.inr (Or.inr (h.1 ⟨w, hw⟩))
          · rintro ⟨w, hw | hw⟩
            · cases hw
            · exact Or.inr (Or.inr (h.2.2.1 ⟨w, hw⟩))
          · rintro (hw | hw)
            · cases hw
            · exact Or.inr (Or.inr (h.2.2.2 hw))
        · by_cases hf : a = "-f"
          · subst hf
            have h := ih p (by omega)
            simp only [readFlags, hd, hn, if_false, if_true, List.mem_cons]
            refine ⟨?_, ?_, fun _ => by simp, ?_⟩
            · rintro ⟨w, hw | hw⟩
              · cases hw
              · exact Or.inr (Or.inr (h.1 ⟨w, hw⟩))
            · rintro ⟨w, hw | hw⟩
              · cases hw
              · exact Or.inr (Or.inr (h.2.1 ⟨w, hw⟩))
            · rintro (hw | hw)
              · cases hw
              · exact Or.inr (Or.inr (h.2.2.2 hw))
          · by_cases hcc : a = "-c"
            · subst hcc
              have h := ih (v :: p) (by simp only [List.length_cons]; omega)
              simp only [readFlags, hd, hn, hf, if_false, if_true, List.mem_cons]
              refine ⟨?_, ?_, ?_, fun _ => by simp⟩
              · rintro ⟨w, hw | hw⟩
                · cases hw
                · exact Or.inr (List.mem_cons.mp (h.1 ⟨w, hw⟩))
              · rintro ⟨w, hw | hw⟩
                · cases hw
                · exact Or.inr (List.mem_cons.mp (h.2.1 ⟨w, hw⟩))
              · rintro ⟨w, hw | hw⟩
                · cases hw
                · exact Or.inr (List.mem_cons.mp (h.2.2.1 ⟨w, hw⟩))
            · simp [readFlags, hd, hn, hf, hcc]

theorem lastDelimiter_none (fs : List Flag) (h : ¬ ∃ v, Flag.d v ∈ fs) :
    lastDelimiter fs = none := by
  unfold lastDelimiter
  rw [List.getLast?_eq_none_iff, List.filterMap_eq_nil_iff]
  intro x hx
  cases x with
  | d v => exact absurd ⟨v, hx⟩ h
  | _ => rfl

theorem lastSeparator_none (fs : List Flag) (h : ¬ ∃ v, Flag.ns v ∈ fs) :
    lastSeparator fs = none := by
  unfold lastSeparator
  rw [List.getLast?_eq_none_iff, List.filterMap_eq_nil_iff]
  intro x hx
  cases x with
  | ns v => exact absurd ⟨v, hx⟩ h
  | _ => rfl

theorem lastPath_none (fs : List Flag) (h : ¬ ∃ v, Flag.f v ∈ fs) :
    lastPath fs = none := by
  unfold lastPath
  rw [List.getLast?_eq_none_iff, List.filterMap_eq_nil_iff]
  intro x hx
  cases x with
  | f v => exact absurd ⟨v, hx⟩ h
  | _ => rfl

/-- C15. Flag semantics of LevelDB `parseOptions`: for all tokens `D`, `N`, `P`, parsing
`["-d", D, "-ns", N, "-f", P, "-c"]` sets delimiter `D`, ns_separator `N`, dbname `P` and
create_if_missing; each value-taking flag that has a next token consumes it verbatim as its
value, whatever that token is, and parsing goes on after it; for every token list each of the
three fields ends as the value of the last occurrence of its flag among the flags read, and
keeps its prior value when there is none, in particular when the flag does not occur in the
list; and create_if_missing is true after parsing iff it was true before or `-c` was read. -/
theorem parseOptions_flag_semantics :
    (∀ (D N P : String) (cfg : LeveldbConfig),
      (parseOptions ["-d", D, "-ns", N, "-f", P, "-c"] cfg).1 = ⟨D, N, P, true⟩) ∧
    (∀ (v : String) (rest : List String) (cfg : LeveldbConfig),
      parseOptions ("-d" :: v :: rest) cfg = parseOptions rest { cfg with delimiter := v } ∧
      parseOptions ("-ns" :: v :: rest) cfg =
        parseOptions rest { cfg with ns_separator := v } ∧
      parseOptions ("-f" :: v :: rest) cfg = parseOptions rest { cfg with dbname := v }) ∧
    (∀ (argv : List String) (cfg : LeveldbConfig),
      (parseOptions argv cfg).1.delimiter = (lastDelimiter (readFlags argv)).getD cfg.delimiter ∧
      (parseOptions argv cfg).1.ns_separator =
        (lastSeparator (readFlags argv)).getD cfg.ns_separator ∧
      (parseOptions argv cfg).1.dbname = (lastPath (readFlags argv)).getD cfg.dbname ∧
      ((parseOptions argv cfg).1.create_if_missing = true ↔
        (cfg.create_if_missing = true ∨ Flag.c ∈ readFlags argv))) ∧
    (∀ (argv : List String) (cfg : LeveldbConfig),
      ("-d" ∉ argv → (parseOptions argv cfg).1.delimiter = cfg.delimiter) ∧
      ("-ns" ∉ argv → (parseOptions argv cfg).1.ns_separator = cfg.ns_separator) ∧
      ("-f" ∉ argv → (parseOptions argv cfg).1.dbname = cfg.dbname) ∧
      ("-c" ∉ argv →
        (parseOptions argv cfg).1.create_if_missing = cfg.create_if_missing)) := by
  refine ⟨?_, ?_, ?_, ?_⟩
  · intro D N P cfg
    simp [parseOptions]
  · intro v rest cfg
    simp [parseOptions]
  · intro argv cfg
    have h := parseOptions_fields argv.length argv cfg (le_refl _)
    refine ⟨h.1, h.2.1, h.2.2.1, ?_⟩
    rw [h.2.2.2]
    simp
  · intro argv cfg
    have h := parseOptions_fields argv.length argv cfg (le_refl _)
    have hm := readFlags_mem argv.length argv (le_refl _)
    refine ⟨fun hno => ?_, fun hno => ?_, fun hno => ?_, fun hno => ?_⟩
    · rw [h.1, lastDelimiter_none _ (fun hex => hno (hm.1 hex))]; rfl
    · rw [h.2.1, lastSeparator_none _ (fun hex => hno (hm.2.1 hex))]; rfl
    · rw [h.2.2.1, lastPath_none _ (fun hex => hno (hm.2.2.1 hex))]; rfl
    · rw [h.2.2.2]
      have : Flag.c ∉ readFlags argv := fun hex => hno (hm.2.2.2 hex)
      simp [this]

/-- Witness for C15: in `-c -d a -d b` no `-ns` and no `-f` occurs, so those two fields keep
their prior values, while the delimiter ends as `b`, the value of the later `-d`. -/
theorem parseOptions_flag_semantics_witness :
    (parseOptions ["-c", "-d", "a", "-d", "b"]
        (LeveldbConfig.init "\n" ":" "~/test.leveldb")).1.ns_separator = ":" ∧
    (parseOptions ["-c", "-d", "a", "-d", "b"]
        (LeveldbConfig.init "\n" ":" "~/test.leveldb")).1.dbname = "~/test.leveldb" ∧
    (parseOptions ["-c", "-d", "a", "-d", "b"]
        (LeveldbConfig.init "\n" ":" "~/test.leveldb")).1.delimiter = "b" :=
  ⟨((parseOptions_flag_semantics.2.2.2 ["-c", "-d", "a", "-d", "b"]
      (LeveldbConfig.init "\n" ":" "~/test.leveldb")).2.1 (by decide)),
    ((parseOptions_flag_semantics.2.2.2 ["-c", "-d", "a", "-d", "b"]
      (LeveldbConfig.init "\n" ":" "~/test.leveldb")).2.2.1 (by decide)),
    by decide⟩

theorem strtok_token (t : List Char) (ht : ' ' ∉ t) :
    ∀ (cur rest : List Char), strtok (t ++ rest) cur = strtok rest (cur ++ t) := by
  induction t with
  | nil => intro cur rest; simp
  | cons c t ih =>
    intro cur rest
    have hc : c ≠ ' ' := fun h => ht (by simp [h])
    have ht2 : ' ' ∉ t := fun h => ht (List.mem_cons_of_mem _ h)
    have h := ih ht2 (cur ++ [c]) rest
    rw [List.cons_append, strtok]
    simp only [hc, if_false]
    rw [h]
    simp

/-- Splitting the space-joined text of tokens that are not empty and hold no space gives the
tokens back. -/
theorem strtok_joinTokens :
    ∀ ts : List String, (∀ t ∈ ts, t.data ≠ [] ∧ ' ' ∉ t.data) → strtok (joinTokens ts) [] = ts := by
  intro ts
  induction ts with
  | nil => intro _; simp [joinTokens, strtok]
  | cons t ts ih =>
    intro h
    have ht := h t (List.mem_cons_self _ _)
    cases ts with
    | nil =>
      have := strtok_token t.data ht.2 [] []
      simp only [List.append_nil, List.nil_append] at this
      simp [joinTokens, this, strtok, ht.1]
    | cons t2 ts2 =>
      have ih2 := ih (fun x hx => h x (List.mem_cons_of_mem _ hx))
      have := strtok_token t.data ht.2 [] (' ' :: joinTokens (t2 :: ts2))
      simp only [List.nil_append] at this
      simp [joinTokens, this, strtok, ht.1, ih2]

theorem mem_joinTokens (x : Char) :
    ∀ ts : List String, x ∈ joinTokens ts → x = ' ' ∨ ∃ t ∈ ts, x ∈ t.data := by
  intro ts
  induction ts with
  | nil => intro h; simp [joinTokens] at h
  | cons t ts ih =>
    intro h
    cases ts with
    | nil => exact Or.inr ⟨t, by simp, by simpa [joinTokens] using h⟩
    | cons t2 ts2 =>
      simp only [joinTokens, List.mem_append, List.mem_cons] at h
      rcases h with h | h | h
      · exact Or.inr ⟨t, by simp, h⟩
      · exact Or.inl h
      · rcases ih h with h2 | ⟨u, hu, hx⟩
        · exact Or.inl h2
        · exact Or.inr ⟨u, List.mem_cons_of_mem _ hu, hx⟩

/-- Reading back the single-line form of a list of at most `kMaxArgs` clean tokens parses
exactly those tokens. -/
theorem convertFromString_joinTokens (ts : List String) (cfg : LeveldbConfig)
    (hclean : ∀ t ∈ ts, cleanToken t = true) (hlen : ts.length ≤ kMaxArgs) :
    convertFromString cfg (String.mk (joinTokens ts)) = some (parseOptions ts cfg) := by
  have hc : ∀ t ∈ ts, t.data ≠ [] ∧ ' ' ∉ t.data ∧ '\x00' ∉ t.data := by
    intro t ht
    simpa [cleanToken] using hclean t ht
  have hcstr : c_str (String.mk (joinTokens ts)) = joinTokens ts := by
    unfold c_str
    rw [List.takeWhile_eq_self_iff]
    intro x hx
    rcases mem_joinTokens x ts hx with h | ⟨t, ht, hxt⟩
    · subst h; decide
    · have : x ≠ '\x00' := fun h => (hc t ht).2.2 (h ▸ hxt)
      simpa using this
  have htok : strtok (joinTokens ts) [] = ts :=
    strtok_joinTokens ts (fun t ht => ⟨(hc t ht).1, (hc t ht).2.1⟩)
  unfold convertFromString
  simp only [hcstr, htok, hlen, if_true]

/-- C14 (amended). Config round trip: for every `LeveldbConfig` whose delimiter, namespace
separator and database path are not empty and hold neither a space nor a NUL character, and
for every default configuration the constructor builds, `convertFromString` of
`convertToString` of the configuration yields a configuration equal to it in all four fields
(and logs no warning), where `args()` supplies the flag and value tokens for delimiter,
namespace separator and path. -/
theorem config_round_trip (conf : LeveldbConfig) (d n p : String)
    (hd : cleanToken conf.delimiter = true) (hn : cleanToken conf.ns_separator = true)
    (hp : cleanToken conf.dbname = true) :
    convertFromString (LeveldbConfig.init d n p) (convertToString conf) = some (conf, []) := by
  obtain ⟨D, N, P, c⟩ := conf
  simp only at hd hn hp
  unfold convertToString
  rw [convertFromString_joinTokens]
  · cases c <;> simp [LeveldbConfig.args, parseOptions, LeveldbConfig.init]
  · intro t ht
    have hflags : cleanToken "-d" = true ∧ cleanToken "-ns" = true ∧ cleanToken "-f" = true ∧
        cleanToken "-c" = true := by decide
    cases c
    · simp only [LeveldbConfig.args, Bool.false_eq_true, if_false, List.append_nil,
        List.mem_cons, List.mem_singleton, List.mem_nil_iff, or_false] at ht
      rcases ht with rfl | rfl | rfl | rfl | rfl | rfl
      · exact hflags.1
      · exact hd
      · exact hflags.2.1
      · exact hn
      · exact hflags.2.2.1
      · exact hp
    · simp only [LeveldbConfig.args, if_true, List.cons_append, List.nil_append,
        List.mem_cons, List.mem_singleton, List.mem_nil_iff, or_false] at ht
      rcases ht with rfl | rfl | rfl | rfl | rfl | rfl | rfl
      · exact hflags.1
      · exact hd
      · exact hflags.2.1
      · exact hn
      · exact hflags.2.2.1
      · exact hp
      · exact hflags.2.2.2
  · cases c <;> simp [LeveldbConfig.args, kMaxArgs]

/-- Witness for C14: the configuration `-d , -ns : -f /tmp/db -c`. -/
theorem config_round_trip_witness :
    convertFromString (LeveldbConfig.init "\n" ":" "~/test.leveldb")
        (convertToString ⟨",", ":", "/tmp/db", true⟩) =
      some (⟨",", ":", "/tmp/db", true⟩, []) :=
  config_round_trip ⟨",", ":", "/tmp/db", true⟩ "\n" ":" "~/test.leveldb" (by decide)
    (by decide) (by decide)

/-- C14, the claim as stated, fails: a database path with a space in it is cut at the space
when the single-line form is read back, and the `-c` after it is never read. -/
theorem config_round_trip_counterexample :
    convertToString ⟨",", ":", "/tmp/my db", true⟩ = "-d , -ns : -f /tmp/my db -c" ∧
    convertFromString (LeveldbConfig.init "\n" ":" "~/test.leveldb")
        (convertToString ⟨",", ":", "/tmp/my db", true⟩) =
      some (⟨",", ":", "/tmp/my", false⟩, []) ∧
    (⟨",", ":", "/tmp/my", false⟩ : LeveldbConfig) ≠ ⟨",", ":", "/tmp/my db", true⟩ := by
  decide

end leveldb

end core

end fastonosql

namespace fastonosql

namespace core

namespace rocksdb

/-! ## Loading keys, clearing the database, descriptors -/

theorem load_array {S K : Type} (D : RocksdbDriver S K) (s : S) (count_keys : Int)
    (ar : List Value)
    (hf : D.failed (D.execute s .C_INNER ("KEYS a z " ++ toString count_keys)).1 = false)
    (hch : (D.execute s .C_INNER ("KEYS a z " ++ toString count_keys)).2.1 =
      [.array (some ar)]) :
    D.handleLoadDatabaseContentEvent s count_keys =
      some ⟨(D.dbsize (D.execute s .C_INNER ("KEYS a z " ++ toString count_keys)).2.2).2.2,
        [.notifyProgress (.percent 0), .notifyProgress (.percent 50),
          .execute .C_INNER ("KEYS a z " ++ toString count_keys)
            (D.execute s .C_INNER ("KEYS a z " ++ toString count_keys)).1,
          .dbsize (D.dbsize (D.execute s .C_INNER
            ("KEYS a z " ++ toString count_keys)).2.2).1,
          .notifyProgress (.percent 75),
          .reply (.LoadDatabaseContentResponceEvent ⟨count_keys, loadedKeys ar,
            (D.dbsize (D.execute s .C_INNER
              ("KEYS a z " ++ toString count_keys)).2.2).2.1.getD 0, none⟩),
          .notifyProgress (.percent 100)]⟩ := by
  have hf2 : ¬ D.failed (D.execute s .C_INNER ("KEYS a z " ++ toString count_keys)).1 = true := by
    simp [hf]
  unfold RocksdbDriver.handleLoadDatabaseContentEvent
  rw [if_neg hf2]; simp only [hch]; rfl

theorem loadedKeys_keys (ar : List Value) :
    (loadedKeys ar).map (fun kv => kv.key.key) = ar.filterMap Value.getString ∧
      ∀ kv ∈ loadedKeys ar, kv.value = none := by
  constructor
  · unfold loadedKeys
    rw [List.map_filterMap]
    congr 1
    funext v
    cases h : v.getString <;> simp [h]
  · intro kv hkv
    unfold loadedKeys at hkv
    rw [List.mem_filterMap] at hkv
    obtain ⟨v, _, hv⟩ := hkv
    rw [Option.map_eq_some'] at hv
    obtain ⟨key, _, rfl⟩ := hv
    rfl

/-- C11. Lazy key loading in `RocksdbDriver::handleLoadDatabaseContentEvent`: the one command
the handler executes is `KEYS a z <count_keys>`; when it succeeds with a single array reply,
the keys of the response are exactly the string elements of that array, in array order, each
paired with the empty value, and the response's dbsize is the key count the backend's
`dbsize` writes (0, the initial value, if it writes none); when the command fails, the
response has no key and carries the error. -/
theorem handleLoadDatabaseContentEvent_keys {S K : Type} (D : RocksdbDriver S K) (s : S)
    (count_keys : Int) :
    (∀ r, D.handleLoadDatabaseContentEvent s count_keys = some r →
      executed r.calls = [("KEYS a z " ++ toString count_keys,
        (D.execute s .C_INNER ("KEYS a z " ++ toString count_keys)).1)]) ∧
    (∀ ar : List Value,
      D.failed (D.execute s .C_INNER ("KEYS a z " ++ toString count_keys)).1 = false →
      (D.execute s .C_INNER ("KEYS a z " ++ toString count_keys)).2.1 = [.array (some ar)] →
      ∃ r res, D.handleLoadDatabaseContentEvent s count_keys = some r ∧
        replies r.calls = [.LoadDatabaseContentResponceEvent res] ∧
        res.keys.map (fun kv => kv.key.key) = ar.filterMap Value.getString ∧
        (∀ kv ∈ res.keys, kv.value = none) ∧
        res.dbsize = (D.dbsize (D.execute s .C_INNER
          ("KEYS a z " ++ toString count_keys)).2.2).2.1.getD 0 ∧
        (∀ n, (D.dbsize (D.execute s .C_INNER
          ("KEYS a z " ++ toString count_keys)).2.2).2.1 = some n → res.dbsize = n) ∧
        res.errorInfo = none) ∧
    (D.failed (D.execute s .C_INNER ("KEYS a z " ++ toString count_keys)).1 = true →
      ∃ r res, D.handleLoadDatabaseContentEvent s count_keys = some r ∧
        replies r.calls = [.LoadDatabaseContentResponceEvent res] ∧
        res.keys = [] ∧
        res.errorInfo = (D.execute s .C_INNER ("KEYS a z " ++ toString count_keys)).1) := by
  refine ⟨?_, ?_, ?_⟩
  · intro r h
    rcases load_cases D s count_keys with h1 | h1 | h1 | h1
    · rw [h1.2, Option.some.injEq] at h; subst h; rfl
    · rw [h1.2.2, Option.some.injEq] at h; subst h; rfl
    · obtain ⟨_, ar, h3⟩ := h1
      rw [h3, Option.some.injEq] at h; subst h; rfl
    · rw [h1.2.2] at h; cases h
  · intro ar hf hch
    refine ⟨_, _, load_array D s count_keys ar hf hch, rfl, (loadedKeys_keys ar).1,
      (loadedKeys_keys ar).2, rfl, ?_, rfl⟩
    intro n hn
    simp [hn]
  · intro hf
    rcases load_cases D s count_keys with h1 | h1 | h1 | h1
    · exact ⟨_, _, h1.2, rfl, rfl, rfl⟩
    · rw [hf] at h1; cases h1.1
    · rw [hf] at h1; cases h1.1
    · rw [hf] at h1; cases h1.1

/-- Witness for C11: the `KEYS` command answers with the array `a`, `1`, `b`, and `dbsize`
writes 2. -/
theorem handleLoadDatabaseContentEvent_keys_witness :
    ∃ r res, (keysDriver none (none, some 2)).handleLoadDatabaseContentEvent [] 5 = some r ∧
      replies r.calls = [.LoadDatabaseContentResponceEvent res] ∧
      res.keys.map (fun kv => kv.key.key) =
        [Value.TYPE_STRING "a", .TYPE_INTEGER 1, .TYPE_STRING "b"].filterMap Value.getString ∧
      (∀ kv ∈ res.keys, kv.value = none) ∧
      res.dbsize = ((keysDriver none (none, some 2)).dbsize
        ((keysDriver none (none, some 2)).execute [] .C_INNER
          ("KEYS a z " ++ toString (5 : Int))).2.2).2.1.getD 0 ∧
      (∀ n, ((keysDriver none (none, some 2)).dbsize
        ((keysDriver none (none, some 2)).execute [] .C_INNER
          ("KEYS a z " ++ toString (5 : Int))).2.2).2.1 = some n → res.dbsize = n) ∧
      res.errorInfo = none :=
  (handleLoadDatabaseContentEvent_keys (keysDriver none (none, some 2)) [] 5).2.1
    [.TYPE_STRING "a", .TYPE_INTEGER 1, .TYPE_STRING "b"] (by decide) (by decide)

/-- C12. The handler `RocksdbDriver::handleClearDatabaseEvent` invokes the connection's
`flushdb` exactly once and leaves the backend as `flushdb` left it; if `flushdb` returns an
error, the one response sent carries exactly that error, and if it succeeds the response
carries no error. -/
theorem handleClearDatabaseEvent_flushdb {S K : Type} (D : RocksdbDriver S K) (s : S) :
    flushes (D.handleClearDatabaseEvent s).calls = [(D.flushdb s).1] ∧
    (D.handleClearDatabaseEvent s).state = (D.flushdb s).2 ∧
    (D.failed (D.flushdb s).1 = true →
      replies (D.handleClearDatabaseEvent s).calls =
        [.ClearDatabaseResponceEvent ⟨(D.flushdb s).1⟩]) ∧
    (D.failed (D.flushdb s).1 = false →
      replies (D.handleClearDatabaseEvent s).calls = [.ClearDatabaseResponceEvent ⟨none⟩]) := by
  refine ⟨rfl, rfl, ?_, ?_⟩
  · intro h
    simp [RocksdbDriver.handleClearDatabaseEvent, replies, h]
  · intro h
    simp [RocksdbDriver.handleClearDatabaseEvent, replies, h]

/-- Witness for C12: a `flushdb` that fails, and one that succeeds. -/
theorem handleClearDatabaseEvent_flushdb_witness :
    replies ((keysDriver (some ⟨"flush failed", .E_ERROR⟩) (none, some 2)).handleClearDatabaseEvent
        ["SET a 1"]).calls =
      [.ClearDatabaseResponceEvent ⟨some ⟨"flush failed", .E_ERROR⟩⟩] ∧
    replies ((keysDriver none (none, some 2)).handleClearDatabaseEvent ["SET a 1"]).calls =
      [.ClearDatabaseResponceEvent ⟨none⟩] :=
  ⟨(handleClearDatabaseEvent_flushdb (keysDriver (some ⟨"flush failed", .E_ERROR⟩)
      (none, some 2)) ["SET a 1"]).2.2.1 (by decide),
    (handleClearDatabaseEvent_flushdb (keysDriver none (none, some 2)) ["SET a 1"]).2.2.2
      (by decide)⟩

/-- The operations that do check their pointer arguments: with a null pointer among them each
returns the invalid-argument error and writes nothing. -/
theorem null_arguments_checked {S K T : Type} (D : RocksdbDriver S K) (R : RocksdbRaw S T)
    (s : S) (convert : NValue → String → String) (title typeName : String) :
    (∀ (c : Option CommandDeleteKey) (out : Option String), c = none ∨ out = none →
      commandDeleteImpl c out = (some invalidInput, out)) ∧
    (∀ (c : Option CommandLoadKey) (out : Option String), c = none ∨ out = none →
      commandLoadImpl c out = (some invalidInput, out)) ∧
    (∀ (c : Option CommandCreateKey) (out : Option String), c = none ∨ out = none →
      commandCreateImpl convert c out = (some invalidInput, out)) ∧
    (∀ (c : Option CommandChangeTTL) (out : Option String), c = none ∨ out = none →
      commandChangeTTLImpl title typeName c out = (some invalidInput, out)) ∧
    D.currentDataBaseInfo R s false = (some invalidInput, none, s) ∧
    (∀ (inval : common.ErrorValue)
        (select : S → common.Error × Option IDataBaseInfo × S),
      proxy.leveldb.GetCurrentDataBaseInfo inval select s false = (some inval, none, s)) := by
  refine ⟨?_, ?_, ?_, ?_, rfl, fun _ _ => rfl⟩
  · rintro c out (rfl | rfl)
    · rfl
    · cases c <;> rfl
  · rintro c out (rfl | rfl)
    · rfl
    · cases c <;> rfl
  · rintro c out (rfl | rfl)
    · rfl
    · cases c <;> rfl
  · rintro c out (rfl | rfl)
    · rfl
    · cases c <;> rfl

/-- C16, at null pointers: `serverDiscoveryInfo` called with a null `dinfo` returns success
and writes both outputs; `serverInfo` has no check at entry and, when the connection's `info`
succeeds, writes through a null `info`, as `serverDiscoveryInfo` does through a null `sinfo`
or `dbinfo` once both steps have succeeded. None of them returns the invalid-argument error
that `commandDeleteImpl` and `currentDataBaseInfo` return for a null pointer. -/
theorem null_arguments_unchecked :
    recordingDriver.serverDiscoveryInfo exampleRaw [] false true true =
      some ⟨none, some (some ⟨"stats"⟩), some (some ⟨"default", true, .ROCKSDB, 0, []⟩), [],
        [.serverInfo, .currentDataBaseInfo]⟩ ∧
    serverInfo exampleRaw [] false = none ∧
    recordingDriver.serverDiscoveryInfo exampleRaw [] true false true = none ∧
    recordingDriver.serverDiscoveryInfo exampleRaw [] true true false = none ∧
    commandDeleteImpl none (some "old") = (some invalidInput, some "old") ∧
    recordingDriver.currentDataBaseInfo exampleRaw [] false = (some invalidInput, none, []) := by
  decide

/-- The error of `dbsize` is dropped: with a pointer that is not null, `currentDataBaseInfo`
returns success whatever `dbsize` returns, and the size it reports is 0 when `dbsize` writes
none. -/
theorem currentDataBaseInfo_ignores_dbsize {S K T : Type} (D : RocksdbDriver S K)
    (R : RocksdbRaw S T) (s : S) :
    (D.currentDataBaseInfo R s true).1 = none ∧
    (D.currentDataBaseInfo R s true).2.1 =
      some ⟨R.currentDbName s, true, .ROCKSDB, (D.dbsize s).2.1.getD 0, []⟩ :=
  ⟨rfl, rfl⟩

/-- C17, at a backend whose `dbsize` fails: `currentDataBaseInfo` returns success with a
descriptor of size 0, and `handleLoadDatabaseContentEvent` calls `dbsize`, gets the error,
and answers with the keys, dbsize 0 and no error. -/
theorem dbsize_error_swallowed :
    (keysDriver none (some ⟨"dbsize failed", .E_ERROR⟩, none)).currentDataBaseInfo
        exampleRaw [] true =
      (none, some ⟨"default", true, .ROCKSDB, 0, []⟩, []) ∧
    ((keysDriver none (some ⟨"dbsize failed", .E_ERROR⟩, none)).handleLoadDatabaseContentEvent
        [] 5).map (fun r => r.calls) =
      some [.notifyProgress (.percent 0), .notifyProgress (.percent 50),
        .execute .C_INNER "KEYS a z 5" none,
        .dbsize (some ⟨"dbsize failed", .E_ERROR⟩),
        .notifyProgress (.percent 75),
        .reply (.LoadDatabaseContentResponceEvent
          ⟨5, [⟨⟨"a"⟩, none⟩, ⟨⟨"b"⟩, none⟩], 0, none⟩),
        .notifyProgress (.percent 100)] := by
  decide

/-- C18. Multi-step abort in `RocksdbDriver::serverDiscoveryInfo`, for output pointers that are
not null and every behaviour of the two steps: if `serverInfo` fails, the function returns
that error at once, `currentDataBaseInfo` is not called and neither output is written; if
`currentDataBaseInfo` fails, its error is returned and neither output is written; if both
succeed both outputs are written; so both outputs are written iff both steps succeed. The
method of the driver is this body over its own two steps, and there the second step never
fails. -/
theorem serverDiscoveryInfo_aborts {S SI DI : Type} (failed : common.Error → Bool)
    (serverInfoStep : S → Option (common.Error × Option SI × S))
    (currentDataBaseInfoStep : S → common.Error × Option DI × S) (s : S)
    (x : common.Error × Option SI × S) (hx : serverInfoStep s = some x) :
    (failed x.1 = true →
      serverDiscoveryInfoWith failed serverInfoStep currentDataBaseInfoStep s true true =
        some ⟨x.1, none, none, x.2.2, [.serverInfo]⟩) ∧
    (failed x.1 = false → failed (currentDataBaseInfoStep x.2.2).1 = true →
      serverDiscoveryInfoWith failed serverInfoStep currentDataBaseInfoStep s true true =
        some ⟨(currentDataBaseInfoStep x.2.2).1, none, none, (currentDataBaseInfoStep x.2.2).2.2,
          [.serverInfo, .currentDataBaseInfo]⟩) ∧
    (failed x.1 = false → failed (currentDataBaseInfoStep x.2.2).1 = false →
      serverDiscoveryInfoWith failed serverInfoStep currentDataBaseInfoStep s true true =
        some ⟨(currentDataBaseInfoStep x.2.2).1, some x.2.1,
          some (currentDataBaseInfoStep x.2.2).2.1, (currentDataBaseInfoStep x.2.2).2.2,
          [.serverInfo, .currentDataBaseInfo]⟩) ∧
    (∃ r, serverDiscoveryInfoWith failed serverInfoStep currentDataBaseInfoStep s true true =
        some r ∧
      (r.sinfo.isSome = true ↔ r.dbinfo.isSome = true) ∧
      (r.sinfo.isSome = true ∧ r.dbinfo.isSome = true ↔
        failed x.1 = false ∧ failed (currentDataBaseInfoStep x.2.2).1 = false)) ∧
    (∀ {K T : Type} (D : RocksdbDriver S K) (R : RocksdbRaw S T) (s1 : S) (dinfo : Bool),
      D.serverDiscoveryInfo R s1 dinfo true true =
        serverDiscoveryInfoWith D.failed (fun s2 => serverInfo R s2 true)
          (fun s2 => D.currentDataBaseInfo R s2 true) s1 true true ∧
      D.failed (D.currentDataBaseInfo R s1 true).1 = false) := by
  have h1 : failed x.1 = true →
      serverDiscoveryInfoWith failed serverInfoStep currentDataBaseInfoStep s true true =
        some ⟨x.1, none, none, x.2.2, [.serverInfo]⟩ := by
    intro h
    simp [serverDiscoveryInfoWith, hx, h]
  have h2 : failed x.1 = false → failed (currentDataBaseInfoStep x.2.2).1 = true →
      serverDiscoveryInfoWith failed serverInfoStep currentDataBaseInfoStep s true true =
        some ⟨(currentDataBaseInfoStep x.2.2).1, none, none, (currentDataBaseInfoStep x.2.2).2.2,
          [.serverInfo, .currentDataBaseInfo]⟩ := by
    intro h h'
    simp [serverDiscoveryInfoWith, hx, h, h']
  have h3 : failed x.1 = false → failed (currentDataBaseInfoStep x.2.2).1 = false →
      serverDiscoveryInfoWith failed serverInfoStep currentDataBaseInfoStep s true true =
        some ⟨(currentDataBaseInfoStep x.2.2).1, some x.2.1,
          some (currentDataBaseInfoStep x.2.2).2.1, (currentDataBaseInfoStep x.2.2).2.2,
          [.serverInfo, .currentDataBaseInfo]⟩ := by
    intro h h'
    simp [serverDiscoveryInfoWith, hx, h, h']
  refine ⟨h1, h2, h3, ?_, ?_⟩
  · cases ha : failed x.1 with
    | true => exact ⟨_, h1 ha, by simp, by simp⟩
    | false =>
      cases hb : failed (currentDataBaseInfoStep x.2.2).1 with
      | true => exact ⟨_, h2 ha hb, by simp, by simp⟩
      | false => exact ⟨_, h3 ha hb, by simp, by simp⟩
  · intro K T D R s1 dinfo
    exact ⟨rfl, rfl⟩

/-- Witness for C18: a second step that fails after a first step that succeeds. -/
theorem serverDiscoveryInfo_aborts_witness :
    serverDiscoveryInfoWith (fun e => e.isSome)
        (fun s : List String => some (none, some "server", s ++ ["INFO"]))
        (fun s : List String => (some ⟨"no database", .E_ERROR⟩, (none : Option String), s))
        [] true true =
      some ⟨some ⟨"no database", .E_ERROR⟩, none, none, ["INFO"],
        [.serverInfo, .currentDataBaseInfo]⟩ :=
  (serverDiscoveryInfo_aborts (fun e => e.isSome)
    (fun s : List String => some (none, some "server", s ++ ["INFO"]))
    (fun s : List String => (some ⟨"no database", .E_ERROR⟩, (none : Option String), s))
    [] (none, some "server", ["INFO"]) rfl).2.1 rfl rfl

/-- C19. Change-TTL is not supported on RocksDB: for every command pointer and output pointer,
`RocksdbDriver::commandChangeTTLImpl` returns an error value of kind `E_ERROR`, never
success, and leaves the string behind `cmdstring` as it was; for arguments that are not null
the error reads that the change ttl command is not supported for the backend. -/
theorem commandChangeTTLImpl_not_supported (title typeName : String)
    (command : Option CommandChangeTTL) (cmdstring : Option String) :
    (∃ e, (commandChangeTTLImpl title typeName command cmdstring).1 = some e ∧
      e.errorType = .E_ERROR) ∧
    (commandChangeTTLImpl title typeName command cmdstring).2 = cmdstring ∧
    (command ≠ none → cmdstring ≠ none →
      (commandChangeTTLImpl title typeName command cmdstring).1 =
        some ⟨"Sorry, but now " ++ title ++ " not supported change ttl command for " ++
          typeName ++ ".", .E_ERROR⟩) := by
  cases command <;> cases cmdstring <;> simp [commandChangeTTLImpl, invalidInput]

/-- Witness for C19: a change-ttl command for the key `k` and an output string. -/
theorem commandChangeTTLImpl_not_supported_witness :
    (commandChangeTTLImpl "FastoNoSQL" "RocksDB" (some ⟨⟨⟨"k"⟩, none⟩, 60⟩) (some "old")).1 =
      some ⟨"Sorry, but now " ++ "FastoNoSQL" ++ " not supported change ttl command for " ++
        "RocksDB" ++ ".", .E_ERROR⟩ :=
  (commandChangeTTLImpl_not_supported "FastoNoSQL" "RocksDB" (some ⟨⟨⟨"k"⟩, none⟩, 60⟩)
    (some "old")).2.2 (by decide) (by decide)

end rocksdb

namespace unqlite

/-! ## The UnQLite database descriptor -/

/-- C20. Clone is a faithful copy: for every UnQLite `DataBaseInfo` built from
`(name, isDefault, size, keys)` and allocated on any heap, `clone()` succeeds and returns a
pointer to a distinct object, new on the heap, whose name, default flag, size and key list
equal those given and whose backend tag is `UNQLITE`; the object cloned is left as it was, and
its own tag is `UNQLITE` for every constructor input. -/
theorem clone_faithful (h : Heap) (name : String) (isDefault : Bool) (size : Nat)
    (keys : List NDbKValue) :
    (DataBaseInfo.new name isDefault size keys).type = .UNQLITE ∧
    ∃ h2 q, DataBaseInfo.clone (h.alloc (DataBaseInfo.new name isDefault size keys)).1
        (h.alloc (DataBaseInfo.new name isDefault size keys)).2 = some (h2, q) ∧
      q ≠ (h.alloc (DataBaseInfo.new name isDefault size keys)).2 ∧
      (h.alloc (DataBaseInfo.new name isDefault size keys)).1[q]? = none ∧
      h2[q]? = some ⟨name, isDefault, .UNQLITE, size, keys⟩ ∧
      h2[(h.alloc (DataBaseInfo.new name isDefault size keys)).2]? =
        some (DataBaseInfo.new name isDefault size keys) := by
  refine ⟨rfl, h ++ [DataBaseInfo.new name isDefault size keys,
    DataBaseInfo.new name isDefault size keys], h.length + 1, ?_, ?_, ?_, ?_, ?_⟩
  · simp [DataBaseInfo.clone, Heap.alloc]
  · simp [Heap.alloc]
  · simp [Heap.alloc]
  · rw [List.getElem?_append_right (by omega)]
    simp [DataBaseInfo.new]
  · show (h ++ [DataBaseInfo.new name isDefault size keys,
      DataBaseInfo.new name isDefault size keys])[h.length]? = _
    rw [List.getElem?_append_right (le_refl _)]
    simp

end unqlite

end core

end fastonosql

namespace fastonosql

namespace core

namespace rocksdb

/-! ## The RocksDB driver: buffer, command texts and empty input -/

theorem c_strornull_mk (line : List Char) (hne : line ≠ []) (h0 : '\x00' ∉ line) :
    c_strornull (String.mk line) = some line := by
  unfold c_strornull
  rw [if_neg (by simpa using hne)]
  congr 1
  rw [List.takeWhile_eq_self_iff]
  intro x hx
  have : x ≠ '\x00' := fun h => h0 (h ▸ hx)
  simpa using this

theorem lineLoop_overrun {S K : Type} (D : RocksdbDriver S K) (L : Nat)
    (hint : ∀ n, D.isInterrupted n = false) :
    ∀ (rest : List Char) (n : Nat) (pend : List Char) (s : S), rest ≠ [] → '\n' ∉ rest →
      kCommandSize ≤ pend.length + rest.length → lineLoop D L rest n pend s = none := by
  intro rest
  induction rest with
  | nil => intro n pend s h; exact absurd rfl h
  | cons c rest ih =>
    intro n pend s _ hnl hlen
    by_cases hr : rest = []
    · subst hr
      rw [lineLoop]
      simp only [hint, Bool.false_eq_true, if_false, or_true, if_true, cutCommand,
        List.length_append, List.length_singleton]
      rw [if_neg]
      intro h
      simp only [List.length_cons, List.length_nil] at hlen
      omega
    · have hc : ¬ (c = '\n' ∨ rest = []) := by
        intro h
        rcases h with h | h
        · exact hnl (by simp [h])
        · exact hr h
      rw [lineLoop_skip D L c rest n pend s (hint n) hc,
        ih (n + 1) (pend ++ [c]) s hr (fun h => hnl (List.mem_cons_of_mem _ h))
          (by simp only [List.length_append, List.length_singleton, List.length_cons] at hlen ⊢
              omega)]
      rfl

theorem lineLoop_overrun_inner {S K : Type} (D : RocksdbDriver S K) (L : Nat)
    (hint : ∀ n, D.isInterrupted n = false) (rest : List Char) (hrest : rest ≠ []) :
    ∀ (a : List Char) (n : Nat) (pend : List Char) (s : S), '\n' ∉ a →
      kCommandSize ≤ pend.length + a.length →
      lineLoop D L (a ++ '\n' :: rest) n pend s = none := by
  intro a
  induction a with
  | nil =>
    intro n pend s _ hlen
    rw [List.nil_append, lineLoop]
    simp only [hint, Bool.false_eq_true, if_false, true_or, if_true, cutCommand, hrest]
    rw [if_neg]
    intro h
    simp only [List.length_nil] at hlen
    omega
  | cons c a ih =>
    intro n pend s hnl hlen
    have hc : ¬ (c = '\n' ∨ a ++ '\n' :: rest = []) := by
      intro h
      rcases h with h | h
      · exact hnl (by simp [h])
      · simp at h
    rw [List.cons_append, lineLoop_skip D L c _ n pend s (hint n) hc,
      ih (n + 1) (pend ++ [c]) s (fun h => hnl (List.mem_cons_of_mem _ h))
        (by simp only [List.length_append, List.length_singleton, List.length_cons] at hlen ⊢
            omega)]
    rfl

/-- C24. Command buffer safety fails: a request text of 128 characters `a`, one line with no
newline, is copied whole by `strcpy` into the 128-byte buffer `command`, which writes the
terminator past its end; the same line followed by a newline and a second line is copied by
`strncpy` with `n - offset = 128`, which fills the buffer and leaves it without a terminator.
Both copies are undefined, and so is the run of `handleExecuteEvent` on either text (for a
driver that is never interrupted and whose commands all succeed). -/
theorem handleExecuteEvent_command_overrun :
    strcpy (List.replicate 128 'a') = none ∧
    strncpy (List.replicate 128 'a' ++ ['\n', 'b']) 128 = none ∧
    recordingDriver.handleExecuteEvent [] (String.mk (List.replicate 128 'a')) = none ∧
    recordingDriver.handleExecuteEvent []
      (String.mk (List.replicate 128 'a' ++ ['\n', 'b'])) = none := by
  have hnl : '\n' ∉ List.replicate 128 'a' := by
    intro h
    exact absurd (List.eq_of_mem_replicate h) (by decide)
  have h0 : '\x00' ∉ List.replicate 128 'a' := by
    intro h
    exact absurd (List.eq_of_mem_replicate h) (by decide)
  refine ⟨by simp [strcpy, kCommandSize], by simp [strncpy, kCommandSize], ?_, ?_⟩
  · rw [handleExecuteEvent_eq_lineLoop recordingDriver [] _ (List.replicate 128 'a')
      (c_strornull_mk _ (by simp) h0),
      lineLoop_overrun recordingDriver _ (fun _ => rfl) _ 0 [] [] (by simp) hnl
        (by simp [kCommandSize])]
    rfl
  · have h1 : '\x00' ∉ List.replicate 128 'a' ++ ['\n', 'b'] := by
      intro h
      rcases List.mem_append.1 h with h | h
      · exact h0 h
      · revert h; decide
    rw [handleExecuteEvent_eq_lineLoop recordingDriver [] _
      (List.replicate 128 'a' ++ ['\n', 'b']) (c_strornull_mk _ (by simp) h1),
      lineLoop_overrun_inner recordingDriver _ (fun _ => rfl) ['b'] (by simp) _ 0 [] [] hnl
        (by simp [kCommandSize])]
    rfl

theorem percent_s_eq (arg : String) (h : '\x00' ∉ arg.data) : percent_s arg = arg := by
  unfold percent_s
  have h2 : arg.data.takeWhile (fun c => c ≠ '\x00') = arg.data := by
    rw [List.takeWhile_eq_self_iff]
    intro x hx
    have : x ≠ '\x00' := fun h3 => h (h3 ▸ hx)
    simpa using this
  rw [h2]

/-- C26 (amended). RocksDB command text builders: for every command object and every string
the output pointer points to, each builder returns no error; `commandDeleteImpl` leaves
exactly `DEL ` followed by the key string as `%s` shows it, that is up to its first NUL
character, `commandLoadImpl` leaves exactly `GET ` followed by the same, and
`commandCreateImpl` leaves exactly `SET `, the key string so shown, one space and the value
rendered with the delimiter of one space, shown likewise. A string that holds no NUL character
is shown whole, so for such a key and rendered value the texts are `DEL ` and the key string,
`GET ` and the key string, and `SET `, the key string, one space and the rendered value. -/
theorem command_builders_text (convertToString : NValue → String → String)
    (del : CommandDeleteKey) (load : CommandLoadKey) (create : CommandCreateKey)
    (old : String) :
    commandDeleteImpl (some del) (some old) =
      (none, some ("DEL " ++ percent_s del.key.keyString)) ∧
    commandLoadImpl (some load) (some old) =
      (none, some ("GET " ++ percent_s load.key.keyString)) ∧
    commandCreateImpl convertToString (some create) (some old) =
      (none, some ("SET " ++ percent_s create.key.keyString ++ " " ++
        percent_s (convertToString create.value " "))) ∧
    (∀ arg : String, (percent_s arg).data = arg.data.takeWhile (fun c => c ≠ '\x00')) ∧
    ('\x00' ∉ del.key.keyString.data →
      commandDeleteImpl (some del) (some old) = (none, some ("DEL " ++ del.key.keyString))) ∧
    ('\x00' ∉ load.key.keyString.data →
      commandLoadImpl (some load) (some old) = (none, some ("GET " ++ load.key.keyString))) ∧
    ('\x00' ∉ create.key.keyString.data → '\x00' ∉ (convertToString create.value " ").data →
      commandCreateImpl convertToString (some create) (some old) =
        (none, some ("SET " ++ create.key.keyString ++ " " ++
          convertToString create.value " "))) := by
  refine ⟨rfl, rfl, rfl, fun _ => rfl, ?_, ?_, ?_⟩
  · intro h
    simp only [commandDeleteImpl, percent_s_eq _ h]
  · intro h
    simp only [commandLoadImpl, percent_s_eq _ h]
  · intro h1 h2
    simp only [commandCreateImpl, percent_s_eq _ h1, percent_s_eq _ h2]

theorem command_builders_text_witness :
    commandDeleteImpl (some ⟨⟨⟨"alex"⟩, none⟩⟩) (some "old") = (none, some "DEL alex") ∧
    commandLoadImpl (some ⟨⟨⟨"alex"⟩, none⟩⟩) (some "old") = (none, some "GET alex") ∧
    commandCreateImpl (fun v _ => ((v.bind Value.getString).getD ""))
        (some ⟨⟨⟨"alex"⟩, none⟩, some (.TYPE_STRING "1 2")⟩) (some "old") =
      (none, some "SET alex 1 2") :=
  ⟨(command_builders_text (fun v _ => ((v.bind Value.getString).getD ""))
      ⟨⟨⟨"alex"⟩, none⟩⟩ ⟨⟨⟨"alex"⟩, none⟩⟩ ⟨⟨⟨"alex"⟩, none⟩, some (.TYPE_STRING "1 2")⟩
      "old").2.2.2.2.1 (by decide),
    (command_builders_text (fun v _ => ((v.bind Value.getString).getD ""))
      ⟨⟨⟨"alex"⟩, none⟩⟩ ⟨⟨⟨"alex"⟩, none⟩⟩ ⟨⟨⟨"alex"⟩, none⟩, some (.TYPE_STRING "1 2")⟩
      "old").2.2.2.2.2.1 (by decide),
    (command_builders_text (fun v _ => ((v.bind Value.getString).getD ""))
      ⟨⟨⟨"alex"⟩, none⟩⟩ ⟨⟨⟨"alex"⟩, none⟩⟩ ⟨⟨⟨"alex"⟩, none⟩, some (.TYPE_STRING "1 2")⟩
      "old").2.2.2.2.2.2 (by decide) (by decide)⟩

/-- C26, the claim as stated, fails: for the key of the three characters `a`, NUL, `b` the
builders leave `DEL a` and `GET a`, and `SET a v` for the value text `v`: the key string is cut
at its NUL character, so what follows `DEL ` is not the key string. -/
theorem command_builders_text_counterexample :
    commandDeleteImpl (some ⟨⟨⟨String.mk ['a', '\x00', 'b']⟩, none⟩⟩) (some "old") =
      (none, some "DEL a") ∧
    commandDeleteImpl (some ⟨⟨⟨String.mk ['a', '\x00', 'b']⟩, none⟩⟩) (some "old") ≠
      (none, some ("DEL " ++ String.mk ['a', '\x00', 'b'])) ∧
    commandLoadImpl (some ⟨⟨⟨String.mk ['a', '\x00', 'b']⟩, none⟩⟩) (some "old") =
      (none, some "GET a") ∧
    commandCreateImpl (fun _ _ => "v")
        (some ⟨⟨⟨String.mk ['a', '\x00', 'b']⟩, none⟩, none⟩) (some "old") =
      (none, some "SET a v") := by
  decide

/-- C30. Empty input: when the request text yields no input line (`c_strornull` returns the
null pointer), `handleExecuteEvent` returns, executes no command and leaves the backend state
as it was; its only reply carries the error "Empty command line.", and the progress
notifications are exactly 0 then 100 (the reply lying between the two). -/
theorem handleExecuteEvent_empty_input {S K : Type} (D : RocksdbDriver S K) (s : S)
    (text : String) (h : c_strornull text = none) :
    ∃ r, D.handleExecuteEvent s text = some r ∧ r.state = s ∧
      executed r.calls = [] ∧
      replies r.calls =
        [.ExecuteResponceEvent ⟨text, some ⟨"Empty command line.", .E_ERROR⟩⟩] ∧
      progress r.calls = [.percent 0, .percent 100] ∧
      r.calls = [.notifyProgress (.percent 0),
        .reply (.ExecuteResponceEvent ⟨text, some ⟨"Empty command line.", .E_ERROR⟩⟩),
        .notifyProgress (.percent 100)] := by
  refine ⟨⟨s, [.notifyProgress (.percent 0),
    .reply (.ExecuteResponceEvent ⟨text, some ⟨"Empty command line.", .E_ERROR⟩⟩),
    .notifyProgress (.percent 100)]⟩, ?_, rfl, rfl, rfl, rfl, rfl⟩
  unfold RocksdbDriver.handleExecuteEvent
  rw [h]

theorem handleExecuteEvent_empty_input_witness :
    c_strornull "" = none ∧
    ∃ r, recordingDriver.handleExecuteEvent ["old"] "" = some r ∧ r.state = ["old"] ∧
      executed r.calls = [] ∧
      replies r.calls =
        [.ExecuteResponceEvent ⟨"", some ⟨"Empty command line.", .E_ERROR⟩⟩] ∧
      progress r.calls = [.percent 0, .percent 100] ∧
      r.calls = [.notifyProgress (.percent 0),
        .reply (.ExecuteResponceEvent ⟨"", some ⟨"Empty command line.", .E_ERROR⟩⟩),
        .notifyProgress (.percent 100)] :=
  ⟨by decide, handleExecuteEvent_empty_input recordingDriver ["old"] "" (by decide)⟩

end rocksdb

namespace leveldb

/-! ## The LevelDB configuration: token array and single-line form -/

theorem intercalate_go (acc : String) :
    ∀ ts : List String, String.intercalate.go acc " " ts =
      String.mk (acc.data ++ (ts.map (fun t => ' ' :: t.data)).flatten) := by
  intro ts
  induction ts generalizing acc with
  | nil => simp [String.intercalate.go]
  | cons t ts ih =>
    rw [String.intercalate.go, ih]
    simp [String.data_append]

theorem joinTokens_cons (t : String) :
    ∀ ts : List String,
      joinTokens (t :: ts) = t.data ++ (ts.map (fun t => ' ' :: t.data)).flatten := by
  intro ts
  induction ts generalizing t with
  | nil => simp [joinTokens]
  | cons t2 ts ih => simp [joinTokens, ih t2]

theorem joinTokens_intercalate (ts : List String) :
    String.mk (joinTokens ts) = " ".intercalate ts := by
  cases ts with
  | nil => rfl
  | cons t ts => rw [joinTokens_cons, String.intercalate, intercalate_go]

theorem joinTokens_length :
    ∀ ts : List String,
      (joinTokens ts).length = (ts.map String.length).sum + (ts.length - 1) := by
  intro ts
  induction ts with
  | nil => rfl
  | cons t ts ih =>
    have ht : t.length = t.data.length := rfl
    cases ts with
    | nil =>
      simp only [joinTokens, List.map_cons, List.map_nil, List.sum_cons, List.sum_nil,
        List.length_singleton]
      omega
    | cons t2 ts2 =>
      simp only [joinTokens, List.length_append, List.length_cons, ih, List.map_cons,
        List.sum_cons]
      omega

theorem joinTokens_eq_nil (ts : List String) (h : ∀ t ∈ ts, t ≠ "") :
    joinTokens ts = [] ↔ ts = [] := by
  constructor
  · intro h0
    cases ts with
    | nil => rfl
    | cons t ts =>
      rw [joinTokens_cons] at h0
      have ht : t.data = [] := (List.append_eq_nil.1 h0).1
      exact absurd (String.ext ht) (h t (by simp))
  · intro h0
    subst h0
    rfl

/-- C25. Token array safety fails: a line of 65 tokens `a` separated by single spaces makes
`convertFromString<LeveldbConfig>` store 65 token pointers into `argv[kMaxArgs]` with
`kMaxArgs = 64`; the last one is stored at index 64, past the end of the array, so the call is
undefined whatever the default configuration, while the same line with 64 tokens is read and
parsed. -/
theorem convertFromString_token_overrun (cfg : LeveldbConfig) :
    kMaxArgs = 64 ∧
    strtok (c_str (String.mk (joinTokens (List.replicate 65 "a")))) [] =
      List.replicate 65 "a" ∧
    convertFromString cfg (String.mk (joinTokens (List.replicate 65 "a"))) = none ∧
    convertFromString cfg (String.mk (joinTokens (List.replicate 64 "a"))) =
      some (parseOptions (List.replicate 64 "a") cfg) := by
  have hclean : ∀ n, ∀ t ∈ List.replicate n "a", cleanToken t = true := by
    intro n t ht
    rw [List.eq_of_mem_replicate ht]
    decide
  have hc : ∀ t ∈ List.replicate 65 "a", t.data ≠ [] ∧ ' ' ∉ t.data ∧ '\x00' ∉ t.data := by
    intro t ht
    simpa [cleanToken] using hclean 65 t ht
  have hcstr : c_str (String.mk (joinTokens (List.replicate 65 "a"))) =
      joinTokens (List.replicate 65 "a") := by
    unfold c_str
    rw [List.takeWhile_eq_self_iff]
    intro x hx
    rcases mem_joinTokens x _ hx with h | ⟨t, ht, hxt⟩
    · subst h; decide
    · have : x ≠ '\x00' := fun h => (hc t ht).2.2 (h ▸ hxt)
      simpa using this
  have htok : strtok (joinTokens (List.replicate 65 "a")) [] = List.replicate 65 "a" :=
    strtok_joinTokens _ (fun t ht => ⟨(hc t ht).1, (hc t ht).2.1⟩)
  refine ⟨rfl, by rw [hcstr, htok], ?_, ?_⟩
  · unfold convertFromString
    simp only [hcstr, htok, List.length_replicate, kMaxArgs]
    rfl
  · exact convertFromString_joinTokens _ cfg (hclean 64) (by simp [kMaxArgs])

/-- C29. Single-line form: for every configuration, `convertToString` yields the tokens of
`args()`, followed by `-c` iff `create_if_missing` is set, joined with one space between
consecutive tokens and none before the first or after the last (the result has one character
per token character and one per gap between tokens); it is the empty string iff `args()` is
empty and `create_if_missing` is false. For any list of tokens none of which is empty, the
same join is empty iff the list is. -/
theorem convertToString_single_line (conf : LeveldbConfig) :
    convertToString conf =
      " ".intercalate (conf.args ++ if conf.create_if_missing then ["-c"] else []) ∧
    (convertToString conf).length =
      ((conf.args ++ if conf.create_if_missing then ["-c"] else []).map String.length).sum +
        ((conf.args ++ if conf.create_if_missing then ["-c"] else []).length - 1) ∧
    (convertToString conf = "" ↔ conf.args = [] ∧ conf.create_if_missing = false) ∧
    (∀ ts : List String, String.mk (joinTokens ts) = " ".intercalate ts) ∧
    (∀ ts : List String, (∀ t ∈ ts, t ≠ "") → (String.mk (joinTokens ts) = "" ↔ ts = [])) := by
  refine ⟨joinTokens_intercalate _, joinTokens_length _, ?_, joinTokens_intercalate, ?_⟩
  · constructor
    · intro h
      have hl := joinTokens_length
        (conf.args ++ if conf.create_if_missing then ["-c"] else [])
      have h0 : (joinTokens
          (conf.args ++ if conf.create_if_missing then ["-c"] else [])).length = 0 := by
        have := congrArg String.length h
        simpa [convertToString, String.length] using this
      rw [h0] at hl
      simp only [LeveldbConfig.args, List.cons_append, List.nil_append, List.map_cons,
        List.sum_cons, List.length_cons] at hl
      omega
    · intro h
      exact absurd h.1 (by simp [LeveldbConfig.args])
  · intro ts h
    rw [← joinTokens_eq_nil ts h]
    constructor
    · intro h0
      exact congrArg String.data h0
    · intro h0
      rw [h0]

theorem convertToString_single_line_witness :
    convertToString ⟨",", ":", "/tmp/db", true⟩ = "-d , -ns : -f /tmp/db -c" ∧
    convertToString ⟨",", ":", "/tmp/db", false⟩ = "-d , -ns : -f /tmp/db" ∧
    (String.mk (joinTokens ["-d", ","]) = "" ↔ ["-d", ","] = []) :=
  ⟨by decide, by decide,
    (convertToString_single_line ⟨",", ":", "/tmp/db", true⟩).2.2.2.2 ["-d", ","]
      (by decide)⟩

end leveldb

namespace internal

/-! ## The generic connection -/

/-- C22. Disconnect is idempotent: for every driver whose connection disconnects as the
generic connection does and every state of it, the first disconnect event leaves the
connection without a handle, and a second one right after it leaves the very same state and
replies once, with no error; the synchronous `SyncDisconnect` of the LevelDB driver called a
second time returns no error and the state the first call left. -/
theorem Disconnect_idempotent {K : Type} (D : rocksdb.RocksdbDriver CDBConnection K)
    (hD : D.disconnect = CDBConnection.Disconnect) (s : CDBConnection) :
    (D.handleDisconnectEvent s).state.handle = false ∧
    (D.handleDisconnectEvent (D.handleDisconnectEvent s).state).state =
      (D.handleDisconnectEvent s).state ∧
    rocksdb.replies (D.handleDisconnectEvent (D.handleDisconnectEvent s).state).calls =
      [.DisconnectResponceEvent ⟨none⟩] ∧
    (D.handleDisconnectEvent (D.handleDisconnectEvent s).state).calls =
      [.notifyProgress (.percent 0), .notifyProgress (.percent 50), .disconnect none,
        .reply (.DisconnectResponceEvent ⟨none⟩), .notifyProgress (.percent 100)] ∧
    (proxy.leveldb.SyncDisconnect CDBConnection.Disconnect s).2.handle = false ∧
    proxy.leveldb.SyncDisconnect CDBConnection.Disconnect
        (proxy.leveldb.SyncDisconnect CDBConnection.Disconnect s).2 =
      (none, (proxy.leveldb.SyncDisconnect CDBConnection.Disconnect s).2) := by
  have hcalls : (D.handleDisconnectEvent (D.handleDisconnectEvent s).state).calls =
      [.notifyProgress (.percent 0), .notifyProgress (.percent 50), .disconnect none,
        .reply (.DisconnectResponceEvent ⟨none⟩), .notifyProgress (.percent 100)] := by
    simp [rocksdb.RocksdbDriver.handleDisconnectEvent, hD, CDBConnection.Disconnect,
      rocksdb.RocksdbDriver.failed]
  refine ⟨?_, ?_, ?_, hcalls, rfl, rfl⟩
  · simp [rocksdb.RocksdbDriver.handleDisconnectEvent, hD, CDBConnection.Disconnect]
  · simp [rocksdb.RocksdbDriver.handleDisconnectEvent, hD, CDBConnection.Disconnect]
  · rw [hcalls]
    rfl

theorem Disconnect_idempotent_witness :
    connectionDriver.disconnect = CDBConnection.Disconnect ∧
    (connectionDriver.handleDisconnectEvent
        (connectionDriver.handleDisconnectEvent ⟨true, [⟨⟨"k"⟩, some (.TYPE_STRING "v")⟩]⟩).state).state =
      ⟨false, [⟨⟨"k"⟩, some (.TYPE_STRING "v")⟩]⟩ ∧
    rocksdb.replies (connectionDriver.handleDisconnectEvent
        (connectionDriver.handleDisconnectEvent ⟨true, [⟨⟨"k"⟩, some (.TYPE_STRING "v")⟩]⟩).state).calls =
      [.DisconnectResponceEvent ⟨none⟩] :=
  ⟨rfl, by decide,
    (Disconnect_idempotent connectionDriver rfl ⟨true, [⟨⟨"k"⟩, some (.TYPE_STRING "v")⟩]⟩).2.2.1⟩

end internal

end core

namespace proxy

namespace leveldb

/-! ## The LevelDB proxy driver: command listing and scan replies -/

theorem pushCommands_eq :
    ∀ (todo i : Nat) (lcommands : List Nat),
      pushCommands todo i lcommands = lcommands ++ List.range' i todo := by
  intro todo
  induction todo with
  | zero => intro i lcommands; simp [pushCommands]
  | succ todo ih =>
    intro i lcommands
    rw [pushCommands, ih, List.range'_succ, List.append_assoc]
    rfl

/-- C23. Order-preserving command listing: for every command table and a non-null output,
`GetServerCommands` returns no error and writes a vector with exactly one entry per command
of the table, whose `i`-th entry is the pointer to the `i`-th table entry (it points to that
entry), and the table after the call is the table before it. -/
theorem GetServerCommands_order {C : Type} (origin : List C) :
    ∃ lcommands, GetServerCommands origin true = some (none, lcommands, origin) ∧
      lcommands.length = origin.length ∧
      (∀ i, i < origin.length → lcommands[i]? = some i) ∧
      (∀ i, i < origin.length → (lcommands[i]?).bind (deref origin) = origin[i]?) ∧
      lcommands.map (deref origin) = origin.map some := by
  have hrange : pushCommands origin.length 0 [] = List.range origin.length := by
    rw [pushCommands_eq, List.nil_append, List.range_eq_range']
  have hi : ∀ i, i < origin.length → (List.range origin.length)[i]? = some i := by
    intro i h
    rw [List.getElem?_range h]
  refine ⟨List.range origin.length, ?_, List.length_range _, hi, ?_, ?_⟩
  · simp [GetServerCommands, hrange]
  · intro i h
    rw [hi i h]
    rfl
  · apply List.ext_getElem?
    intro i
    by_cases h : i < origin.length
    · simp [List.getElem?_map, hi i h, deref, List.getElem?_eq_getElem h]
    · have h2 : origin.length ≤ i := Nat.le_of_not_lt h
      simp [List.getElem?_map, List.getElem?_eq_none, h2]

theorem GetServerCommands_order_witness :
    ∃ lcommands, GetServerCommands ["get", "set", "del"] true =
        some (none, lcommands, ["get", "set", "del"]) ∧
      lcommands = [0, 1, 2] ∧
      lcommands.map (deref ["get", "set", "del"]) = [some "get", some "set", some "del"] := by
  obtain ⟨l, h1, _, _, _, h5⟩ := GetServerCommands_order ["get", "set", "del"]
  refine ⟨l, h1, ?_, h5⟩
  have h0 : GetServerCommands ["get", "set", "del"] true =
      some (none, [0, 1, 2], ["get", "set", "del"]) := by decide
  rw [h0] at h1
  injection h1 with h1
  injection h1 with _ h1
  injection h1 with h1 _
  exact h1.symm

theorem scannedKeys_keys (ar : List ReplyValue) :
    (scannedKeys ar).map (fun kv => kv.key.key) = ar.filterMap ReplyValue.GetAsString ∧
      ∀ kv ∈ scannedKeys ar, kv.value = some (.TYPE_STRING "") := by
  constructor
  · unfold scannedKeys
    rw [List.map_filterMap]
    congr 1
    funext v
    cases h : v.GetAsString <;> simp [h]
  · intro kv hkv
    unfold scannedKeys at hkv
    rw [List.mem_filterMap] at hkv
    obtain ⟨v, _, hv⟩ := hkv
    rw [Option.map_eq_some'] at hv
    obtain ⟨key, _, rfl⟩ := hv
    rfl

theorem scan_no_string {S : Type} (D : Driver S) (s s2 : S)
    (req : LoadDatabaseContentResponce) (first second : ReplyValue)
    (hexec : D.Execute s .C_INNER (D.GetKeysPattern req.cursor_in req.pattern req.count_keys) =
      (none, [.array [first, second]], s2))
    (hf : first.GetAsString = none) :
    D.HandleLoadDatabaseContentEvent s req = some ⟨s2, [.NotifyProgress 0, .NotifyProgress 50,
      .Execute .C_INNER (D.GetKeysPattern req.cursor_in req.pattern req.count_keys) none,
      .NotifyProgress 75, .Reply req, .NotifyProgress 100]⟩ := by
  simp [Driver.HandleLoadDatabaseContentEvent, hexec,
    show (ReplyValue.array [first, second]).GetAsList = some [first, second] from rfl, hf]

theorem scan_no_list {S : Type} (D : Driver S) (s s2 : S)
    (req : LoadDatabaseContentResponce) (first second : ReplyValue) (cursor : String)
    (hexec : D.Execute s .C_INNER (D.GetKeysPattern req.cursor_in req.pattern req.count_keys) =
      (none, [.array [first, second]], s2))
    (hf : first.GetAsString = some cursor) (hl : second.GetAsList = none) :
    D.HandleLoadDatabaseContentEvent s req = some ⟨s2, [.NotifyProgress 0, .NotifyProgress 50,
      .Execute .C_INNER (D.GetKeysPattern req.cursor_in req.pattern req.count_keys) none,
      .NotifyProgress 75,
      .Reply { req with cursor_out := (D.ConvertFromString cursor).getD req.cursor_out },
      .NotifyProgress 100]⟩ := by
  cases hp : D.ConvertFromString cursor <;>
    simp [Driver.HandleLoadDatabaseContentEvent, hexec,
      show (ReplyValue.array [first, second]).GetAsList = some [first, second] from rfl,
      hf, hl, hp]

theorem scan_list {S : Type} (D : Driver S) (s s2 : S)
    (req : LoadDatabaseContentResponce) (first second : ReplyValue) (cursor : String)
    (ar : List ReplyValue)
    (hexec : D.Execute s .C_INNER (D.GetKeysPattern req.cursor_in req.pattern req.count_keys) =
      (none, [.array [first, second]], s2))
    (hcount : D.DCHECK_IS_ON = false ∨ (D.DBkcount s2).1 = none)
    (hf : first.GetAsString = some cursor) (hl : second.GetAsList = some ar) :
    D.HandleLoadDatabaseContentEvent s req = some ⟨(D.DBkcount s2).2.2,
      [.NotifyProgress 0, .NotifyProgress 50,
      .Execute .C_INNER (D.GetKeysPattern req.cursor_in req.pattern req.count_keys) none,
      .DBkcount (D.DBkcount s2).1, .NotifyProgress 75,
      .Reply { req with cursor_out := (D.ConvertFromString cursor).getD req.cursor_out,
                        keys := req.keys ++ scannedKeys ar,
                        db_keys_count := (D.DBkcount s2).2.1.getD req.db_keys_count },
      .NotifyProgress 100]⟩ := by
  have hc : ¬ (D.DCHECK_IS_ON = true ∧ (D.DBkcount s2).1.isSome = true) := by
    intro h
    rcases hcount with h1 | h1
    · rw [h1] at h; exact absurd h.1 (by decide)
    · rw [h1] at h; exact absurd h.2 (by decide)
  cases hp : D.ConvertFromString cursor <;>
    simp [Driver.HandleLoadDatabaseContentEvent, hexec,
      show (ReplyValue.array [first, second]).GetAsList = some [first, second] from rfl,
      hf, hl, hp, hc]

/-- C27. Scan-reply decoding: when the scan command succeeds with the single reply
`[first, second]` (and `DBkcount` does not trip the debug assertion), the handler returns and
replies once, with no new error; `cursor_out` of the response is the number parsed from
`first` when `first` is a string that parses as an unsigned integer, and the value of the
request otherwise; when `first` is a string and `second` is a list, the keys appended to
those of the request are exactly the string elements of the list, in list order, each paired
with the empty string value; when `first` is not a string or `second` is not a list, no key
is appended. -/
theorem HandleLoadDatabaseContentEvent_scan_reply {S : Type} (D : Driver S) (s s2 : S)
    (req : LoadDatabaseContentResponce) (first second : ReplyValue)
    (hexec : D.Execute s .C_INNER (D.GetKeysPattern req.cursor_in req.pattern req.count_keys) =
      (none, [.array [first, second]], s2))
    (hcount : D.DCHECK_IS_ON = false ∨ (D.DBkcount s2).1 = none) :
    ∃ r res, D.HandleLoadDatabaseContentEvent s req = some r ∧ replied r.calls = [res] ∧
      res.errorInfo = req.errorInfo ∧
      (∀ cursor lcursor, first.GetAsString = some cursor →
        D.ConvertFromString cursor = some lcursor → res.cursor_out = lcursor) ∧
      ((∀ cursor lcursor, first.GetAsString = some cursor →
        D.ConvertFromString cursor ≠ some lcursor) → res.cursor_out = req.cursor_out) ∧
      (∀ cursor ar, first.GetAsString = some cursor → second.GetAsList = some ar →
        res.keys = req.keys ++ scannedKeys ar) ∧
      (first.GetAsString = none ∨ second.GetAsList = none → res.keys = req.keys) ∧
      (∀ ar, (scannedKeys ar).map (fun kv => kv.key.key) =
          ar.filterMap ReplyValue.GetAsString ∧
        ∀ kv ∈ scannedKeys ar, kv.value = some (.TYPE_STRING "")) := by
  have hparse : ∀ cursor, (∀ c l, some cursor = some c → D.ConvertFromString c ≠ some l) →
      (D.ConvertFromString cursor).getD req.cursor_out = req.cursor_out := by
    intro cursor h
    cases hp : D.ConvertFromString cursor with
    | none => rfl
    | some l => exact absurd hp (h cursor l rfl)
  cases hf : first.GetAsString with
  | none =>
    refine ⟨_, req, scan_no_string D s s2 req first second hexec hf, rfl, rfl, ?_, ?_, ?_, ?_,
      scannedKeys_keys⟩
    · intro c l h; cases h
    · intro _; rfl
    · intro c ar h; cases h
    · intro _; rfl
  | some cursor =>
    cases hl : second.GetAsList with
    | none =>
      refine ⟨_, _, scan_no_list D s s2 req first second cursor hexec hf hl, rfl, rfl,
        ?_, ?_, ?_, ?_, scannedKeys_keys⟩
      · intro c l h hp
        cases h
        show (D.ConvertFromString cursor).getD req.cursor_out = l
        rw [hp]; rfl
      · intro h
        exact hparse cursor h
      · intro c ar _ h; cases h
      · intro _; rfl
    | some ar =>
      refine ⟨_, _, scan_list D s s2 req first second cursor ar hexec hcount hf hl, rfl, rfl,
        ?_, ?_, ?_, ?_, scannedKeys_keys⟩
      · intro c l h hp
        cases h
        show (D.ConvertFromString cursor).getD req.cursor_out = l
        rw [hp]; rfl
      · intro h
        exact hparse cursor h
      · intro c ar2 _ h
        cases h
        rfl
      · intro h
        rcases h with h | h <;> cases h

theorem HandleLoadDatabaseContentEvent_scan_reply_witness :
    ∃ r res, scanDriver.HandleLoadDatabaseContentEvent () ⟨0, "*", 10, 0, [], 0, none⟩ = some r ∧
      replied r.calls = [res] ∧ res.cursor_out = 7 ∧
      res.keys = [⟨⟨"a"⟩, some (.TYPE_STRING "")⟩, ⟨⟨"b"⟩, some (.TYPE_STRING "")⟩] := by
  obtain ⟨r, res, h1, h2, _, h4, _, h6, _, _⟩ :=
    HandleLoadDatabaseContentEvent_scan_reply scanDriver () () ⟨0, "*", 10, 0, [], 0, none⟩
      (.value (.TYPE_STRING "7"))
      (.array [.value (.TYPE_STRING "a"), .value (.TYPE_INTEGER 1), .value (.TYPE_STRING "b")])
      rfl (Or.inr rfl)
  exact ⟨r, res, h1, h2, h4 "7" 7 rfl rfl, h6 "7" _ rfl rfl⟩

end leveldb

end proxy

namespace gui

/-! ## The version selector of the shell widget -/

theorem setIcon_append (icon : Icon) (it : Item) (rest : List Item) :
    ∀ pre : List Item,
      setIcon icon (pre ++ it :: rest) pre.length = pre ++ { it with icon := icon } :: rest := by
  intro pre
  induction pre with
  | nil => rfl
  | cons x pre ih => simp [setIcon, ih]

theorem itemData_append (pre : List Item) (it : Item) (rest : List Item) (cur : Int) :
    QComboBox.itemData ⟨pre ++ it :: rest, cur⟩ pre.length = it.data := by
  unfold QComboBox.itemData
  rw [List.getElem?_append_right (le_refl _)]
  simp

theorem markItems_cons (U sv : Nat) (updated : Bool) (it : Item) (rest : List Item) :
    markItems U sv updated (it :: rest) =
      { it with icon := if it.data = U then Icon.Unknown
                        else if it.data ≥ sv ∧ updated = true then Icon.Fail
                        else Icon.Success } ::
        markItems U sv (updated || fits U sv it.data) rest := by
  rw [markItems]
  by_cases h1 : it.data = U
  · simp [h1, fits]
  · by_cases h2 : it.data ≥ sv
    · cases updated <;> simp [h1, h2, fits]
    · simp [h1, h2, fits]

theorem firstFit_cons (U sv : Nat) (it : Item) (rest : List Item) :
    firstFit U sv (it :: rest) =
      if fits U sv it.data = true then some 0
      else (firstFit U sv rest).map (fun k => k + 1) := rfl

theorem versionLoop_eq (U sv : Nat) :
    ∀ (rest pre : List Item) (updated : Bool) (cur : Int),
      versionLoop U sv rest.length pre.length updated ⟨pre ++ rest, cur⟩ =
        ⟨pre ++ markItems U sv updated rest,
          if updated = true then cur
          else match firstFit U sv rest with
            | some k => ((pre.length + k : Nat) : Int)
            | none => cur⟩ := by
  intro rest
  induction rest with
  | nil =>
    intro pre updated cur
    cases updated <;> simp [versionLoop, markItems, firstFit]
  | cons it rest ih =>
    intro pre updated cur
    have hlen : ∀ x : Item, (pre ++ [x]).length = pre.length + 1 := by
      intro x; simp
    have happ : ∀ (x : Item) (l : List Item), pre ++ x :: l = (pre ++ [x]) ++ l := by
      intro x l; simp
    have hset : ∀ (icon : Icon) (c : Int),
        QComboBox.setItemIcon ⟨pre ++ it :: rest, c⟩ pre.length icon =
          ⟨(pre ++ [{ it with icon := icon }]) ++ rest, c⟩ := by
      intro icon c
      simp [QComboBox.setItemIcon, setIcon_append]
    have hcur : QComboBox.setCurrentIndex ⟨pre ++ it :: rest, cur⟩ pre.length =
        ⟨pre ++ it :: rest, (pre.length : Int)⟩ := by
      simp [QComboBox.setCurrentIndex, QComboBox.count]
    rw [List.length_cons, versionLoop]
    simp only [itemData_append]
    rw [markItems_cons, firstFit_cons]
    by_cases h1 : it.data = U
    · have hfit : fits U sv it.data = false := by simp [fits, h1]
      rw [if_pos h1, hset, ← hlen, ih, hfit]
      simp only [h1, if_true, Bool.or_false, List.append_assoc, List.singleton_append,
        Bool.false_eq_true, if_false, hlen]
      cases updated
      · cases firstFit U sv rest with
        | none => simp
        | some k => simp; omega
      · simp
    · by_cases h2 : it.data ≥ sv
      · have hfit : fits U sv it.data = true := by simp [fits, h1, h2]
        rw [if_neg h1, if_pos h2]
        cases updated
        · rw [if_pos (by rfl), hcur, hset, ← hlen, ih, hfit]
          simp [h1, h2]
        · rw [if_neg (by simp), hset, ← hlen, ih, hfit]
          simp [h1, h2]
      · have hfit : fits U sv it.data = false := by simp [fits, h1, h2]
        rw [if_neg h1, if_neg h2, hset, ← hlen, ih, hfit]
        simp only [h1, h2, false_and, if_false, Bool.or_false, List.append_assoc,
          List.singleton_append, Bool.false_eq_true, hlen]
        cases updated
        · cases firstFit U sv rest with
        | none => simp
        | some k => simp; omega
        · simp

theorem markItems_data (U sv : Nat) :
    ∀ (l : List Item) (b : Bool), (markItems U sv b l).map Item.data = l.map Item.data := by
  intro l
  induction l with
  | nil => intro b; rfl
  | cons x l ih => intro b; rw [markItems_cons]; simp [ih]

theorem any_take_iff (p : Item → Bool) (l : List Item) (i : Nat) :
    (l.take i).any p = true ↔
      ∃ (j : Nat) (jt : Item), j < i ∧ l[j]? = some jt ∧ p jt = true := by
  rw [List.any_eq_true]
  constructor
  · rintro ⟨x, hx, hp⟩
    obtain ⟨n, hn⟩ := List.mem_iff_getElem?.1 hx
    rw [List.getElem?_take] at hn
    split_ifs at hn with h
    exact ⟨n, x, h, hn, hp⟩
  · rintro ⟨j, jt, hj, hjt, hp⟩
    refine ⟨jt, List.mem_iff_getElem?.2 ⟨j, ?_⟩, hp⟩
    rw [List.getElem?_take, if_pos hj]
    exact hjt

theorem markItems_icon (U sv : Nat) :
    ∀ (l : List Item) (b : Bool) (i : Nat) (it : Item), l[i]? = some it →
      ((markItems U sv b l)[i]?).map Item.icon = some
        (if it.data = U then Icon.Unknown
         else if it.data ≥ sv ∧
            (b || (l.take i).any (fun jt => fits U sv jt.data)) = true then Icon.Fail
         else Icon.Success) := by
  intro l
  induction l with
  | nil => intro b i it h; simp at h
  | cons x l ih =>
    intro b i it h
    rw [markItems_cons]
    cases i with
    | zero =>
      simp only [List.getElem?_cons_zero, Option.some.injEq] at h
      subst h
      simp
    | succ i =>
      simp only [List.getElem?_cons_succ] at h ⊢
      rw [ih _ i it h]
      simp only [List.take_succ_cons, List.any_cons, Bool.or_assoc]

theorem firstFit_least (U sv : Nat) :
    ∀ (l : List Item) (i : Nat) (it : Item), l[i]? = some it → fits U sv it.data = true →
      (∀ (j : Nat) (jt : Item), j < i → l[j]? = some jt → fits U sv jt.data = false) →
      firstFit U sv l = some i := by
  intro l
  induction l with
  | nil => intro i it h; simp at h
  | cons x l ih =>
    intro i it h hf hleast
    rw [firstFit_cons]
    cases i with
    | zero =>
      simp only [List.getElem?_cons_zero, Option.some.injEq] at h
      subst h
      rw [if_pos hf]
    | succ i =>
      have hx : fits U sv x.data = false := hleast 0 x (by omega) (by simp)
      rw [hx, if_neg (by simp),
        ih i it (by simpa using h) hf
          (fun j jt hj hjt => hleast (j + 1) jt (by omega) (by simpa using hjt))]
      rfl

theorem firstFit_none (U sv : Nat) :
    ∀ (l : List Item),
      (∀ (j : Nat) (jt : Item), l[j]? = some jt → fits U sv jt.data = false) →
      firstFit U sv l = none := by
  intro l
  induction l with
  | nil => intro _; rfl
  | cons x l ih =>
    intro h
    rw [firstFit_cons, h 0 x (by simp), if_neg (by simp),
      ih (fun j jt hjt => h (j + 1) jt (by simpa using hjt))]
    rfl

theorem updateServerInfo_eq (U sv : Nat) (box : QComboBox) (hs : sv ≠ U) :
    updateServerInfo U (some sv) box =
      ⟨markItems U sv false box.items,
        match firstFit U sv box.items with
        | some k => (k : Int)
        | none => box.currentIndex⟩ := by
  unfold updateServerInfo
  simp only [if_neg hs]
  have h := versionLoop_eq U sv box.items [] false box.currentIndex
  simp only [List.length_nil, List.nil_append, Bool.false_eq_true, if_false,
    Nat.zero_add] at h
  exact h

/-- C28. API-version selection: for every list of item versions, every current index and every
server version `sv` other than `UNDEFINED_SINCE`, `updateServerInfo` keeps the versions of the
items; item `i` gets the Unknown icon iff its version is `UNDEFINED_SINCE`, the Fail icon iff
its version is defined and not below `sv` and an earlier item also has a defined version not
below `sv`, and the Success icon otherwise; the current index becomes the least `i` whose
version is defined and not below `sv` when there is one, and is left as it was otherwise.
When the server version is `UNDEFINED_SINCE`, nothing changes. -/
theorem updateServerInfo_version_selection (U sv : Nat) (box : QComboBox) (hs : sv ≠ U) :
    (updateServerInfo U (some sv) box).items.map Item.data = box.items.map Item.data ∧
    (∀ (i : Nat) (it : Item), box.items[i]? = some it →
      ∃ icon, ((updateServerInfo U (some sv) box).items[i]?).map Item.icon = some icon ∧
        (icon = .Unknown ↔ it.data = U) ∧
        (icon = .Fail ↔ it.data ≠ U ∧ it.data ≥ sv ∧
          ∃ (j : Nat) (jt : Item),
            j < i ∧ box.items[j]? = some jt ∧ jt.data ≠ U ∧ jt.data ≥ sv) ∧
        (icon = .Success ↔ it.data ≠ U ∧ ¬ (it.data ≥ sv ∧
          ∃ (j : Nat) (jt : Item),
            j < i ∧ box.items[j]? = some jt ∧ jt.data ≠ U ∧ jt.data ≥ sv))) ∧
    (∀ (i : Nat) (it : Item), box.items[i]? = some it → it.data ≠ U → it.data ≥ sv →
      (∀ (j : Nat) (jt : Item), j < i → box.items[j]? = some jt →
        ¬ (jt.data ≠ U ∧ jt.data ≥ sv)) →
      (updateServerInfo U (some sv) box).currentIndex = ((i : Nat) : Int)) ∧
    ((∀ (i : Nat) (it : Item), box.items[i]? = some it → ¬ (it.data ≠ U ∧ it.data ≥ sv)) →
      (updateServerInfo U (some sv) box).currentIndex = box.currentIndex) ∧
    updateServerInfo U (some U) box = box := by
  have hfits : ∀ v, fits U sv v = true ↔ v ≠ U ∧ v ≥ sv := by
    intro v; simp [fits]
  have hnfits : ∀ v, ¬ (v ≠ U ∧ v ≥ sv) → fits U sv v = false := by
    intro v h
    cases hf : fits U sv v with
    | false => rfl
    | true => exact absurd ((hfits v).1 hf) h
  rw [updateServerInfo_eq U sv box hs]
  refine ⟨markItems_data U sv box.items false, ?_, ?_, ?_, ?_⟩
  · intro i it hit
    have hex : ((false || (box.items.take i).any (fun jt => fits U sv jt.data)) = true) ↔
        ∃ (j : Nat) (jt : Item),
          j < i ∧ box.items[j]? = some jt ∧ jt.data ≠ U ∧ jt.data ≥ sv := by
      rw [Bool.false_or, any_take_iff]
      constructor
      · rintro ⟨j, jt, h1, h2, h3⟩
        exact ⟨j, jt, h1, h2, (hfits _).1 h3⟩
      · rintro ⟨j, jt, h1, h2, h3⟩
        exact ⟨j, jt, h1, h2, (hfits _).2 h3⟩
    refine ⟨_, markItems_icon U sv box.items false i it hit, ?_, ?_, ?_⟩
    · by_cases h1 : it.data = U
      · simp [h1]
      · simp only [h1, if_false, iff_false]
        split_ifs <;> simp
    · rw [← hex]
      by_cases h1 : it.data = U
      · simp [h1]
      · simp only [h1, if_false, ne_eq, not_false_eq_true, true_and]
        split_ifs with h2
        · simp only [true_iff]
          exact h2
        · simp only [false_iff, reduceCtorEq]
          exact h2
    · rw [← hex]
      by_cases h1 : it.data = U
      · simp [h1]
      · simp only [h1, if_false, ne_eq, not_false_eq_true, true_and]
        split_ifs with h2
        · simp only [false_iff, reduceCtorEq, not_not]
          exact h2
        · simp only [true_iff]
          exact h2
  · intro i it hit h1 h2 hleast
    show (match firstFit U sv box.items with
      | some k => (k : Int)
      | none => box.currentIndex) = (i : Int)
    rw [firstFit_least U sv box.items i it hit ((hfits _).2 ⟨h1, h2⟩)
      (fun j jt hj hjt => hnfits _ (hleast j jt hj hjt))]
  · intro hnone
    show (match firstFit U sv box.items with
      | some k => (k : Int)
      | none => box.currentIndex) = box.currentIndex
    rw [firstFit_none U sv box.items (fun j jt hjt => hnfits _ (hnone j jt hjt))]
  · simp [updateServerInfo]

theorem updateServerInfo_version_selection_witness :
    (4 : Nat) ≠ 0 ∧
    updateServerInfo 0 (some 4) exampleBox =
      ⟨[⟨.Unknown, 0⟩, ⟨.Success, 3⟩, ⟨.Success, 5⟩, ⟨.Success, 2⟩, ⟨.Fail, 7⟩], 2⟩ ∧
    (updateServerInfo 0 (some 4) exampleBox).currentIndex = ((2 : Nat) : Int) ∧
    updateServerInfo 0 (some 0) exampleBox = exampleBox ∧
    updateServerInfo 0 none exampleBox =
      ⟨[⟨.Unknown, 0⟩, ⟨.Unknown, 3⟩, ⟨.Unknown, 5⟩, ⟨.Unknown, 2⟩, ⟨.Unknown, 7⟩], 4⟩ :=
  ⟨by decide, by decide,
    (updateServerInfo_version_selection 0 4 exampleBox (by decide)).2.2.1 2 ⟨.Unknown, 5⟩ rfl
      (by decide) (by decide)
      (fun j jt hj hjt => by
        have hj2 : j = 0 ∨ j = 1 := by omega
        rcases hj2 with rfl | rfl
        · simp only [exampleBox, List.getElem?_cons_zero, Option.some.injEq] at hjt
          subst hjt
          decide
        · simp only [exampleBox, List.getElem?_cons_succ, List.getElem?_cons_zero,
            Option.some.injEq] at hjt
          subst hjt
          decide),
    (updateServerInfo_version_selection 0 4 exampleBox (by decide)).2.2.2.2,
    by decide⟩

end gui

end fastonosql
